import Mathlib

/-!
Auto-aim pipeline of `full_demo/robomaster_full_demo.cpp`.

A shallow embedding of the per-frame targeting pipeline of
`RoboMasterAutoAimDemo` (detection, pose, motion prediction, firing solution,
target validation, target history), followed by theorems about it.

Conventions of the embedding:

* A C++ `double` is a value of `Dbl`: a finite value, idealised as an exact
  rational, or one of `+inf`, `-inf`, `NaN`.  Arithmetic and comparisons on the
  three non-finite values follow IEEE 754, so that every `std::isfinite` test,
  every division by zero and every comparison with `NaN` of the source is kept.
  Rounding, overflow of finite values and the sign of zero are not modelled.
* Values that OpenCV computes from the image (contour area, rotated rectangle,
  corner points, bounding box) are inputs and are finite, hence rationals.
* Calls that leave the program (`cv::solvePnP`, `cv::minAreaRect` on the corner
  points, `sqrt`, `atan2`, `rm::isValidArmorID`) are fields of `Extern`; the
  random draw of `validateTarget` and the member `target_history` are explicit
  arguments.
-/

namespace AutoAim

/-! ## Doubles -/

/-- A C++ double: finite (an exact rational), plus or minus infinity, or NaN. -/
inductive Dbl where
  | fin (q : ℚ)
  | pinf
  | ninf
  | nan
deriving DecidableEq

namespace Dbl

/-- The infinity (or NaN) whose sign is the sign of `s`: the IEEE result of an
operation that overflows to infinity with sign `s`, and NaN for `0 × inf`. -/
def ofSign (s : ℚ) : Dbl :=
  if 0 < s then pinf else if s < 0 then ninf else nan

/-- Sign carrier of a value that is not NaN: itself when finite, plus or minus one
for the infinities. -/
def sgn : Dbl → ℚ
  | fin q => q
  | pinf => 1
  | ninf => -1
  | nan => 0

/-- IEEE negation. -/
def neg : Dbl → Dbl
  | fin q => fin (-q)
  | pinf => ninf
  | ninf => pinf
  | nan => nan

/-- IEEE addition. -/
def add : Dbl → Dbl → Dbl
  | fin a, fin b => fin (a + b)
  | nan, _ => nan
  | _, nan => nan
  | pinf, ninf => nan
  | ninf, pinf => nan
  | pinf, _ => pinf
  | _, pinf => pinf
  | ninf, _ => ninf
  | _, ninf => ninf

/-- IEEE subtraction. -/
def sub (a b : Dbl) : Dbl := add a (neg b)

/-- IEEE multiplication: `0 × inf` is NaN. -/
def mul : Dbl → Dbl → Dbl
  | fin a, fin b => fin (a * b)
  | nan, _ => nan
  | _, nan => nan
  | a, b => ofSign (sgn a * sgn b)

/-- IEEE division: a finite value over zero is an infinity of its sign, `0 / 0`
and `inf / inf` are NaN, a finite value over an infinity is zero. -/
def div : Dbl → Dbl → Dbl
  | fin a, fin b => if b = 0 then ofSign a else fin (a / b)
  | nan, _ => nan
  | _, nan => nan
  | fin _, _ => fin 0
  | a, fin b => ofSign (sgn a * (if b < 0 then -1 else 1))
  | _, _ => nan

/-- IEEE `<`: false as soon as one side is NaN. -/
def lt : Dbl → Dbl → Bool
  | fin a, fin b => decide (a < b)
  | nan, _ => false
  | _, nan => false
  | ninf, ninf => false
  | ninf, _ => true
  | _, ninf => false
  | pinf, _ => false
  | _, pinf => true

/-- IEEE `==`: NaN is equal to nothing, itself included. -/
def eq : Dbl → Dbl → Bool
  | fin a, fin b => decide (a = b)
  | pinf, pinf => true
  | ninf, ninf => true
  | _, _ => false

/-- IEEE `<=`. -/
def le (a b : Dbl) : Bool := lt a b || eq a b

/-- IEEE `!=`: the negation of `==`, so true when a side is NaN. -/
def ne (a b : Dbl) : Bool := !eq a b

/-- The test `std::isfinite`. -/
def isfinite : Dbl → Bool
  | fin _ => true
  | _ => false

instance : Neg Dbl := ⟨neg⟩
instance : Add Dbl := ⟨add⟩
instance : Sub Dbl := ⟨sub⟩
instance : Mul Dbl := ⟨mul⟩
instance : Div Dbl := ⟨div⟩
instance : LT Dbl := ⟨fun a b => lt a b = true⟩
instance : LE Dbl := ⟨fun a b => le a b = true⟩
instance (a b : Dbl) : Decidable (a < b) := inferInstanceAs (Decidable (lt a b = true))
instance (a b : Dbl) : Decidable (a ≤ b) := inferInstanceAs (Decidable (le a b = true))
instance : Coe ℚ Dbl := ⟨fin⟩
instance (n : Nat) : OfNat Dbl n := ⟨fin n⟩
instance : OfScientific Dbl := ⟨fun m s e => fin (OfScientific.ofScientific m s e)⟩

/-- The function `std::max(a, b)`, which is `(a < b) ? b : a`. -/
def std_max (a b : Dbl) : Dbl := if a < b then b else a

/-- The function `std::min(a, b)`, which is `(b < a) ? b : a`. -/
def std_min (a b : Dbl) : Dbl := if b < a then b else a

end Dbl

open Dbl

/-! ## Data model -/

/-- The type `cv::Point2f`; its coordinates are finite in this program. -/
structure Point2f where
  x : ℚ
  y : ℚ
deriving DecidableEq

/-- The type `cv::Point` (integer pixel coordinates). -/
structure Point where
  x : Int
  y : Int
deriving DecidableEq

/-- The type `cv::Point3f`. -/
structure Point3f where
  x : ℚ
  y : ℚ
  z : ℚ
deriving DecidableEq

/-- The type `cv::Size2f`. -/
structure Size2f where
  width : ℚ
  height : ℚ
deriving DecidableEq

/-- The type `cv::Rect`; default constructed as all zeros. -/
structure Rect where
  x : Int := 0
  y : Int := 0
  width : Int := 0
  height : Int := 0
deriving DecidableEq

/-- The type `cv::Vec3d`, components `[0]`, `[1]`, `[2]`; default constructed as
zeros. -/
structure Vec3d where
  v0 : Dbl := 0
  v1 : Dbl := 0
  v2 : Dbl := 0
deriving DecidableEq

/-- Modelled from the spec: the enumerators of `rm::ArmorColor` that the program
uses; the declaration (`structure/enums.hpp`) is not among the sources. -/
inductive ArmorColor where
  | ARMOR_COLOR_NONE
  | ARMOR_COLOR_RED
  | ARMOR_COLOR_BLUE
deriving DecidableEq

/-- Modelled from the spec: the enumerators of `rm::ArmorSize` that the program
uses; the declaration (`structure/enums.hpp`) is not among the sources. -/
inductive ArmorSize where
  | ARMOR_SIZE_UNKNOWN
  | ARMOR_SIZE_SMALL_ARMOR
  | ARMOR_SIZE_BIG_ARMOR
deriving DecidableEq

/-- Modelled from the spec: the enumerators of `rm::ArmorID` that the program
uses; the declaration (`structure/enums.hpp`) is not among the sources. -/
inductive ArmorID where
  | ARMOR_ID_UNKNOWN
  | ARMOR_ID_HERO
  | ARMOR_ID_SENTRY
  | ARMOR_ID_INFANTRY_3
  | ARMOR_ID_INFANTRY_4
  | ARMOR_ID_INFANTRY_5
deriving DecidableEq

/-- The struct `DetectionParams` with its default member initialisers. -/
structure DetectionParams where
  binary_threshold : ℚ := 100
  area_threshold : ℚ := 100
  aspect_ratio_min : ℚ := 1
  aspect_ratio_max : ℚ := 5
  erosion_size : Int := 2
  dilation_size : Int := 3
deriving DecidableEq

/-- The struct `FullTargetingResult` with its default member initialisers. -/
structure FullTargetingResult where
  armor_detected : Bool := false
  armor_bbox : Rect := {}
  detected_color : ArmorColor := ArmorColor.ARMOR_COLOR_NONE
  armor_size : ArmorSize := ArmorSize.ARMOR_SIZE_UNKNOWN
  armor_corners : List Point2f := []
  confidence : Dbl := 0
  center_2d : Point2f := ⟨0, 0⟩
  position_solved : Bool := false
  position_3d : Vec3d := {}
  distance_3d : Dbl := 0
  rotation_3d : Vec3d := {}
  yaw_angle : Dbl := 0
  pitch_angle : Dbl := 0
  flight_time : Dbl := 0
  bullet_drop : Dbl := 0
  velocity_3d : Vec3d := {}
  predicted_pos : Vec3d := {}
  can_fire : Bool := false
  firing_yaw : Dbl := 0
  firing_pitch : Dbl := 0
  hit_probability : Dbl := 0
  target_id : ArmorID := ArmorID.ARMOR_ID_UNKNOWN
  target_priority : Int := 0
  is_valid_target : Bool := false
deriving DecidableEq

/-- What `cv::minAreaRect` returns for a contour, with the four corners that
`RotatedRect::points` writes and the box that `boundingRect` returns. -/
structure RotatedRect where
  center : Point2f
  size : Size2f
  p0 : Point2f
  p1 : Point2f
  p2 : Point2f
  p3 : Point2f
  boundingRect : Rect
deriving DecidableEq

/-- One entry of `contours` as the detector sees it: the value of
`cv::contourArea` and the value of `cv::minAreaRect` for that contour. -/
structure Contour where
  area : ℚ
  rect : RotatedRect
deriving DecidableEq

/-- What `cv::solvePnP` hands back: its return value and the two output vectors. -/
structure PnPResult where
  success : Bool
  rvec : Vec3d
  tvec : Vec3d
deriving DecidableEq

/-- The calls that leave the program.  `solvePnP` receives the armor model and the
image corners (camera matrix and distortion are members that never change);
`minAreaRect` is the call on the integer corner points of the 2D fallback and
returns the size of the rectangle; `isValidArmorID` is `rm::isValidArmorID`
with the mask `rm::VALID_BYTE_MASK_ALL`. -/
structure Extern where
  solvePnP : List Point3f → List Point2f → PnPResult
  minAreaRect : List Point → Size2f
  sqrt : Dbl → Dbl
  atan2 : Dbl → Dbl → Dbl
  isValidArmorID : ArmorID → Bool

/-- The constant `MAX_HISTORY`. -/
def MAX_HISTORY : Nat := 10

/-- The constant `BULLET_SPEED`, in m/s. -/
def BULLET_SPEED : Dbl := 30.0

/-- The constant `GRAVITY`, in m/s². -/
def GRAVITY : Dbl := 9.81

/-- The constant `M_PI` of `<cmath>`. -/
def M_PI : Dbl := 3.14159265358979323846

/-- The member `small_armor_points` (millimetres). -/
def small_armor_points : List Point3f :=
  [⟨-67.5, -27.5, 0⟩, ⟨67.5, -27.5, 0⟩, ⟨67.5, 27.5, 0⟩, ⟨-67.5, 27.5, 0⟩]

/-- The member `large_armor_points` (millimetres). -/
def large_armor_points : List Point3f :=
  [⟨-115, -27.5, 0⟩, ⟨115, -27.5, 0⟩, ⟨115, 27.5, 0⟩, ⟨-115, 27.5, 0⟩]

/-- The function `cv::norm` on a `cv::Vec3d`: the square root of the sum of the
squared components. -/
def norm (E : Extern) (v : Vec3d) : Dbl :=
  E.sqrt (v.v0 * v.v0 + v.v1 * v.v1 + v.v2 * v.v2)

/-- Conversion of a float to `int`, as in `cv::Point(corner.x, corner.y)`:
truncation toward zero. -/
def truncToInt (q : ℚ) : Int := Int.tdiv q.num q.den

/-! ## Detection (`performVisionDetection`) -/

/-- The local `aspect_ratio` of the contour loop: `std::max(w, h) / std::min(w, h)`
on the size of the rotated rectangle. -/
def aspect_ratio (rect : RotatedRect) : Dbl :=
  std_max rect.size.width rect.size.height / std_min rect.size.width rect.size.height

/-- The local `score` of the contour loop: `area / (aspect_ratio * 100)`. -/
def score (c : Contour) : Dbl := (c.area : Dbl) / (aspect_ratio c.rect * 100)

/-- The qualification of a contour in the words of the specification: area at
least `area_threshold` and aspect ratio between `aspect_ratio_min` and
`aspect_ratio_max`, bounds included.  The loop itself is `contourStep`. -/
def qualifies (params : DetectionParams) (c : Contour) : Prop :=
  (params.area_threshold : Dbl) ≤ (c.area : Dbl) ∧
    (params.aspect_ratio_min : Dbl) ≤ aspect_ratio c.rect ∧
      aspect_ratio c.rect ≤ (params.aspect_ratio_max : Dbl)

instance (params : DetectionParams) (c : Contour) : Decidable (qualifies params c) :=
  inferInstanceAs (Decidable (_ ∧ _))

/-- One iteration of the contour loop on the pair `(best_score, best_contour)`,
for the contour `c` at index `i`. -/
def contourStep (params : DetectionParams) (st : Dbl × Int) (i : Nat) (c : Contour) :
    Dbl × Int :=
  if (c.area : Dbl) < (params.area_threshold : Dbl) then st
  else if (params.aspect_ratio_min : Dbl) ≤ aspect_ratio c.rect ∧
      aspect_ratio c.rect ≤ (params.aspect_ratio_max : Dbl) then
    if st.1 < score c then (score c, (i : Int)) else st
  else st

/-- The contour loop from index `i` on, started in state `st`. -/
def scanContours (params : DetectionParams) : List Contour → Nat → Dbl × Int → Dbl × Int
  | [], _, st => st
  | c :: cs, i, st => scanContours params cs (i + 1) (contourStep params st i c)

/-- The whole contour loop: `best_score = 0`, `best_contour = -1`, then every
contour from index 0. -/
def analyzeContours (params : DetectionParams) (contours : List Contour) : Dbl × Int :=
  scanContours params contours 0 (0, -1)

/-- The comparator handed to `std::sort` for the corners. -/
def cornerLess (a b : Point2f) : Bool :=
  if |a.y - b.y| < 5 then decide (a.x < b.x) else decide (a.y < b.y)

/-- The helper `__unguarded_linear_insert` of `std::sort`: starting at the back of
the sorted part, every element that `val` precedes moves one place up, and
`val` lands behind the first element that it does not precede. -/
def unguardedLinearInsert {α : Type} (comp : α → α → Bool) (val : α) (sorted : List α) :
    List α :=
  (sorted.reverse.dropWhile (comp val)).reverse ++
    val :: (sorted.reverse.takeWhile (comp val)).reverse

/-- One round of `__insertion_sort`: an element that precedes the first one moves to
the front, any other is inserted from the back. -/
def insertionStep {α : Type} (comp : α → α → Bool) (sorted : List α) (val : α) : List α :=
  match sorted with
  | [] => [val]
  | first :: _ =>
    if comp val first then val :: sorted else unguardedLinearInsert comp val sorted

/-- The function `std::sort` on a range of at most 16 elements, where it is the
insertion sort of the library. -/
def std_sort {α : Type} (comp : α → α → Bool) (l : List α) : List α :=
  l.foldl (insertionStep comp) []

/-- The method `performVisionDetection`, from the contours on (the colour mask,
the morphology and `cv::findContours` produce them from the frame). -/
def performVisionDetection (params : DetectionParams) (enemy_color : ArmorColor)
    (contours : List Contour) : FullTargetingResult :=
  let result : FullTargetingResult := {}
  let best := analyzeContours params contours
  let best_score := best.1
  let best_contour := best.2
  if 0 ≤ best_contour then
    match contours.get? best_contour.toNat with
    | none => result
    | some c =>
      let rect := c.rect
      let ordered_corners := std_sort cornerLess [rect.p0, rect.p1, rect.p2, rect.p3]
      { result with
        armor_detected := true
        confidence := std_min 100.0 (best_score / 10.0)
        detected_color := enemy_color
        armor_bbox := rect.boundingRect
        center_2d := rect.center
        armor_corners := ordered_corners
        armor_size :=
          if (2000 : Dbl) < (c.area : Dbl) then ArmorSize.ARMOR_SIZE_BIG_ARMOR
          else ArmorSize.ARMOR_SIZE_SMALL_ARMOR }
  else result

/-! ## Pose (`calculate3DPosition`) -/

/-- The yaw expression `atan2(x, z) * 180.0 / M_PI`. -/
def yawOf (E : Extern) (p : Vec3d) : Dbl := E.atan2 p.v0 p.v2 * 180.0 / M_PI

/-- The local `horizontal_dist`: `sqrt(x * x + z * z)`. -/
def horizontalDist (E : Extern) (p : Vec3d) : Dbl := E.sqrt (p.v0 * p.v0 + p.v2 * p.v2)

/-- Element `i` of `armor_corners`; the indices used are below the size, which is 4
where they are used. -/
def cornerAt (result : FullTargetingResult) (i : Nat) : Point2f :=
  result.armor_corners.getD i ⟨0, 0⟩

/-- Lines 378 to 395 of the source: the solver's vectors are stored, and when the
three components of the position are finite the position counts as solved and
the distance is its norm in centimetres; the second component is the flag
`success` after this block. -/
def takePnP (E : Extern) (result : FullTargetingResult) (pnp : PnPResult) :
    FullTargetingResult × Bool :=
  let result := { result with position_3d := pnp.tvec, rotation_3d := pnp.rvec }
  if isfinite result.position_3d.v0 && isfinite result.position_3d.v1 &&
      isfinite result.position_3d.v2 then
    ({ result with position_solved := true, distance_3d := norm E result.position_3d / 10.0 },
      true)
  else (result, false)

/-- The condition of line 399:
`!success || result.distance_3d < 5.0 || result.distance_3d > 1000.0`. -/
def needsFallback (success : Bool) (result : FullTargetingResult) : Bool :=
  !success || decide (result.distance_3d < (5.0 : Dbl)) ||
    decide ((1000.0 : Dbl) < result.distance_3d)

/-- Lines 400 to 420 of the source: the 2D fallback inside the branch where the
solver reported success. -/
def fallbackAfterPnP (E : Extern) (result : FullTargetingResult) : FullTargetingResult :=
  let contour_points : List Point :=
    result.armor_corners.map (fun corner => ⟨truncToInt corner.x, truncToInt corner.y⟩)
  let rect := E.minAreaRect contour_points
  let armor_width_pixels : Dbl := std_max rect.width rect.height
  let distance_3d : Dbl := (100.0 * 100.0) / armor_width_pixels
  let center_x : Dbl := (((cornerAt result 0).x : Dbl) + ((cornerAt result 2).x : Dbl)) / 2.0
  let center_y : Dbl := (((cornerAt result 0).y : Dbl) + ((cornerAt result 2).y : Dbl)) / 2.0
  let world_x := (center_x - 320.0) * distance_3d * 10.0 / 800.0
  let world_y := (center_y - 240.0) * distance_3d * 10.0 / 800.0
  let world_z := distance_3d * 10.0
  { result with
    distance_3d := distance_3d
    position_3d := ⟨world_x, -world_y, world_z⟩
    position_solved := true }

/-- The pitch expression `atan2(-y, horizontal_dist) * 180.0 / M_PI` behind its
guard `horizontal_dist > 0.001`. -/
def pitchOf (E : Extern) (p : Vec3d) : Dbl :=
  if (0.001 : Dbl) < horizontalDist E p then
    E.atan2 (-p.v1) (horizontalDist E p) * 180.0 / M_PI
  else 0.0

/-- Lines 427 to 449 of the source: yaw and pitch to the current position, zero when
the position is not finite or lies on the Y axis. -/
def anglesGuarded (E : Extern) (result : FullTargetingResult) : FullTargetingResult :=
  if isfinite result.position_3d.v0 && isfinite result.position_3d.v1 &&
      isfinite result.position_3d.v2 then
    if Dbl.ne result.position_3d.v0 0.0 || Dbl.ne result.position_3d.v2 0.0 then
      { result with
        yaw_angle := yawOf E result.position_3d
        pitch_angle := pitchOf E result.position_3d }
    else { result with yaw_angle := 0.0, pitch_angle := 0.0 }
  else { result with yaw_angle := 0.0, pitch_angle := 0.0 }

/-- Lines 451 to 482 of the source: the branch where the solver reported failure,
with its own copy of the 2D fallback, unguarded angles and the penalty of 20. -/
def fallbackNoPnP (E : Extern) (result : FullTargetingResult) : FullTargetingResult :=
  let contour_points : List Point :=
    result.armor_corners.map (fun corner => ⟨truncToInt corner.x, truncToInt corner.y⟩)
  let rect := E.minAreaRect contour_points
  let armor_width_pixels : Dbl := std_max rect.width rect.height
  let distance_3d : Dbl := (100.0 * 100.0) / armor_width_pixels
  let center_x : Dbl := (((cornerAt result 0).x : Dbl) + ((cornerAt result 2).x : Dbl)) / 2.0
  let center_y : Dbl := (((cornerAt result 0).y : Dbl) + ((cornerAt result 2).y : Dbl)) / 2.0
  let world_x := (center_x - 320.0) * distance_3d * 10.0 / 800.0
  let world_y := (center_y - 240.0) * distance_3d * 10.0 / 800.0
  let world_z := distance_3d * 10.0
  let position_3d : Vec3d := ⟨world_x, -world_y, world_z⟩
  { result with
    distance_3d := distance_3d
    position_3d := position_3d
    position_solved := true
    yaw_angle := yawOf E position_3d
    pitch_angle := pitchOf E position_3d
    confidence := std_max 0.0 (result.confidence - 20) }

/-- The confidence update of line 425:
`using_fallback ? std::max(0.0, confidence - 10) : confidence`. -/
def penalize (using_fallback : Bool) (result : FullTargetingResult) : FullTargetingResult :=
  { result with
    confidence :=
      if using_fallback then std_max 0.0 (result.confidence - 10) else result.confidence }

/-- The method `calculate3DPosition`. -/
def calculate3DPosition (E : Extern) (result : FullTargetingResult) : FullTargetingResult :=
  if !result.armor_detected || result.armor_corners.length != 4 then result else
  let armor_model :=
    if result.armor_size = ArmorSize.ARMOR_SIZE_BIG_ARMOR then large_armor_points
    else small_armor_points
  let pnp := E.solvePnP armor_model result.armor_corners
  if pnp.success then
    let taken := takePnP E result pnp
    let using_fallback := needsFallback taken.2 taken.1
    let result := if using_fallback then fallbackAfterPnP E taken.1 else taken.1
    anglesGuarded E (penalize using_fallback result)
  else fallbackNoPnP E result

/-! ## The pose stage in the words of the specification -/

/-- The armor model that `calculate3DPosition` hands to the solver. -/
def armorModel (result : FullTargetingResult) : List Point3f :=
  if result.armor_size = ArmorSize.ARMOR_SIZE_BIG_ARMOR then large_armor_points
  else small_armor_points

/-- Acceptance of a solver outcome in the words of the specification: the solver
reported success, the three components of `tvec` are finite, and
`||tvec|| / 10` lies in `[5.0, 1000.0]`.  The code's own test is `takePnP`
followed by `needsFallback`. -/
def pnpAcceptedSpec (E : Extern) (pnp : PnPResult) : Prop :=
  pnp.success = true ∧
    (isfinite pnp.tvec.v0 = true ∧ isfinite pnp.tvec.v1 = true ∧
      isfinite pnp.tvec.v2 = true) ∧
    (5.0 : Dbl) ≤ norm E pnp.tvec / 10.0 ∧ norm E pnp.tvec / 10.0 ≤ (1000.0 : Dbl)

instance (E : Extern) (pnp : PnPResult) : Decidable (pnpAcceptedSpec E pnp) :=
  inferInstanceAs (Decidable (_ ∧ _))

/-- The width `armor_width_px` of the 2D fallback in the words of the
specification: the larger side of the rectangle around the integer corner
points. -/
def armorWidthPx (E : Extern) (corners : List Point2f) : ℚ :=
  max (E.minAreaRect (corners.map (fun corner => ⟨truncToInt corner.x, truncToInt corner.y⟩))).width
    (E.minAreaRect (corners.map (fun corner => ⟨truncToInt corner.x, truncToInt corner.y⟩))).height

/-- The distance of the 2D fallback in the words of the specification:
`distance_cm = (100 × 100) / armor_width_px`. -/
def fallbackDistanceSpec (armor_width_px : ℚ) : Dbl :=
  (10000 : Dbl) / (armor_width_px : Dbl)

/-- The position of the 2D fallback in the words of the specification, for the
corners 0 and 2 and the distance in centimetres: `(cx, cy)` is the midpoint of
the two corners, `X = (cx − 320) × distance_cm × 10 / 800`,
`Y = −(cy − 240) × distance_cm × 10 / 800`, `Z = distance_cm × 10`. -/
def fallbackPositionSpec (c0 c2 : Point2f) (distance_cm : Dbl) : Vec3d :=
  let cx : Dbl := (((c0.x + c2.x) / 2 : ℚ) : Dbl)
  let cy : Dbl := (((c0.y + c2.y) / 2 : ℚ) : Dbl)
  ⟨(cx - 320) * distance_cm * 10 / 800, -((cy - 240) * distance_cm * 10 / 800),
    distance_cm * 10⟩

/-! ## Motion prediction, firing solution, validation -/

/-- The method `predictTargetMotion`; `target_history` is the member queue, oldest
entry first, so `back()` is the last element. -/
def predictTargetMotion (target_history : List FullTargetingResult)
    (result : FullTargetingResult) : FullTargetingResult :=
  if !result.position_solved then result
  else if 2 ≤ target_history.length then
    let prev_result := target_history.getLastD {}
    if prev_result.position_solved then
      let dt : Dbl := 0.033
      let result :=
        { result with
          velocity_3d :=
            ⟨(result.position_3d.v0 - prev_result.position_3d.v0) / dt,
             (result.position_3d.v1 - prev_result.position_3d.v1) / dt,
             (result.position_3d.v2 - prev_result.position_3d.v2) / dt⟩ }
      let result := { result with flight_time := result.distance_3d / BULLET_SPEED }
      { result with
        predicted_pos :=
          ⟨result.position_3d.v0 + result.velocity_3d.v0 * result.flight_time,
           result.position_3d.v1 + result.velocity_3d.v1 * result.flight_time,
           result.position_3d.v2 + result.velocity_3d.v2 * result.flight_time⟩ }
    else { result with predicted_pos := result.position_3d }
  else { result with predicted_pos := result.position_3d }

/-- The local `distance_factor` of `calculateFiringSolution`. -/
def distance_factor (result : FullTargetingResult) : Dbl :=
  std_max 0.0 (1.0 - result.distance_3d / 8.0)

/-- The local `confidence_factor` of `calculateFiringSolution`. -/
def confidence_factor (result : FullTargetingResult) : Dbl :=
  result.confidence / 100.0

/-- The local `velocity_factor` of `calculateFiringSolution`. -/
def velocity_factor (E : Extern) (result : FullTargetingResult) : Dbl :=
  if norm E result.velocity_3d < (2.0 : Dbl) then 1.0 else 0.5

/-- Lines 534 to 556 of the source: firing yaw and pitch to the predicted position
with the bullet drop taken off Y, zero when the predicted position is not
finite or lies on the Y axis. -/
def firingAngles (E : Extern) (result : FullTargetingResult) : FullTargetingResult :=
  if isfinite result.predicted_pos.v0 && isfinite result.predicted_pos.v1 &&
      isfinite result.predicted_pos.v2 then
    if Dbl.ne result.predicted_pos.v0 0.0 || Dbl.ne result.predicted_pos.v2 0.0 then
      { result with
        firing_yaw := yawOf E result.predicted_pos
        firing_pitch :=
          if (0.001 : Dbl) < horizontalDist E result.predicted_pos then
            E.atan2 (-(result.predicted_pos.v1 - result.bullet_drop))
              (horizontalDist E result.predicted_pos) * 180.0 / M_PI
          else 0.0 }
    else { result with firing_yaw := 0.0, firing_pitch := 0.0 }
  else { result with firing_yaw := 0.0, firing_pitch := 0.0 }

/-- Lines 527 to 532 of the source: flight time to the predicted position and
bullet drop. -/
def flightAndDrop (E : Extern) (result : FullTargetingResult) : FullTargetingResult :=
  let predicted_distance := norm E result.predicted_pos
  let result := { result with flight_time := predicted_distance / BULLET_SPEED }
  { result with bullet_drop := 0.5 * GRAVITY * result.flight_time * result.flight_time }

/-- Lines 558 to 564 of the source: hit probability and the fire flag. -/
def fireDecision (E : Extern) (result : FullTargetingResult) : FullTargetingResult :=
  let result :=
    { result with
      hit_probability :=
        distance_factor result * confidence_factor result * velocity_factor E result }
  { result with
    can_fire :=
      decide ((0.5 : Dbl) < result.hit_probability) &&
        decide ((1.0 : Dbl) < result.distance_3d) &&
          decide (result.distance_3d < (8.0 : Dbl)) }

/-- The method `calculateFiringSolution`. -/
def calculateFiringSolution (E : Extern) (result : FullTargetingResult) :
    FullTargetingResult :=
  if !result.position_solved then result
  else fireDecision E (firingAngles E (flightAndDrop E result))

/-- The method `validateTarget`; `robot_type` is the value drawn from
`robot_type_dist`, a uniform integer distribution on 1..5. -/
def validateTarget (E : Extern) (robot_type : Int) (result : FullTargetingResult) :
    FullTargetingResult :=
  if !result.position_solved then result else
  let result :=
    match robot_type with
    | 1 => { result with target_id := ArmorID.ARMOR_ID_HERO, target_priority := 1 }
    | 2 => { result with target_id := ArmorID.ARMOR_ID_SENTRY, target_priority := 2 }
    | 3 => { result with target_id := ArmorID.ARMOR_ID_INFANTRY_3, target_priority := 3 }
    | 4 => { result with target_id := ArmorID.ARMOR_ID_INFANTRY_4, target_priority := 4 }
    | 5 => { result with target_id := ArmorID.ARMOR_ID_INFANTRY_5, target_priority := 5 }
    | _ => result
  { result with is_valid_target := E.isValidArmorID result.target_id }

/-! ## Orchestration and history -/

/-- The method `runCompleteAutoAim`, on the contours of the frame. -/
def runCompleteAutoAim (E : Extern) (params : DetectionParams) (enemy_color : ArmorColor)
    (target_history : List FullTargetingResult) (robot_type : Int)
    (contours : List Contour) : FullTargetingResult :=
  let result := performVisionDetection params enemy_color contours
  if !result.armor_detected then result else
  let result := calculate3DPosition E result
  if !result.position_solved then result else
  let result := predictTargetMotion target_history result
  let result := calculateFiringSolution E result
  let result := validateTarget E robot_type result
  result

/-- The method `updateTargetHistory`: `push` at the back, then `pop` the front
when the size exceeds `MAX_HISTORY`. -/
def updateTargetHistory (target_history : List FullTargetingResult)
    (result : FullTargetingResult) : List FullTargetingResult :=
  let pushed := target_history ++ [result]
  if MAX_HISTORY < pushed.length then pushed.tail else pushed

/-! ## Firing (`simulateFiring` and its two callers in `run`) -/

/-- The counters `shots_fired` and `hits_scored`. -/
structure MatchStats where
  shots_fired : Int := 0
  hits_scored : Int := 0
deriving DecidableEq

/-- The line `Turret Command: Yaw=... Pitch=...` that `simulateFiring` prints. -/
structure TurretCommand where
  yaw : Dbl
  pitch : Dbl
deriving DecidableEq

/-- The method `simulateFiring`; `hit_draw` is the value drawn from `hit_dist`, a
uniform real distribution on [0, 1).  The second component is the turret
command that is printed, if any. -/
def simulateFiring (stats : MatchStats) (hit_draw : Dbl) (result : FullTargetingResult) :
    MatchStats × Option TurretCommand :=
  if !result.can_fire then (stats, none) else
  let stats := { stats with shots_fired := stats.shots_fired + 1 }
  let hit : Bool := decide (hit_draw < result.hit_probability)
  let stats := if hit then { stats with hits_scored := stats.hits_scored + 1 } else stats
  (stats, some ⟨result.firing_yaw, result.firing_pitch⟩)

/-- Lines 203 to 206 of the source, in the per-frame loop of `run`:
`if (result.can_fire && result.hit_probability > 0.7) simulateFiring(result);`. -/
def autoFire (stats : MatchStats) (hit_draw : Dbl) (result : FullTargetingResult) :
    MatchStats × Option TurretCommand :=
  if result.can_fire && decide ((0.7 : Dbl) < result.hit_probability) then
    simulateFiring stats hit_draw result
  else (stats, none)

/-- Lines 218 to 221 of the source, the key `f` in `run`:
`if (!target_history.empty()) simulateFiring(target_history.back());`. -/
def forcedFire (stats : MatchStats) (hit_draw : Dbl)
    (target_history : List FullTargetingResult) : MatchStats × Option TurretCommand :=
  if !target_history.isEmpty then simulateFiring stats hit_draw (target_history.getLastD {})
  else (stats, none)

/-! ## Detection settings (the keys of `run`) -/

/-- Lines 224 to 235 of the source, the keys of `run` that write `params`: `+` or
`=` raises `area_threshold` by 50, `-` or `_` lowers it by 50 but not below 50,
`a` or `A` raises `aspect_ratio_max` by 0.5, `z` or `Z` lowers it by 0.5 but
not below 2.  No other statement of the program writes `params`. -/
def adjustParams (params : DetectionParams) (key : Char) : DetectionParams :=
  if key = '+' ∨ key = '=' then
    { params with area_threshold := params.area_threshold + 50 }
  else if key = '-' ∨ key = '_' then
    { params with area_threshold := max 50 (params.area_threshold - 50) }
  else if key = 'a' ∨ key = 'A' then
    { params with aspect_ratio_max := params.aspect_ratio_max + 0.5 }
  else if key = 'z' ∨ key = 'Z' then
    { params with aspect_ratio_max := max 2 (params.aspect_ratio_max - 0.5) }
  else params

/-- The settings after the keys `keys`, pressed in this order since the start of
the program. -/
def settingsAfter (keys : List Char) : DetectionParams :=
  keys.foldl adjustParams {}

/-! ## Notions used for the corner sort -/

/-- The requirement of `std::sort` on its comparator, a strict weak ordering: no
element precedes itself, precedence is transitive, and so is the relation
between two elements of which neither precedes the other. -/
def strictWeakOrdering {α : Type} (comp : α → α → Bool) : Prop :=
  (∀ a, comp a a = false) ∧
  (∀ a b c, comp a b = true → comp b c = true → comp a c = true) ∧
  (∀ a b c, (comp a b = false ∧ comp b a = false) → (comp b c = false ∧ comp c b = false) →
    (comp a c = false ∧ comp c a = false))

/-- Four points are the corners of a rectangle in the order of a walk around it:
the diagonals share their midpoint, the two sides at the first corner are
perpendicular and not of length zero. -/
def isRectangle (p0 p1 p2 p3 : Point2f) : Prop :=
  p0.x + p2.x = p1.x + p3.x ∧ p0.y + p2.y = p1.y + p3.y ∧
    (p1.x - p0.x) * (p3.x - p0.x) + (p1.y - p0.y) * (p3.y - p0.y) = 0 ∧
    p0 ≠ p1 ∧ p0 ≠ p3

instance (p0 p1 p2 p3 : Point2f) : Decidable (isRectangle p0 p1 p2 p3) :=
  inferInstanceAs (Decidable (_ ∧ _))

/-! ## Concrete inputs for evaluation -/

/-- Square root for evaluation: exact on the square of a rational; no evaluated
statement depends on its value anywhere else. -/
def sqrtExact : Dbl → Dbl
  | fin q => if q < 0 then nan else fin (Rat.sqrt q)
  | pinf => pinf
  | ninf => nan
  | nan => nan

/-- An environment for evaluation: the pose solver returns `pnp`, the rectangle
around the corner points has size `size`, the validity check answers `valid` on
every class.  No evaluated statement looks at an angle, and `atan2` is a
placeholder. -/
def evalExtern (pnp : PnPResult) (size : Size2f) (valid : Bool) : Extern where
  solvePnP := fun _ _ => pnp
  minAreaRect := fun _ => size
  sqrt := sqrtExact
  atan2 := fun _ _ => 0
  isValidArmorID := fun _ => valid

/-- A pose solver outcome that reports failure. -/
def pnpFailed : PnPResult := ⟨false, {}, {}⟩

/-- An axis-aligned rectangle of 5000 by 1250 pixels with its left edge at x = 320
and its centre line at y = 840, as `cv::minAreaRect` describes it. -/
def wideRect : RotatedRect where
  center := ⟨2820, 840⟩
  size := ⟨5000, 1250⟩
  p0 := ⟨320, 1465⟩
  p1 := ⟨320, 215⟩
  p2 := ⟨5320, 215⟩
  p3 := ⟨5320, 1465⟩
  boundingRect := ⟨320, 215, 5001, 1251⟩

/-- A contour filling `wideRect`. -/
def wideContour : Contour := ⟨6250000, wideRect⟩

/-- A solved result two metres in front of the camera (200 cm), detected with full
confidence, at rest. -/
def resultAt2m : FullTargetingResult :=
  { armor_detected := true
    confidence := 100
    position_solved := true
    position_3d := ⟨0, 0, 2000⟩
    predicted_pos := ⟨0, 0, 2000⟩
    distance_3d := 200 }

/-- A solved result one metre in front of the camera that moves to the right at
1000 mm/s, which is 1 m/s. -/
def resultMoving1mps : FullTargetingResult :=
  { armor_detected := true
    confidence := 100
    position_solved := true
    position_3d := ⟨0, 0, 1000⟩
    velocity_3d := ⟨1000, 0, 0⟩
    predicted_pos := ⟨0, 0, 1000⟩
    distance_3d := 100 }

/-- A contour that encloses no area (a line one pixel wide with a bend, followed
forth and back) inside a rectangle of 2 by 1 pixels. -/
def thinContour : Contour :=
  ⟨0, { center := ⟨11, 10.5⟩, size := ⟨2, 1⟩, p0 := ⟨10, 11⟩, p1 := ⟨10, 10⟩,
        p2 := ⟨12, 10⟩, p3 := ⟨12, 11⟩, boundingRect := ⟨10, 10, 3, 2⟩ }⟩

/-- The rectangle of 80 by 40 pixels, axis-aligned, centred at `(cx, 240)`, as
`cv::minAreaRect` describes it; the corners are in the order of
`RotatedRect::points`: bottom-left, top-left, top-right, bottom-right. -/
def armorRectAt (cx : ℚ) : RotatedRect where
  center := ⟨cx, 240⟩
  size := ⟨80, 40⟩
  p0 := ⟨cx - 40, 260⟩
  p1 := ⟨cx - 40, 220⟩
  p2 := ⟨cx + 40, 220⟩
  p3 := ⟨cx + 40, 260⟩
  boundingRect := ⟨truncToInt cx - 40, 220, 81, 41⟩

/-- A contour filling `armorRectAt cx`: Scenario 1 of the specification for
`cx = 320`, the two frames of Scenario 3 for `cx = 270` and `cx = 320`. -/
def armorContourAt (cx : ℚ) : Contour := ⟨3200, armorRectAt cx⟩

/-- The environment of the scenarios: the pose solver reports failure, so that the
2D fallback runs, on an armor 80 by 40 pixels. -/
def scenarioExtern : Extern := evalExtern pnpFailed ⟨80, 40⟩ true

/-- The result of one frame of the scenarios with the armor centred at `(cx, 240)`. -/
def scenarioFrame (target_history : List FullTargetingResult) (cx : ℚ) : FullTargetingResult :=
  runCompleteAutoAim scenarioExtern {} ArmorColor.ARMOR_COLOR_RED target_history 1
    [armorContourAt cx]

/-- A solved result at `(33, 0, 1000)` mm, 100 cm away. -/
def resultShifted33mm : FullTargetingResult :=
  { armor_detected := true
    confidence := 100
    position_solved := true
    position_3d := ⟨33, 0, 1000⟩
    distance_3d := 100 }

/-- A solved result at `(0, 0, 1000)` mm, 100 cm away. -/
def resultCentred1m : FullTargetingResult :=
  { armor_detected := true
    confidence := 100
    position_solved := true
    position_3d := ⟨0, 0, 1000⟩
    distance_3d := 100 }

/-- A pose solver outcome that reports success with `tvec = (0, 0, 0)`. -/
def pnpZero : PnPResult := ⟨true, {}, ⟨0, 0, 0⟩⟩

/-- A pose solver outcome that reports success with `tvec = (0, 0, 60)` mm, that
is 6 cm in front of the camera. -/
def pnpNear : PnPResult := ⟨true, ⟨0, 0, 0⟩, ⟨0, 0, 60⟩⟩

/-- The detection result of Scenario 1: the armor of 80 by 40 pixels centred at
`(320, 240)`. -/
def scenarioDetection : FullTargetingResult :=
  performVisionDetection {} ArmorColor.ARMOR_COLOR_RED [armorContourAt 320]

/-- The detection result for the wide armor, with confidence 100. -/
def wideDetection : FullTargetingResult :=
  performVisionDetection {} ArmorColor.ARMOR_COLOR_RED [wideContour]

/-- The pose of one frame of the scenarios, before motion prediction. -/
def scenarioPose (cx : ℚ) : FullTargetingResult :=
  calculate3DPosition scenarioExtern
    (performVisionDetection {} ArmorColor.ARMOR_COLOR_RED [armorContourAt cx])

/-- The history after the first frame of Scenario 3 (armor centred at
`(270, 240)`, empty history before). -/
def historyAfterOne : List FullTargetingResult :=
  updateTargetHistory [] (scenarioFrame [] 270)

/-- The history after a second frame with the armor still centred at `(270, 240)`. -/
def historyAfterTwo : List FullTargetingResult :=
  updateTargetHistory historyAfterOne (scenarioFrame historyAfterOne 270)

/-- The environment of the scenarios with `atan2` left open. -/
def scenarioExternWith (atan2 : Dbl → Dbl → Dbl) : Extern :=
  { scenarioExtern with atan2 := atan2 }

/-- Corner `i` of the axis-aligned rectangle with left edge `x0`, right edge `x1`,
top edge `y0` and bottom edge `y1` (image coordinates, `y` grows downwards), in
the order top-left, top-right, bottom-left, bottom-right. -/
def axisCorner (x0 x1 y0 y1 : ℚ) : Fin 4 → Point2f
  | 0 => ⟨x0, y0⟩
  | 1 => ⟨x1, y0⟩
  | 2 => ⟨x0, y1⟩
  | 3 => ⟨x1, y1⟩

/-- A rational stand-in for `atan2` for evaluation, `(3/2) · y / (x + |y|)`: for a
positive `x` it has the sign of `y` and lies inside `(-3/2, 3/2)`, as the angle
itself lies inside `(-π/2, π/2)`. -/
def atan2Approx : Dbl → Dbl → Dbl
  | fin y, fin x => fin (3 / 2 * y / (x + |y|))
  | _, _ => nan

/-- A rational stand-in for `sqrt` for evaluation, one Heron step from 1:
`(q + 1) / 2`, which is never below the square root. -/
def sqrtUpper : Dbl → Dbl
  | fin q => fin ((q + 1) / 2)
  | _ => nan

/-- The environment of the scenarios with the two stand-ins for `sqrt` and
`atan2`. -/
def angleExtern : Extern :=
  { scenarioExtern with sqrt := sqrtUpper, atan2 := atan2Approx }

/-- The rectangle of 80 by 40 pixels, axis-aligned, centred at `(320, cy)`. -/
def armorRectAtHeight (cy : ℚ) : RotatedRect where
  center := ⟨320, cy⟩
  size := ⟨80, 40⟩
  p0 := ⟨280, cy + 20⟩
  p1 := ⟨280, cy - 20⟩
  p2 := ⟨360, cy - 20⟩
  p3 := ⟨360, cy + 20⟩
  boundingRect := ⟨280, truncToInt cy - 20, 81, 41⟩

/-- The detection result for the armor of 80 by 40 pixels centred at `(320, cy)`. -/
def detectionAtHeight (cy : ℚ) : FullTargetingResult :=
  performVisionDetection {} ArmorColor.ARMOR_COLOR_RED [⟨3200, armorRectAtHeight cy⟩]

/-! ## Arithmetic of doubles -/

namespace Dbl

@[simp] theorem ofNat_eq (n : Nat) [n.AtLeastTwo] :
    (OfNat.ofNat n : Dbl) = fin (OfNat.ofNat n) := by
  show fin ((n : ℕ) : ℚ) = _
  rw [Nat.cast_eq_ofNat]

@[simp] theorem zero_eq : (0 : Dbl) = fin 0 := by
  show fin ((0 : ℕ) : ℚ) = _
  simp

@[simp] theorem one_eq : (1 : Dbl) = fin 1 := by
  show fin ((1 : ℕ) : ℚ) = _
  simp

@[simp] theorem ofScientific_eq (m : Nat) (s : Bool) (e : Nat) :
    (OfScientific.ofScientific m s e : Dbl) = fin (OfScientific.ofScientific m s e) := rfl

@[simp] theorem coe_eq (q : ℚ) : ((q : ℚ) : Dbl) = fin q := rfl

@[simp] theorem fin_add (a b : ℚ) : fin a + fin b = fin (a + b) := rfl

@[simp] theorem fin_sub (a b : ℚ) : fin a - fin b = fin (a - b) := by
  show fin (a + -b) = _
  rw [sub_eq_add_neg]

@[simp] theorem fin_mul (a b : ℚ) : fin a * fin b = fin (a * b) := rfl

@[simp] theorem fin_neg (a : ℚ) : -fin a = fin (-a) := rfl

theorem fin_div (a b : ℚ) : fin a / fin b = if b = 0 then ofSign a else fin (a / b) := rfl

theorem fin_div_of_ne (a b : ℚ) (h : b ≠ 0) : fin a / fin b = fin (a / b) := by
  rw [fin_div, if_neg h]

@[simp] theorem fin_lt (a b : ℚ) : (fin a < fin b) ↔ a < b := by
  show lt (fin a) (fin b) = true ↔ _
  simp [lt]

@[simp] theorem fin_le (a b : ℚ) : (fin a ≤ fin b) ↔ a ≤ b := by
  show le (fin a) (fin b) = true ↔ _
  simp [le, lt, eq, le_iff_lt_or_eq]

@[simp] theorem isfinite_fin (a : ℚ) : isfinite (fin a) = true := rfl

theorem lt_def (a b : Dbl) : (a < b) ↔ lt a b = true := Iff.rfl

theorem le_def (a b : Dbl) : (a ≤ b) ↔ le a b = true := Iff.rfl

@[simp] theorem not_nan_lt (x : Dbl) : ¬ (nan < x) := by
  cases x <;> simp [lt_def, lt]

@[simp] theorem not_lt_nan (x : Dbl) : ¬ (x < nan) := by
  cases x <;> simp [lt_def, lt]

@[simp] theorem not_nan_le (x : Dbl) : ¬ (nan ≤ x) := by
  cases x <;> simp [le_def, le, lt, eq]

@[simp] theorem not_le_nan (x : Dbl) : ¬ (x ≤ nan) := by
  cases x <;> simp [le_def, le, lt, eq]

@[simp] theorem not_pinf_lt (x : Dbl) : ¬ (pinf < x) := by
  cases x <;> simp [lt_def, lt]

@[simp] theorem not_lt_ninf (x : Dbl) : ¬ (x < ninf) := by
  cases x <;> simp [lt_def, lt]

@[simp] theorem fin_lt_pinf (a : ℚ) : fin a < pinf := by
  simp [lt_def, lt]

@[simp] theorem ninf_lt_fin (a : ℚ) : ninf < fin a := by
  simp [lt_def, lt]

@[simp] theorem not_pinf_le_fin (a : ℚ) : ¬ (pinf ≤ fin a) := by
  simp [le_def, le, lt, eq]

@[simp] theorem not_fin_le_ninf (a : ℚ) : ¬ (fin a ≤ ninf) := by
  simp [le_def, le, lt, eq]

@[simp] theorem fin_le_pinf (a : ℚ) : fin a ≤ pinf := by
  simp [le_def, le, lt, eq]

/-- A value between two finite bounds is finite. -/
theorem between_fin {x : Dbl} {a b : ℚ} (h1 : fin a ≤ x) (h2 : x ≤ fin b) :
    ∃ q, x = fin q ∧ a ≤ q ∧ q ≤ b := by
  cases x with
  | fin q => exact ⟨q, rfl, (fin_le a q).mp h1, (fin_le q b).mp h2⟩
  | pinf => exact absurd h2 (not_pinf_le_fin b)
  | ninf => exact absurd h1 (not_fin_le_ninf a)
  | nan => exact absurd h1 (not_le_nan _)

/-- Whoever is strictly above a finite value is finite or plus infinity. -/
theorem above_fin {x : Dbl} {a : ℚ} (h : fin a < x) :
    x = pinf ∨ ∃ q, x = fin q ∧ a < q := by
  cases x with
  | fin q => exact Or.inr ⟨q, rfl, (fin_lt a q).mp h⟩
  | pinf => exact Or.inl rfl
  | ninf => exact absurd h (not_lt_ninf _)
  | nan => exact absurd h (not_lt_nan _)

end Dbl

/-! ## What each stage leaves untouched -/

theorem pvd_defaults (params : DetectionParams) (color : ArmorColor) (cs : List Contour) :
    (performVisionDetection params color cs).position_solved = false ∧
    (performVisionDetection params color cs).can_fire = false ∧
    (performVisionDetection params color cs).hit_probability = 0 ∧
    (performVisionDetection params color cs).distance_3d = 0 ∧
    (performVisionDetection params color cs).is_valid_target = false := by
  unfold performVisionDetection
  dsimp only
  split
  · split <;> simp
  · simp

theorem takePnP_fields (E : Extern) (r : FullTargetingResult) (pnp : PnPResult) :
    (takePnP E r pnp).1.can_fire = r.can_fire ∧
    (takePnP E r pnp).1.hit_probability = r.hit_probability ∧
    (takePnP E r pnp).1.armor_detected = r.armor_detected ∧
    (takePnP E r pnp).1.confidence = r.confidence ∧
    (takePnP E r pnp).1.is_valid_target = r.is_valid_target := by
  unfold takePnP
  dsimp only
  split <;> simp

theorem fallbackAfterPnP_fields (E : Extern) (r : FullTargetingResult) :
    (fallbackAfterPnP E r).can_fire = r.can_fire ∧
    (fallbackAfterPnP E r).hit_probability = r.hit_probability ∧
    (fallbackAfterPnP E r).armor_detected = r.armor_detected ∧
    (fallbackAfterPnP E r).confidence = r.confidence ∧
    (fallbackAfterPnP E r).is_valid_target = r.is_valid_target ∧
    (fallbackAfterPnP E r).position_solved = true := by
  simp [fallbackAfterPnP]

theorem penalize_fields (b : Bool) (r : FullTargetingResult) :
    (penalize b r).can_fire = r.can_fire ∧
    (penalize b r).hit_probability = r.hit_probability ∧
    (penalize b r).armor_detected = r.armor_detected ∧
    (penalize b r).distance_3d = r.distance_3d ∧
    (penalize b r).is_valid_target = r.is_valid_target ∧
    (penalize b r).position_solved = r.position_solved := by
  simp [penalize]

theorem anglesGuarded_fields (E : Extern) (r : FullTargetingResult) :
    (anglesGuarded E r).can_fire = r.can_fire ∧
    (anglesGuarded E r).hit_probability = r.hit_probability ∧
    (anglesGuarded E r).armor_detected = r.armor_detected ∧
    (anglesGuarded E r).confidence = r.confidence ∧
    (anglesGuarded E r).distance_3d = r.distance_3d ∧
    (anglesGuarded E r).is_valid_target = r.is_valid_target ∧
    (anglesGuarded E r).position_solved = r.position_solved := by
  unfold anglesGuarded
  split
  · split <;> simp
  · simp

theorem fallbackNoPnP_fields (E : Extern) (r : FullTargetingResult) :
    (fallbackNoPnP E r).can_fire = r.can_fire ∧
    (fallbackNoPnP E r).hit_probability = r.hit_probability ∧
    (fallbackNoPnP E r).armor_detected = r.armor_detected ∧
    (fallbackNoPnP E r).is_valid_target = r.is_valid_target ∧
    (fallbackNoPnP E r).position_solved = true := by
  simp [fallbackNoPnP]

theorem c3d_fields (E : Extern) (r : FullTargetingResult) :
    (calculate3DPosition E r).can_fire = r.can_fire ∧
    (calculate3DPosition E r).hit_probability = r.hit_probability ∧
    (calculate3DPosition E r).armor_detected = r.armor_detected ∧
    (calculate3DPosition E r).is_valid_target = r.is_valid_target := by
  unfold calculate3DPosition
  split
  · simp
  · dsimp only
    generalize E.solvePnP _ r.armor_corners = pnp
    split
    · split <;>
        simp [anglesGuarded_fields, penalize_fields, fallbackAfterPnP_fields, takePnP_fields]
    · simp [fallbackNoPnP_fields]

theorem predict_fields (h : List FullTargetingResult) (r : FullTargetingResult) :
    (predictTargetMotion h r).can_fire = r.can_fire ∧
    (predictTargetMotion h r).hit_probability = r.hit_probability ∧
    (predictTargetMotion h r).armor_detected = r.armor_detected ∧
    (predictTargetMotion h r).confidence = r.confidence ∧
    (predictTargetMotion h r).distance_3d = r.distance_3d ∧
    (predictTargetMotion h r).is_valid_target = r.is_valid_target ∧
    (predictTargetMotion h r).position_solved = r.position_solved := by
  unfold predictTargetMotion
  split
  · simp
  · split
    · dsimp only
      split <;> simp
    · simp

theorem flightAndDrop_fields (E : Extern) (r : FullTargetingResult) :
    (flightAndDrop E r).armor_detected = r.armor_detected ∧
    (flightAndDrop E r).confidence = r.confidence ∧
    (flightAndDrop E r).distance_3d = r.distance_3d ∧
    (flightAndDrop E r).velocity_3d = r.velocity_3d ∧
    (flightAndDrop E r).is_valid_target = r.is_valid_target ∧
    (flightAndDrop E r).position_solved = r.position_solved := by
  simp [flightAndDrop]

theorem firingAngles_fields (E : Extern) (r : FullTargetingResult) :
    (firingAngles E r).armor_detected = r.armor_detected ∧
    (firingAngles E r).confidence = r.confidence ∧
    (firingAngles E r).distance_3d = r.distance_3d ∧
    (firingAngles E r).velocity_3d = r.velocity_3d ∧
    (firingAngles E r).is_valid_target = r.is_valid_target ∧
    (firingAngles E r).position_solved = r.position_solved := by
  unfold firingAngles
  split
  · split <;> simp
  · simp

theorem fireDecision_fields (E : Extern) (r : FullTargetingResult) :
    (fireDecision E r).armor_detected = r.armor_detected ∧
    (fireDecision E r).confidence = r.confidence ∧
    (fireDecision E r).distance_3d = r.distance_3d ∧
    (fireDecision E r).is_valid_target = r.is_valid_target ∧
    (fireDecision E r).position_solved = r.position_solved := by
  simp [fireDecision]

theorem firing_fields (E : Extern) (r : FullTargetingResult) :
    (calculateFiringSolution E r).armor_detected = r.armor_detected ∧
    (calculateFiringSolution E r).confidence = r.confidence ∧
    (calculateFiringSolution E r).distance_3d = r.distance_3d ∧
    (calculateFiringSolution E r).is_valid_target = r.is_valid_target ∧
    (calculateFiringSolution E r).position_solved = r.position_solved := by
  unfold calculateFiringSolution
  split
  · simp
  · simp [fireDecision_fields, firingAngles_fields, flightAndDrop_fields]

theorem validate_fields (E : Extern) (t : Int) (r : FullTargetingResult) :
    (validateTarget E t r).armor_detected = r.armor_detected ∧
    (validateTarget E t r).confidence = r.confidence ∧
    (validateTarget E t r).distance_3d = r.distance_3d ∧
    (validateTarget E t r).can_fire = r.can_fire ∧
    (validateTarget E t r).hit_probability = r.hit_probability ∧
    (validateTarget E t r).position_solved = r.position_solved := by
  unfold validateTarget
  split
  · simp
  · dsimp only
    split <;> simp

/-! ## The flag chain of the orchestrator -/

/-- C1: for every frame the result of `runCompleteAutoAim` satisfies: without a
detected armor the position is not solved, and without a solved position the
fire flag is off. -/
theorem runCompleteAutoAim_flag_chain (E : Extern) (params : DetectionParams)
    (enemy_color : ArmorColor) (target_history : List FullTargetingResult)
    (robot_type : Int) (contours : List Contour) :
    ((runCompleteAutoAim E params enemy_color target_history robot_type contours).armor_detected
        = false →
      (runCompleteAutoAim E params enemy_color target_history robot_type contours).position_solved
        = false) ∧
    ((runCompleteAutoAim E params enemy_color target_history robot_type contours).position_solved
        = false →
      (runCompleteAutoAim E params enemy_color target_history robot_type contours).can_fire
        = false) := by
  have hd := pvd_defaults params enemy_color contours
  unfold runCompleteAutoAim
  dsimp only
  split
  · exact ⟨fun _ => hd.1, fun _ => hd.2.1⟩
  · rename_i hdet
    split
    · rename_i hsol
      refine ⟨fun _ => by simpa using hsol, fun _ => ?_⟩
      rw [(c3d_fields E _).1]
      exact hd.2.1
    · rename_i hsol
      simp only [Bool.not_eq_true, Bool.not_eq_false, Bool.not_not] at hdet hsol
      have hdet2 : (validateTarget E robot_type (calculateFiringSolution E
          (predictTargetMotion target_history (calculate3DPosition E
            (performVisionDetection params enemy_color contours))))).armor_detected = true := by
        simp [validate_fields, firing_fields, predict_fields, c3d_fields]
        simpa using hdet
      have hsol2 : (validateTarget E robot_type (calculateFiringSolution E
          (predictTargetMotion target_history (calculate3DPosition E
            (performVisionDetection params enemy_color contours))))).position_solved = true := by
        simp [validate_fields, firing_fields, predict_fields]
        simpa using hsol
      rw [hdet2, hsol2]
      simp

/-- Witness for C1: a frame without contours. -/
theorem runCompleteAutoAim_flag_chain_witness :
    (runCompleteAutoAim (evalExtern pnpFailed ⟨80, 40⟩ true) {} ArmorColor.ARMOR_COLOR_RED [] 1
        []).armor_detected = false ∧
    (runCompleteAutoAim (evalExtern pnpFailed ⟨80, 40⟩ true) {} ArmorColor.ARMOR_COLOR_RED [] 1
        []).position_solved = false ∧
    (runCompleteAutoAim (evalExtern pnpFailed ⟨80, 40⟩ true) {} ArmorColor.ARMOR_COLOR_RED [] 1
        []).can_fire = false :=
  have h := runCompleteAutoAim_flag_chain (evalExtern pnpFailed ⟨80, 40⟩ true) {}
    ArmorColor.ARMOR_COLOR_RED [] 1 []
  have hd : (runCompleteAutoAim (evalExtern pnpFailed ⟨80, 40⟩ true) {} ArmorColor.ARMOR_COLOR_RED [] 1
      []).armor_detected = false := by decide
  ⟨hd, h.1 hd, h.2 (h.1 hd)⟩

/-! ## Evaluation helpers -/

theorem sqrtExact_sq (q : ℚ) (h : 0 ≤ q) : sqrtExact (fin (q * q)) = fin q := by
  have h2 : ¬ (q * q < 0) := not_lt.mpr (mul_self_nonneg q)
  simp [sqrtExact, h2, Rat.sqrt_eq, abs_of_nonneg h]

theorem norm_resultMoving1mps (pnp : PnPResult) (size : Size2f) (valid : Bool) :
    norm (evalExtern pnp size valid) resultMoving1mps.velocity_3d = fin 1000 := by
  have h := sqrtExact_sq 1000 (by norm_num)
  simp only [norm, evalExtern, resultMoving1mps, Dbl.ofNat_eq, Dbl.zero_eq, Dbl.fin_mul,
    Dbl.fin_add]
  norm_num at h ⊢
  exact h

/-! ## The fire decision -/

/-- C2: the fire gate compares `distance_3d`, which is in centimetres, with the
bounds 1.0 and 8.0 directly.  For a frame whose armor is 5000 pixels wide the
fallback distance is 2 cm, the hit probability is 0.6 and the fire flag is set,
although `distance_3d / 100` is 0.02 and not above 1.0. -/
theorem fire_gate_compares_centimetres :
    (runCompleteAutoAim (evalExtern pnpFailed ⟨5000, 1250⟩ true) {} ArmorColor.ARMOR_COLOR_RED
        [] 1 [wideContour]).distance_3d = fin 2 ∧
    (runCompleteAutoAim (evalExtern pnpFailed ⟨5000, 1250⟩ true) {} ArmorColor.ARMOR_COLOR_RED
        [] 1 [wideContour]).hit_probability = fin (3 / 5) ∧
    (runCompleteAutoAim (evalExtern pnpFailed ⟨5000, 1250⟩ true) {} ArmorColor.ARMOR_COLOR_RED
        [] 1 [wideContour]).can_fire = true ∧
    ¬ ((1.0 : Dbl) < (runCompleteAutoAim (evalExtern pnpFailed ⟨5000, 1250⟩ true) {}
        ArmorColor.ARMOR_COLOR_RED [] 1 [wideContour]).distance_3d / 100.0) := by
  decide!

/-- C5: `calculateFiringSolution` divides `distance_3d`, which is in centimetres, by
8 directly.  For a solved result at 200 cm with confidence 100 and no motion it
sets `hit_probability` to 0, where the product with
`distance_factor = max(0, 1 - (distance_3d / 100) / 8)` is 0.75. -/
theorem hit_probability_at_two_metres :
    (calculateFiringSolution (evalExtern pnpFailed ⟨80, 40⟩ true) resultAt2m).hit_probability
      = fin 0 ∧
    std_max 0.0 (1.0 - (resultAt2m.distance_3d / 100.0) / 8.0)
        * (resultAt2m.confidence / 100.0)
        * velocity_factor (evalExtern pnpFailed ⟨80, 40⟩ true) resultAt2m
      = fin (3 / 4) := by
  decide!

/-- C6: the velocity factor compares the norm of `velocity_3d`, which is in mm/s,
with 2.0 directly.  A target at 1000 mm/s, which is 1 m/s and below 2 m/s, gets
the factor 0.5. -/
theorem velocity_factor_at_one_metre_per_second :
    velocity_factor (evalExtern pnpFailed ⟨80, 40⟩ true) resultMoving1mps = fin (1 / 2) ∧
    norm (evalExtern pnpFailed ⟨80, 40⟩ true) resultMoving1mps.velocity_3d / 1000.0
      < (2.0 : Dbl) := by
  rw [velocity_factor, norm_resultMoving1mps]
  norm_num [Dbl.fin_div_of_ne]

/-! ## Target validation -/

theorem validate_verdict (E : Extern) (t : Int) (r : FullTargetingResult)
    (h : r.position_solved = true) :
    (validateTarget E t r).is_valid_target = E.isValidArmorID (validateTarget E t r).target_id := by
  unfold validateTarget
  simp only [h, Bool.not_true, Bool.false_eq_true, if_false]

/-- C3, as the code has it: whenever the result of `runCompleteAutoAim` has the fire
flag set, `is_valid_target` is the verdict of the validity check on the drawn
class, so the fire flag implies a valid target whenever the mask accepts that
class; and `validateTarget` never changes the fire flag. -/
theorem can_fire_valid_when_mask_accepts (E : Extern) (params : DetectionParams)
    (enemy_color : ArmorColor) (target_history : List FullTargetingResult)
    (robot_type : Int) (contours : List Contour) :
    ((runCompleteAutoAim E params enemy_color target_history robot_type contours).can_fire
        = true →
      (runCompleteAutoAim E params enemy_color target_history robot_type
          contours).is_valid_target
        = E.isValidArmorID (runCompleteAutoAim E params enemy_color target_history robot_type
            contours).target_id) ∧
    (∀ result : FullTargetingResult,
      (validateTarget E robot_type result).can_fire = result.can_fire) := by
  refine ⟨?_, fun result => (validate_fields E robot_type result).2.2.2.1⟩
  have hd := pvd_defaults params enemy_color contours
  unfold runCompleteAutoAim
  dsimp only
  split
  · intro h
    rw [hd.2.1] at h
    exact absurd h (by decide)
  · split
    · intro h
      rw [(c3d_fields E _).1, hd.2.1] at h
      exact absurd h (by decide)
    · rename_i hsol
      intro _
      apply validate_verdict
      simp only [Bool.not_eq_true, Bool.not_eq_false, Bool.not_not] at hsol
      rw [(firing_fields E _).2.2.2.2, (predict_fields _ _).2.2.2.2.2.2]
      simpa using hsol

/-- Witness for C3: with a mask that accepts every class the firing result of the
wide armor is a valid target. -/
theorem can_fire_valid_when_mask_accepts_witness :
    (runCompleteAutoAim (evalExtern pnpFailed ⟨5000, 1250⟩ true) {} ArmorColor.ARMOR_COLOR_RED
        [] 1 [wideContour]).can_fire = true ∧
    (runCompleteAutoAim (evalExtern pnpFailed ⟨5000, 1250⟩ true) {} ArmorColor.ARMOR_COLOR_RED
        [] 1 [wideContour]).is_valid_target = true :=
  have hc : (runCompleteAutoAim (evalExtern pnpFailed ⟨5000, 1250⟩ true) {}
      ArmorColor.ARMOR_COLOR_RED [] 1 [wideContour]).can_fire = true := by decide!
  ⟨hc, ((can_fire_valid_when_mask_accepts (evalExtern pnpFailed ⟨5000, 1250⟩ true) {}
    ArmorColor.ARMOR_COLOR_RED [] 1 [wideContour]).1 hc).trans rfl⟩

/-- Counterexample to C3 as stated: with a mask that rejects the drawn class the
result of `runCompleteAutoAim` has the fire flag set and is not a valid target. -/
theorem can_fire_without_valid_target :
    (runCompleteAutoAim (evalExtern pnpFailed ⟨5000, 1250⟩ false) {} ArmorColor.ARMOR_COLOR_RED
        [] 1 [wideContour]).can_fire = true ∧
    (runCompleteAutoAim (evalExtern pnpFailed ⟨5000, 1250⟩ false) {} ArmorColor.ARMOR_COLOR_RED
        [] 1 [wideContour]).is_valid_target = false := by
  decide!

/-! ## Target history -/

theorem updateTargetHistory_short (h : List FullTargetingResult) (r : FullTargetingResult)
    (hlen : h.length < 10) : updateTargetHistory h r = h ++ [r] := by
  unfold updateTargetHistory MAX_HISTORY
  have : ¬ (10 < (h ++ [r]).length) := by simp; omega
  simp only [this, if_false]

theorem updateTargetHistory_full (h : List FullTargetingResult) (r : FullTargetingResult)
    (hlen : h.length = 10) : updateTargetHistory h r = h.tail ++ [r] := by
  unfold updateTargetHistory MAX_HISTORY
  have h1 : 10 < (h ++ [r]).length := by simp; omega
  simp only [h1, if_true]
  cases h with
  | nil => simp at hlen
  | cons a t => simp

/-- C8: `updateTargetHistory` is a bounded FIFO of depth 10.  For a history of at
most 10 entries and any result, the new history is the last 10 entries of the
old one followed by the result: the result is the back entry, the length is
`min (len + 1) 10` and at most 10, nothing is evicted below 10 entries, and
with 10 entries exactly the oldest one goes. -/
theorem updateTargetHistory_fifo (h : List FullTargetingResult) (r : FullTargetingResult)
    (hlen : h.length ≤ 10) :
    updateTargetHistory h r = (h ++ [r]).drop ((h ++ [r]).length - 10) ∧
    (updateTargetHistory h r).getLast? = some r ∧
    (updateTargetHistory h r).length = min (h.length + 1) 10 ∧
    (updateTargetHistory h r).length ≤ 10 ∧
    (h.length < 10 → updateTargetHistory h r = h ++ [r]) ∧
    (h.length = 10 → updateTargetHistory h r = h.tail ++ [r]) := by
  rcases Nat.lt_or_eq_of_le hlen with hlt | heq
  · rw [updateTargetHistory_short h r hlt]
    have h0 : (h ++ [r]).length - 10 = 0 := by
      rw [List.length_append, List.length_singleton]; omega
    have hmin : min (h.length + 1) 10 = h.length + 1 := Nat.min_eq_left (by omega)
    refine ⟨by rw [h0, List.drop_zero], by simp, ?_, ?_, fun _ => rfl, fun h10 => ?_⟩
    · rw [List.length_append, List.length_singleton, hmin]
    · rw [List.length_append, List.length_singleton]; omega
    · omega
  · rw [updateTargetHistory_full h r heq]
    cases h with
    | nil => simp at heq
    | cons a t =>
      simp only [List.length_cons] at heq
      have ht : t.length = 9 := by omega
      have h1 : (a :: t ++ [r]).length - 10 = 1 := by
        simp [ht]
      have hmin : min ((a :: t).length + 1) 10 = 10 := by
        simp [ht]
      refine ⟨by rw [h1]; simp, by simp, ?_, ?_, fun hlt => ?_, fun _ => rfl⟩
      · rw [hmin]; simp [ht]
      · simp [ht]
      · simp [ht] at hlt

/-- Witness for C8: a history of ten entries, the newest result goes to the back
and the oldest entry leaves. -/
theorem updateTargetHistory_fifo_witness :
    (updateTargetHistory (List.replicate 10 resultAt2m) resultMoving1mps).getLast?
      = some resultMoving1mps ∧
    (updateTargetHistory (List.replicate 10 resultAt2m) resultMoving1mps).length = 10 ∧
    updateTargetHistory (List.replicate 10 resultAt2m) resultMoving1mps
      = List.replicate 9 resultAt2m ++ [resultMoving1mps] :=
  have h := updateTargetHistory_fifo (List.replicate 10 resultAt2m) resultMoving1mps
    (by simp)
  ⟨h.2.1, h.2.2.1.trans (by simp), (h.2.2.2.2.2 (by simp)).trans (by simp [List.replicate])⟩

/-! ## Order facts on doubles -/

namespace Dbl

theorem lt_trans' {a b c : Dbl} (h1 : a < b) (h2 : b < c) : a < c := by
  cases a <;> cases b <;> cases c <;> simp_all [lt_def, lt]
  exact lt_trans h1 h2

theorem lt_of_lt_of_le' {a b c : Dbl} (h1 : a < b) (h2 : b ≤ c) : a < c := by
  cases a <;> cases b <;> cases c <;> simp_all [lt_def, le_def, le, lt, eq]
  rcases h2 with h2 | h2
  · exact lt_trans h1 h2
  · exact h2 ▸ h1

theorem lt_asymm' {a b : Dbl} (h1 : a < b) : ¬ (b < a) := by
  cases a <;> cases b <;> simp_all [lt_def, lt]
  exact le_of_lt h1

theorem lt_irrefl' (a : Dbl) : ¬ (a < a) := fun h => lt_asymm' h h

theorem not_le_of_lt' {a b : Dbl} (h1 : a < b) : ¬ (b ≤ a) := by
  cases a <;> cases b <;> simp_all [lt_def, le_def, le, lt, eq]
  exact ⟨le_of_lt h1, fun h => absurd (h ▸ h1) (lt_irrefl _)⟩

theorem ne_nan_of_lt {a b : Dbl} (h : a < b) : b ≠ nan := by
  intro hb
  rw [hb] at h
  exact not_lt_nan a h

end Dbl

/-! ## The contour loop -/

theorem contourStep_eq (params : DetectionParams) (st : Dbl × Int) (i : Nat) (c : Contour) :
    contourStep params st i c =
      if qualifies params c ∧ st.1 < score c then (score c, (i : Int)) else st := by
  unfold contourStep qualifies
  simp only [Dbl.coe_eq, Dbl.fin_lt, Dbl.fin_le]
  by_cases h1 : c.area < params.area_threshold
  · have h1' : ¬ (params.area_threshold ≤ c.area) := not_le.mpr h1
    simp [h1, h1']
  · have h1' : params.area_threshold ≤ c.area := not_lt.mp h1
    simp only [h1, h1', if_false, true_and]
    by_cases h2 : fin params.aspect_ratio_min ≤ aspect_ratio c.rect ∧
        aspect_ratio c.rect ≤ fin params.aspect_ratio_max
    · simp only [h2, and_self, if_true, true_and]
    · simp only [h2, if_false, false_and]

theorem scan_spec (params : DetectionParams) :
    ∀ (cs : List Contour) (i : Nat) (st : Dbl × Int), st.1 ≠ nan →
      (scanContours params cs i st).1 ≠ nan ∧
      ((scanContours params cs i st).1 = st.1 ∨ st.1 < (scanContours params cs i st).1) ∧
      (scanContours params cs i st = st ∨
        ∃ k c, cs.get? k = some c ∧ qualifies params c ∧
          scanContours params cs i st = (score c, ((i + k : Nat) : Int)) ∧
          st.1 < score c ∧
          ∀ j c', j < k → cs.get? j = some c' → qualifies params c' →
            ¬ (score c ≤ score c')) ∧
      (∀ j c', cs.get? j = some c' → qualifies params c' →
        ¬ ((scanContours params cs i st).1 < score c')) := by
  intro cs
  induction cs with
  | nil =>
    intro i st hst
    refine ⟨hst, Or.inl rfl, Or.inl rfl, ?_⟩
    intro j c' hj
    simp at hj
  | cons c cs ih =>
    intro i st hst
    have hsc : scanContours params (c :: cs) i st =
        scanContours params cs (i + 1) (contourStep params st i c) := rfl
    have hstep := contourStep_eq params st i c
    rw [hsc]
    by_cases hq : qualifies params c ∧ st.1 < score c
    · rw [if_pos hq] at hstep
      have hne : (score c, (i : Int)).1 ≠ nan := Dbl.ne_nan_of_lt hq.2
      obtain ⟨h1, h2, h3, h4⟩ := ih (i + 1) (score c, (i : Int)) hne
      rw [hstep]
      have hlt : st.1 < (scanContours params cs (i + 1) (score c, (i : Int))).1 := by
        rcases h2 with h2 | h2
        · rw [h2]; exact hq.2
        · exact Dbl.lt_trans' hq.2 h2
      refine ⟨h1, Or.inr hlt, Or.inr ?_, ?_⟩
      · rcases h3 with h3 | ⟨k, c2, hk, hq2, hres, hlt2, htie⟩
        · refine ⟨0, c, rfl, hq.1, ?_, hq.2, ?_⟩
          · rw [h3]; simp
          · intro j c' hj; omega
        · refine ⟨k + 1, c2, hk, hq2, ?_, Dbl.lt_trans' hq.2 hlt2, ?_⟩
          · rw [hres]
            have : i + 1 + k = i + (k + 1) := by omega
            rw [this]
          · intro j c' hj hget hqc
            cases j with
            | zero =>
              simp only [List.get?_cons_zero, Option.some.injEq] at hget
              subst hget
              exact Dbl.not_le_of_lt' hlt2
            | succ j =>
              exact htie j c' (by omega) hget hqc
      · intro j c' hget hqc
        cases j with
        | zero =>
          simp only [List.get?_cons_zero, Option.some.injEq] at hget
          subst hget
          rcases h2 with h2 | h2
          · rw [h2]; exact Dbl.lt_irrefl' _
          · exact Dbl.lt_asymm' h2
        | succ j => exact h4 j c' hget hqc
    · rw [if_neg hq] at hstep
      obtain ⟨h1, h2, h3, h4⟩ := ih (i + 1) st hst
      rw [hstep]
      refine ⟨h1, h2, ?_, ?_⟩
      · rcases h3 with h3 | ⟨k, c2, hk, hq2, hres, hlt2, htie⟩
        · exact Or.inl h3
        · refine Or.inr ⟨k + 1, c2, hk, hq2, ?_, hlt2, ?_⟩
          · rw [hres]
            have : i + 1 + k = i + (k + 1) := by omega
            rw [this]
          · intro j c' hj hget hqc
            cases j with
            | zero =>
              simp only [List.get?_cons_zero, Option.some.injEq] at hget
              subst hget
              intro hle
              exact hq ⟨hqc, Dbl.lt_of_lt_of_le' hlt2 hle⟩
            | succ j =>
              exact htie j c' (by omega) hget hqc
      · intro j c' hget hqc
        cases j with
        | zero =>
          simp only [List.get?_cons_zero, Option.some.injEq] at hget
          subst hget
          intro hlt
          rcases h2 with h2 | h2
          · rw [h2] at hlt; exact hq ⟨hqc, hlt⟩
          · exact hq ⟨hqc, Dbl.lt_trans' h2 hlt⟩
        | succ j => exact h4 j c' hget hqc

theorem analyze_cases (params : DetectionParams) (cs : List Contour) :
    (analyzeContours params cs = (0, -1) ∧
        ∀ j c', cs.get? j = some c' → qualifies params c' → ¬ ((0 : Dbl) < score c')) ∨
      ∃ k c, cs.get? k = some c ∧ qualifies params c ∧
        analyzeContours params cs = (score c, (k : Int)) ∧ (0 : Dbl) < score c ∧
        (∀ j c', cs.get? j = some c' → qualifies params c' → ¬ (score c < score c')) ∧
        (∀ j c', j < k → cs.get? j = some c' → qualifies params c' →
          ¬ (score c ≤ score c')) := by
  have h0 : ((0 : Dbl), (-1 : Int)).1 ≠ nan := by simp
  obtain ⟨_, _, h3, h4⟩ := scan_spec params cs 0 (0, -1) h0
  unfold analyzeContours
  rcases h3 with h3 | ⟨k, c, hk, hq, hres, hlt, htie⟩
  · left
    refine ⟨h3, ?_⟩
    intro j c' hj hq
    have := h4 j c' hj hq
    rw [h3] at this
    exact this
  · right
    refine ⟨k, c, hk, hq, ?_, hlt, ?_, htie⟩
    · rw [hres, Nat.zero_add]
    · intro j c' hj hq'
      have := h4 j c' hj hq'
      rw [hres] at this
      exact this

theorem pvd_of_none (params : DetectionParams) (color : ArmorColor) (cs : List Contour)
    (h : analyzeContours params cs = (0, -1)) :
    performVisionDetection params color cs = {} := by
  unfold performVisionDetection
  simp [h]

theorem pvd_of_selected (params : DetectionParams) (color : ArmorColor) (cs : List Contour)
    (k : Nat) (c : Contour) (hk : cs.get? k = some c)
    (h : analyzeContours params cs = (score c, (k : Int))) :
    performVisionDetection params color cs =
      { armor_detected := true
        confidence := std_min 100.0 (score c / 10.0)
        detected_color := color
        armor_bbox := c.rect.boundingRect
        center_2d := c.rect.center
        armor_corners := std_sort cornerLess [c.rect.p0, c.rect.p1, c.rect.p2, c.rect.p3]
        armor_size :=
          if (2000 : Dbl) < (c.area : Dbl) then ArmorSize.ARMOR_SIZE_BIG_ARMOR
          else ArmorSize.ARMOR_SIZE_SMALL_ARMOR } := by
  unfold performVisionDetection
  simp only [h, Int.toNat_ofNat, hk, Int.natCast_nonneg, if_true]

theorem std_max_fin (a b : ℚ) : std_max (fin a) (fin b) = fin (max a b) := by
  unfold std_max
  simp only [Dbl.fin_lt]
  split
  · rename_i h; rw [max_eq_right (le_of_lt h)]
  · rename_i h; rw [max_eq_left (not_lt.mp h)]

theorem std_min_fin (a b : ℚ) : std_min (fin a) (fin b) = fin (min a b) := by
  unfold std_min
  simp only [Dbl.fin_lt]
  split
  · rename_i h; rw [min_eq_right (le_of_lt h)]
  · rename_i h; rw [min_eq_left (not_lt.mp h)]

/-- For a contour that qualifies, the code's `aspect_ratio` and `score` are the
finite values `max(w, h) / min(w, h)` and `area / (aspect × 100)`. -/
theorem score_eq_of_qualifies (params : DetectionParams) (c : Contour)
    (hq : qualifies params c) (hw : 0 ≤ c.rect.size.width) (hh : 0 ≤ c.rect.size.height) :
    0 < min c.rect.size.width c.rect.size.height ∧
    aspect_ratio c.rect
      = fin (max c.rect.size.width c.rect.size.height
          / min c.rect.size.width c.rect.size.height) ∧
    score c
      = fin (c.area / (max c.rect.size.width c.rect.size.height
          / min c.rect.size.width c.rect.size.height * 100)) := by
  have hmax := hq.2.2
  have hmin0 : 0 ≤ min c.rect.size.width c.rect.size.height := le_min hw hh
  have hasp : aspect_ratio c.rect
      = fin (max c.rect.size.width c.rect.size.height)
          / fin (min c.rect.size.width c.rect.size.height) := by
    unfold aspect_ratio
    rw [Dbl.coe_eq, Dbl.coe_eq, std_max_fin, std_min_fin]
  have hpos : 0 < min c.rect.size.width c.rect.size.height := by
    rcases lt_or_eq_of_le hmin0 with h | h
    · exact h
    · exfalso
      rw [hasp, ← h, Dbl.fin_div, if_pos rfl, Dbl.coe_eq] at hmax
      unfold Dbl.ofSign at hmax
      split at hmax
      · exact Dbl.not_pinf_le_fin _ hmax
      · split at hmax
        · rename_i h1 h2
          have := le_max_left c.rect.size.width c.rect.size.height
          linarith
        · exact Dbl.not_nan_le _ hmax
  have hne : min c.rect.size.width c.rect.size.height ≠ 0 := ne_of_gt hpos
  have hasp' := hasp
  rw [Dbl.fin_div_of_ne _ _ hne] at hasp'
  have hmaxpos : 0 < max c.rect.size.width c.rect.size.height :=
    lt_of_lt_of_le hpos (min_le_max)
  have hne2 : max c.rect.size.width c.rect.size.height
      / min c.rect.size.width c.rect.size.height * 100 ≠ 0 := by positivity
  refine ⟨hpos, hasp', ?_⟩
  unfold score
  rw [hasp', Dbl.coe_eq, Dbl.ofNat_eq, Dbl.fin_mul, Dbl.fin_div_of_ne _ _ hne2]

/-- Qualification spelled out on the measurements: area at least `area_threshold`,
a rectangle with two positive sides, and `max(w, h) / min(w, h)` between
`aspect_ratio_min` and `aspect_ratio_max`, bounds included. -/
theorem qualifies_iff (params : DetectionParams) (c : Contour)
    (hw : 0 ≤ c.rect.size.width) (hh : 0 ≤ c.rect.size.height) :
    qualifies params c ↔
      (params.area_threshold ≤ c.area ∧
        0 < min c.rect.size.width c.rect.size.height ∧
        params.aspect_ratio_min
          ≤ max c.rect.size.width c.rect.size.height
            / min c.rect.size.width c.rect.size.height ∧
        max c.rect.size.width c.rect.size.height
          / min c.rect.size.width c.rect.size.height ≤ params.aspect_ratio_max) := by
  constructor
  · intro hq
    obtain ⟨hmin, hasp, _⟩ := score_eq_of_qualifies params c hq hw hh
    have h1 := hq.1
    have h2 := hq.2.1
    have h3 := hq.2.2
    rw [hasp] at h2 h3
    rw [Dbl.coe_eq, Dbl.coe_eq, Dbl.fin_le] at h1
    rw [Dbl.coe_eq, Dbl.fin_le] at h2 h3
    exact ⟨h1, hmin, h2, h3⟩
  · rintro ⟨h1, hmin, h2, h3⟩
    have hasp : aspect_ratio c.rect
        = fin (max c.rect.size.width c.rect.size.height
            / min c.rect.size.width c.rect.size.height) := by
      unfold aspect_ratio
      rw [Dbl.coe_eq, Dbl.coe_eq, std_max_fin, std_min_fin,
        Dbl.fin_div_of_ne _ _ (ne_of_gt hmin)]
    refine ⟨?_, ?_, ?_⟩
    · rw [Dbl.coe_eq, Dbl.coe_eq, Dbl.fin_le]
      exact h1
    · rw [hasp, Dbl.coe_eq, Dbl.fin_le]
      exact h2
    · rw [hasp, Dbl.coe_eq, Dbl.fin_le]
      exact h3

/-- C9: a contour qualifies when its area is at least `area_threshold` and
`aspect = max(w, h) / min(w, h)` lies between `aspect_ratio_min` and
`aspect_ratio_max`, and its score then is `area / (aspect × 100)`.  Whenever
some contour qualifies, the contour loop selects a qualifying contour of
highest score, and among those of highest score the one of lowest index: every
qualifying contour scores at most as high as the selected one, every
qualifying contour of lower index scores strictly lower, and the detection
result is built from the selected contour.  Here `area_threshold` is positive
(the program starts at 100 and never goes below 50) and the sides of the
rotated rectangles are not negative.  Without these two conditions: whatever
is selected qualifies, no qualifying contour scores strictly higher, none of
lower index scores as high, and a contour is selected as soon as one
qualifying contour has a positive score. -/
theorem analyzeContours_selects_best (params : DetectionParams) (enemy_color : ArmorColor)
    (contours : List Contour) :
    (∀ c : Contour, 0 ≤ c.rect.size.width → 0 ≤ c.rect.size.height →
      (qualifies params c ↔
        (params.area_threshold ≤ c.area ∧
          0 < min c.rect.size.width c.rect.size.height ∧
          params.aspect_ratio_min
            ≤ max c.rect.size.width c.rect.size.height
              / min c.rect.size.width c.rect.size.height ∧
          max c.rect.size.width c.rect.size.height
            / min c.rect.size.width c.rect.size.height ≤ params.aspect_ratio_max)) ∧
      (qualifies params c →
        aspect_ratio c.rect
          = fin (max c.rect.size.width c.rect.size.height
              / min c.rect.size.width c.rect.size.height) ∧
        score c
          = fin (c.area / (max c.rect.size.width c.rect.size.height
              / min c.rect.size.width c.rect.size.height * 100)))) ∧
    (0 < params.area_threshold →
      (∀ c ∈ contours, 0 ≤ c.rect.size.width ∧ 0 ≤ c.rect.size.height) →
      (∃ c ∈ contours, qualifies params c) →
      ∃ (i : Nat) (c : Contour), (analyzeContours params contours).2 = (i : Int) ∧
        contours.get? i = some c ∧ qualifies params c ∧
        (analyzeContours params contours).1 = score c ∧
        (∀ j c', contours.get? j = some c' → qualifies params c' → score c' ≤ score c) ∧
        (∀ j c', j < i → contours.get? j = some c' → qualifies params c' →
          score c' < score c) ∧
        (performVisionDetection params enemy_color contours).armor_detected = true ∧
        (performVisionDetection params enemy_color contours).center_2d = c.rect.center ∧
        (performVisionDetection params enemy_color contours).armor_bbox
          = c.rect.boundingRect) ∧
    (∀ i : Nat, (analyzeContours params contours).2 = (i : Int) →
      ∃ c, contours.get? i = some c ∧ qualifies params c ∧
        (analyzeContours params contours).1 = score c ∧
        (∀ j c', contours.get? j = some c' → qualifies params c' → ¬ (score c < score c')) ∧
        (∀ j c', j < i → contours.get? j = some c' → qualifies params c' →
          ¬ (score c ≤ score c')) ∧
        (performVisionDetection params enemy_color contours).armor_detected = true ∧
        (performVisionDetection params enemy_color contours).center_2d = c.rect.center ∧
        (performVisionDetection params enemy_color contours).armor_bbox
          = c.rect.boundingRect) ∧
    ((∃ j c', contours.get? j = some c' ∧ qualifies params c' ∧ (0 : Dbl) < score c') →
      ∃ i : Nat, (analyzeContours params contours).2 = (i : Int)) := by
  have hmem : ∀ j c', contours.get? j = some c' → c' ∈ contours := fun j c' hj =>
    List.get?_mem hj
  have hformula : ∀ c : Contour, 0 ≤ c.rect.size.width → 0 ≤ c.rect.size.height →
      qualifies params c →
      aspect_ratio c.rect
        = fin (max c.rect.size.width c.rect.size.height
            / min c.rect.size.width c.rect.size.height) ∧
      score c
        = fin (c.area / (max c.rect.size.width c.rect.size.height
            / min c.rect.size.width c.rect.size.height * 100)) := by
    intro c hw hh hq
    have hmin := ((qualifies_iff params c hw hh).mp hq).2.1
    have hmaxpos : 0 < max c.rect.size.width c.rect.size.height :=
      lt_of_lt_of_le hmin (min_le_max)
    have hne : max c.rect.size.width c.rect.size.height
        / min c.rect.size.width c.rect.size.height * 100 ≠ 0 := by positivity
    have hasp : aspect_ratio c.rect
        = fin (max c.rect.size.width c.rect.size.height
            / min c.rect.size.width c.rect.size.height) := by
      unfold aspect_ratio
      rw [Dbl.coe_eq, Dbl.coe_eq, std_max_fin, std_min_fin,
        Dbl.fin_div_of_ne _ _ (ne_of_gt hmin)]
    refine ⟨hasp, ?_⟩
    unfold score
    rw [hasp, Dbl.coe_eq, Dbl.ofNat_eq, Dbl.fin_mul, Dbl.fin_div_of_ne _ _ hne]
  refine ⟨fun c hw hh => ⟨qualifies_iff params c hw hh, hformula c hw hh⟩, ?_, ?_⟩
  · intro hthr hsz hex
    have hscore : ∀ c ∈ contours, qualifies params c →
        ∃ s, score c = fin s ∧ 0 < s := by
      intro c hc hq
      obtain ⟨hmin, _, hs⟩ := score_eq_of_qualifies params c hq (hsz c hc).1 (hsz c hc).2
      have harea : 0 < c.area := lt_of_lt_of_le hthr (by simpa [qualifies] using hq.1)
      have hmaxpos : 0 < max c.rect.size.width c.rect.size.height :=
        lt_of_lt_of_le hmin (min_le_max)
      exact ⟨_, hs, by positivity⟩
    rcases analyze_cases params contours with
      ⟨_, hnone⟩ | ⟨k, c, hk, hq, hres, _, hbest, htie⟩
    · exfalso
      obtain ⟨c0, hc0, hq0⟩ := hex
      obtain ⟨j, hj⟩ := List.get?_of_mem hc0
      obtain ⟨s, hs, hspos⟩ := hscore c0 hc0 hq0
      apply hnone j c0 hj hq0
      rw [hs, Dbl.zero_eq, Dbl.fin_lt]
      exact hspos
    · have hp := pvd_of_selected params enemy_color contours k c hk hres
      obtain ⟨s, hs, _⟩ := hscore c (hmem k c hk) hq
      refine ⟨k, c, by rw [hres], hk, hq, by rw [hres], ?_, ?_, ?_, ?_, ?_⟩
      · intro j c' hj hq'
        obtain ⟨s', hs', _⟩ := hscore c' (hmem j c' hj) hq'
        have := hbest j c' hj hq'
        rw [hs, hs', Dbl.fin_lt] at this
        rw [hs, hs', Dbl.fin_le]
        exact not_lt.mp this
      · intro j c' hlt hj hq'
        obtain ⟨s', hs', _⟩ := hscore c' (hmem j c' hj) hq'
        have := htie j c' hlt hj hq'
        rw [hs, hs', Dbl.fin_le] at this
        rw [hs, hs', Dbl.fin_lt]
        exact not_le.mp this
      · rw [hp]
      · rw [hp]
      · rw [hp]
  · rcases analyze_cases params contours with
      ⟨h0, hnone⟩ | ⟨k, c, hk, hq, hres, hpos, hbest, htie⟩
    · refine ⟨?_, ?_⟩
      · intro i hi
        rw [h0] at hi
        exact absurd hi (by simp)
      · rintro ⟨j, c', hj, hq, hpos⟩
        exact absurd hpos (hnone j c' hj hq)
    · refine ⟨?_, fun _ => ⟨k, by rw [hres]⟩⟩
      intro i hi
      rw [hres] at hi
      have hik : k = i := by simpa using hi
      subst hik
      have hp := pvd_of_selected params enemy_color contours k c hk hres
      refine ⟨c, hk, hq, by rw [hres], hbest, htie, ?_, ?_, ?_⟩ <;> rw [hp]

/-- Witness for C9: a contour that does not qualify followed by two equal
qualifying contours of 5000 by 1250 pixels and area 6250000, whose score is
`6250000 / (4 × 100) = 15625`; the first of the two, index 1, is selected. -/
theorem analyzeContours_selects_best_witness :
    (analyzeContours {} [thinContour, wideContour, wideContour]).2 = 1 ∧
    (analyzeContours {} [thinContour, wideContour, wideContour]).1 = fin 15625 ∧
    score wideContour = fin 15625 ∧
    (∃ (i : Nat) (c : Contour),
      (analyzeContours {} [thinContour, wideContour, wideContour]).2 = (i : Int) ∧
      [thinContour, wideContour, wideContour].get? i = some c ∧ qualifies {} c) ∧
    (performVisionDetection {} ArmorColor.ARMOR_COLOR_RED
      [thinContour, wideContour, wideContour]).armor_detected = true :=
  have t := analyzeContours_selects_best {} ArmorColor.ARMOR_COLOR_RED
    [thinContour, wideContour, wideContour]
  have h : (analyzeContours {} [thinContour, wideContour, wideContour]).2 = ((1 : Nat) : Int) := by
    decide!
  ⟨h, by decide!,
    ((t.1 wideContour (by decide!) (by decide!)).2 (by decide!)).2.trans (by decide!),
    (t.2.1 (by decide!) (by decide!) ⟨wideContour, by decide!, by decide!⟩).elim
      (fun i hi => hi.elim (fun c hc => ⟨i, c, hc.1, hc.2.1, hc.2.2.1⟩)),
    match t.2.2.1 1 h with
    | ⟨_, hc⟩ => hc.2.2.2.2.2.1⟩

/-! ## Detection exactly when a contour qualifies -/

theorem aspect_of_qualifies (params : DetectionParams) (c : Contour)
    (hq : qualifies params c) (hw : 0 ≤ c.rect.size.width) (hh : 0 ≤ c.rect.size.height) :
    ∃ a, aspect_ratio c.rect = fin a ∧ 0 < a := by
  obtain ⟨_, _, hmax⟩ := hq
  revert hmax
  unfold aspect_ratio std_max std_min
  simp only [Dbl.coe_eq, Dbl.fin_lt]
  generalize c.rect.size.width = w at hw ⊢
  generalize c.rect.size.height = h at hh ⊢
  by_cases h1 : w < h
  · have h2 : ¬ (h < w) := not_lt.mpr (le_of_lt h1)
    simp only [h1, h2, if_true, if_false]
    by_cases hw0 : w = 0
    · subst hw0
      simp [Dbl.fin_div, Dbl.ofSign, h1]
    · intro _
      have hwpos : 0 < w := lt_of_le_of_ne hw (Ne.symm hw0)
      exact ⟨h / w, Dbl.fin_div_of_ne h w hw0, div_pos (lt_trans hwpos h1) hwpos⟩
  · simp only [h1, if_false]
    by_cases h2 : h < w
    · simp only [h2, if_true]
      by_cases hh0 : h = 0
      · subst hh0
        simp [Dbl.fin_div, Dbl.ofSign, h2]
      · intro _
        have hhpos : 0 < h := lt_of_le_of_ne hh (Ne.symm hh0)
        exact ⟨w / h, Dbl.fin_div_of_ne w h hh0, div_pos (lt_trans hhpos h2) hhpos⟩
    · simp only [h2, if_false]
      by_cases hw0 : w = 0
      · subst hw0
        simp [Dbl.fin_div, Dbl.ofSign]
      · intro _
        have hwpos : 0 < w := lt_of_le_of_ne hw (Ne.symm hw0)
        exact ⟨w / w, Dbl.fin_div_of_ne w w hw0, div_pos hwpos hwpos⟩

theorem score_pos_of_qualifies (params : DetectionParams) (c : Contour)
    (hthr : 0 < params.area_threshold)
    (hq : qualifies params c) (hw : 0 ≤ c.rect.size.width) (hh : 0 ≤ c.rect.size.height) :
    (0 : Dbl) < score c := by
  obtain ⟨a, ha, hapos⟩ := aspect_of_qualifies params c hq hw hh
  have harea : 0 < c.area := lt_of_lt_of_le hthr (by simpa [qualifies] using hq.1)
  unfold score
  rw [ha]
  have hne : a * 100 ≠ 0 := by positivity
  simp only [Dbl.coe_eq, Dbl.ofNat_eq, Dbl.fin_mul, Dbl.fin_div_of_ne _ _ hne, Dbl.zero_eq,
    Dbl.fin_lt]
  positivity

/-- Every setting that the program can reach has `area_threshold >= 50`. -/
theorem settings_threshold (keys : List Char) : 50 ≤ (settingsAfter keys).area_threshold := by
  have step : ∀ (params : DetectionParams) (key : Char), 50 ≤ params.area_threshold →
      50 ≤ (adjustParams params key).area_threshold := by
    intro params key h
    unfold adjustParams
    split
    · show 50 ≤ params.area_threshold + 50
      linarith
    · split
      · exact le_max_left _ _
      · split
        · exact h
        · split
          · exact h
          · exact h
  have key : ∀ (keys : List Char) (params : DetectionParams), 50 ≤ params.area_threshold →
      50 ≤ (keys.foldl adjustParams params).area_threshold := by
    intro keys
    induction keys with
    | nil => intro params h; exact h
    | cons k ks ih =>
      intro params h
      exact ih _ (step params k h)
  exact key keys {} (by norm_num)

/-- C10: for every setting with a positive `area_threshold`, hence for every setting
that the program can reach (it starts at 100 and never goes below 50), and
every contour list (the sides of the rotated rectangles are not negative),
`armor_detected` is true exactly when some contour qualifies; a contour with
area `area_threshold - 1` or with aspect ratio above `aspect_ratio_max` is
never the selected one; and when no contour qualifies the result is the
default result.  To qualify is to have an area of at least `area_threshold`
and `max(w, h) / min(w, h)` between `aspect_ratio_min` and `aspect_ratio_max`. -/
theorem armor_detected_iff_qualifies (params : DetectionParams) (enemy_color : ArmorColor)
    (contours : List Contour) (hthr : 0 < params.area_threshold)
    (hsz : ∀ c ∈ contours, 0 ≤ c.rect.size.width ∧ 0 ≤ c.rect.size.height) :
    ((performVisionDetection params enemy_color contours).armor_detected = true ↔
      ∃ c ∈ contours, qualifies params c) ∧
    (∀ (i : Nat) (c : Contour), contours.get? i = some c →
      (c.area = params.area_threshold - 1 ∨
        (params.aspect_ratio_max : Dbl) < aspect_ratio c.rect) →
      (analyzeContours params contours).2 ≠ (i : Int)) ∧
    ((¬ ∃ c ∈ contours, qualifies params c) →
      performVisionDetection params enemy_color contours = {}) ∧
    (∀ c ∈ contours, (qualifies params c ↔
        (params.area_threshold ≤ c.area ∧
          0 < min c.rect.size.width c.rect.size.height ∧
          params.aspect_ratio_min
            ≤ max c.rect.size.width c.rect.size.height
              / min c.rect.size.width c.rect.size.height ∧
          max c.rect.size.width c.rect.size.height
            / min c.rect.size.width c.rect.size.height ≤ params.aspect_ratio_max))) := by
  have hmem : ∀ j c', contours.get? j = some c' → c' ∈ contours := fun j c' hj =>
    List.get?_mem hj
  have key : ∀ {A B C D : Prop}, (A ∧ B ∧ C) → D → A ∧ B ∧ C ∧ D :=
    fun h d => ⟨h.1, h.2.1, h.2.2, d⟩
  refine key ?_ (fun c hc => qualifies_iff params c (hsz c hc).1 (hsz c hc).2)
  rcases analyze_cases params contours with ⟨h0, hnone⟩ | ⟨k, c, hk, hq, hres, hpos, hbest, htie⟩
  · have hp := pvd_of_none params enemy_color contours h0
    have hnq : ¬ ∃ c ∈ contours, qualifies params c := by
      rintro ⟨c, hc, hq⟩
      obtain ⟨j, hj⟩ := List.get?_of_mem hc
      exact hnone j c hj hq
        (score_pos_of_qualifies params c hthr hq (hsz c hc).1 (hsz c hc).2)
    refine ⟨?_, ?_, fun _ => hp⟩
    · rw [hp]
      exact ⟨fun h => absurd h (by decide), fun h => absurd h hnq⟩
    · intro i c _ _ hi
      rw [h0] at hi
      exact absurd hi (by simp)
  · have hp := pvd_of_selected params enemy_color contours k c hk hres
    refine ⟨?_, ?_, fun hn => absurd ⟨c, hmem k c hk, hq⟩ hn⟩
    · rw [hp]
      exact ⟨fun _ => ⟨c, hmem k c hk, hq⟩, fun _ => rfl⟩
    · intro i c' hi hbad hsel
      rw [hres] at hsel
      have hik : k = i := by simpa using hsel
      subst hik
      rw [hk] at hi
      cases hi
      rcases hbad with hbad | hbad
      · have := hq.1
        rw [hbad] at this
        simp only [Dbl.coe_eq, Dbl.fin_le] at this
        linarith
      · exact Dbl.not_le_of_lt' hbad hq.2.2

/-- Witness for C10: the lowest threshold that the program can reach, 50 after the
key `-` pressed twice, and one contour that qualifies. -/
theorem armor_detected_iff_qualifies_witness :
    (settingsAfter ['-', '-']).area_threshold = 50 ∧
    (performVisionDetection (settingsAfter ['-', '-']) ArmorColor.ARMOR_COLOR_RED
      [wideContour]).armor_detected = true ∧
    ∃ c ∈ [wideContour], qualifies (settingsAfter ['-', '-']) c :=
  have h := armor_detected_iff_qualifies (settingsAfter ['-', '-']) ArmorColor.ARMOR_COLOR_RED
    [wideContour] (lt_of_lt_of_le (by norm_num) (settings_threshold ['-', '-'])) (by decide!)
  have hd : (performVisionDetection (settingsAfter ['-', '-']) ArmorColor.ARMOR_COLOR_RED
      [wideContour]).armor_detected = true := by decide!
  ⟨by decide!, hd, h.1.mp hd⟩

/-! ## Ranges of confidence and hit probability -/

theorem run_cases (E : Extern) (params : DetectionParams) (enemy_color : ArmorColor)
    (target_history : List FullTargetingResult) (robot_type : Int) (contours : List Contour) :
    runCompleteAutoAim E params enemy_color target_history robot_type contours
        = performVisionDetection params enemy_color contours ∨
    runCompleteAutoAim E params enemy_color target_history robot_type contours
        = calculate3DPosition E (performVisionDetection params enemy_color contours) ∨
    ((calculate3DPosition E (performVisionDetection params enemy_color contours)).position_solved
        = true ∧
      runCompleteAutoAim E params enemy_color target_history robot_type contours
        = validateTarget E robot_type (calculateFiringSolution E
            (predictTargetMotion target_history
              (calculate3DPosition E (performVisionDetection params enemy_color contours))))) := by
  unfold runCompleteAutoAim
  dsimp only
  split
  · exact Or.inl rfl
  · split
    · exact Or.inr (Or.inl rfl)
    · rename_i hsol
      exact Or.inr (Or.inr ⟨by simpa using hsol, rfl⟩)

theorem conf_detect_range {s : Dbl} (hs : (0 : Dbl) < s) :
    ∃ q, std_min 100.0 (s / 10.0) = fin q ∧ 0 < q ∧ q ≤ 100 := by
  rw [Dbl.zero_eq] at hs
  rcases Dbl.above_fin hs with h | ⟨q, h, hq⟩
  · subst h
    refine ⟨100, ?_, by norm_num, le_refl _⟩
    show std_min 100.0 (Dbl.div pinf (fin _)) = _
    norm_num [Dbl.div, Dbl.ofSign, Dbl.sgn, std_min]
  · subst h
    have h10 : (OfScientific.ofScientific 100 true 1 : ℚ) ≠ 0 := by norm_num
    simp only [Dbl.ofScientific_eq, Dbl.fin_div_of_ne _ _ h10, std_min, Dbl.fin_lt]
    split
    · rename_i h
      exact ⟨_, rfl, by norm_num at h ⊢; positivity, le_of_lt (by norm_num at h ⊢; linarith)⟩
    · exact ⟨_, rfl, by norm_num, by norm_num⟩

theorem pvd_conf_range (params : DetectionParams) (color : ArmorColor) (cs : List Contour) :
    ∃ q, (performVisionDetection params color cs).confidence = fin q ∧ 0 ≤ q ∧ q ≤ 100 := by
  rcases analyze_cases params cs with ⟨h0, _⟩ | ⟨k, c, hk, _, hres, hpos, _, _⟩
  · rw [pvd_of_none params color cs h0]
    exact ⟨0, by simp, le_refl _, by norm_num⟩
  · rw [pvd_of_selected params color cs k c hk hres]
    obtain ⟨q, hq, h1, h2⟩ := conf_detect_range hpos
    exact ⟨q, hq, le_of_lt h1, h2⟩

theorem penalty_range (q k : ℚ) (h1 : q ≤ 100) (hk : 0 ≤ k) :
    ∃ q', std_max 0.0 (fin q - fin k) = fin q' ∧ 0 ≤ q' ∧ q' ≤ 100 := by
  simp only [Dbl.ofScientific_eq, Dbl.fin_sub, std_max, Dbl.fin_lt]
  split
  · rename_i h
    exact ⟨_, rfl, by norm_num at h; linarith, by linarith⟩
  · exact ⟨_, rfl, by norm_num, by norm_num⟩

theorem c3d_conf_range (E : Extern) (r : FullTargetingResult) (q : ℚ)
    (hr : r.confidence = fin q) (h0 : 0 ≤ q) (h1 : q ≤ 100) :
    ∃ q', (calculate3DPosition E r).confidence = fin q' ∧ 0 ≤ q' ∧ q' ≤ 100 := by
  unfold calculate3DPosition
  split
  · exact ⟨q, hr, h0, h1⟩
  · dsimp only
    generalize E.solvePnP _ r.armor_corners = pnp
    split
    · rw [(anglesGuarded_fields E _).2.2.2.1]
      unfold penalize
      dsimp only
      split
      · rename_i hfb
        rw [(fallbackAfterPnP_fields E _).2.2.2.1, (takePnP_fields E r pnp).2.2.2.1, hr]
        exact penalty_range q 10 h1 (by norm_num)
      · rename_i hfb
        rw [(takePnP_fields E r pnp).2.2.2.1, hr]
        exact ⟨q, rfl, h0, h1⟩
    · unfold fallbackNoPnP
      dsimp only
      rw [hr]
      exact penalty_range q 20 h1 (by norm_num)

theorem run_conf_range (E : Extern) (params : DetectionParams) (enemy_color : ArmorColor)
    (target_history : List FullTargetingResult) (robot_type : Int) (contours : List Contour) :
    ∃ q, (runCompleteAutoAim E params enemy_color target_history robot_type
      contours).confidence = fin q ∧ 0 ≤ q ∧ q ≤ 100 := by
  obtain ⟨q, hq, h0, h1⟩ := pvd_conf_range params enemy_color contours
  rcases run_cases E params enemy_color target_history robot_type contours with h | h | ⟨_, h⟩
  · rw [h]; exact ⟨q, hq, h0, h1⟩
  · rw [h]; exact c3d_conf_range E _ q hq h0 h1
  · rw [h, (validate_fields E _ _).2.1, (firing_fields E _).2.1, (predict_fields _ _).2.2.2.1]
    exact c3d_conf_range E _ q hq h0 h1

/-- C7: for every result of `runCompleteAutoAim`, `0 <= confidence <= 100`; a
detection sets `confidence = min(100, best_score / 10)` with a positive
`best_score`, and the penalties of the pose fallback stop at 0. -/
theorem confidence_in_range (E : Extern) (params : DetectionParams) (enemy_color : ArmorColor)
    (target_history : List FullTargetingResult) (robot_type : Int) (contours : List Contour) :
    ((0 : Dbl) ≤ (runCompleteAutoAim E params enemy_color target_history robot_type
        contours).confidence ∧
      (runCompleteAutoAim E params enemy_color target_history robot_type
        contours).confidence ≤ 100) ∧
    ((performVisionDetection params enemy_color contours).armor_detected = true →
      (performVisionDetection params enemy_color contours).confidence
        = std_min 100.0 ((analyzeContours params contours).1 / 10.0) ∧
      (0 : Dbl) < (analyzeContours params contours).1) := by
  refine ⟨?_, ?_⟩
  · obtain ⟨q, hq, h0, h1⟩ :=
      run_conf_range E params enemy_color target_history robot_type contours
    rw [hq]
    exact ⟨by simpa using h0, by simpa using h1⟩
  · intro hdet
    rcases analyze_cases params contours with ⟨h0, _⟩ | ⟨k, c, hk, _, hres, hpos, _, _⟩
    · rw [pvd_of_none params enemy_color contours h0] at hdet
      exact absurd hdet (by decide)
    · rw [pvd_of_selected params enemy_color contours k c hk hres, hres]
      exact ⟨rfl, hpos⟩

/-- Witness for C7: the wide armor is detected with confidence 100. -/
theorem confidence_in_range_witness :
    (performVisionDetection {} ArmorColor.ARMOR_COLOR_RED [wideContour]).confidence
      = std_min 100.0 ((analyzeContours {} [wideContour]).1 / 10.0) ∧
    (0 : Dbl) < (analyzeContours {} [wideContour]).1 :=
  (confidence_in_range (evalExtern pnpFailed ⟨5000, 1250⟩ true) {} ArmorColor.ARMOR_COLOR_RED
    [] 1 [wideContour]).2 (by decide!)

theorem dist_ok_of_not_lt {d : Dbl} (h : ¬ (d < (5.0 : Dbl))) : d = nan ∨ fin 0 ≤ d := by
  cases d with
  | fin q =>
    right
    simp only [Dbl.ofScientific_eq, Dbl.fin_lt, not_lt] at h
    simp only [Dbl.fin_le]
    norm_num at h
    linarith
  | pinf => exact Or.inr (Dbl.fin_le_pinf 0)
  | ninf =>
    exact absurd (by simp : ninf < (5.0 : Dbl)) h
  | nan => exact Or.inl rfl

theorem fallback_dist_ok (w h : ℚ) (hw : 0 ≤ w) (hh : 0 ≤ h) :
    ((100.0 : Dbl) * 100.0) / std_max (w : Dbl) (h : Dbl) = nan ∨
      fin 0 ≤ ((100.0 : Dbl) * 100.0) / std_max (w : Dbl) (h : Dbl) := by
  right
  have key : ∀ m : ℚ, 0 ≤ m → fin 0 ≤ ((100.0 : Dbl) * 100.0) / fin m := by
    intro m hm
    simp only [Dbl.ofScientific_eq, Dbl.fin_mul]
    by_cases h0 : m = 0
    · subst h0
      rw [Dbl.fin_div, if_pos rfl]
      norm_num [Dbl.ofSign]
    · rw [Dbl.fin_div_of_ne _ _ h0, Dbl.fin_le]
      have : 0 < m := lt_of_le_of_ne hm (Ne.symm h0)
      positivity
  unfold std_max
  split
  · exact key h hh
  · exact key w hw

theorem c3d_dist_ok (E : Extern) (r : FullTargetingResult)
    (hE : ∀ pts, 0 ≤ (E.minAreaRect pts).width ∧ 0 ≤ (E.minAreaRect pts).height)
    (hr : r.distance_3d = nan ∨ fin 0 ≤ r.distance_3d) :
    (calculate3DPosition E r).distance_3d = nan ∨
      fin 0 ≤ (calculate3DPosition E r).distance_3d := by
  unfold calculate3DPosition
  split
  · exact hr
  · dsimp only
    generalize E.solvePnP _ r.armor_corners = pnp
    split
    · rw [(anglesGuarded_fields E _).2.2.2.2.1, (penalize_fields _ _).2.2.2.1]
      split
      · unfold fallbackAfterPnP
        dsimp only
        exact fallback_dist_ok _ _ (hE _).1 (hE _).2
      · rename_i hfb
        unfold needsFallback at hfb
        simp only [Bool.or_eq_true, Bool.not_eq_true', decide_eq_true_eq, not_or] at hfb
        exact dist_ok_of_not_lt hfb.1.2
    · unfold fallbackNoPnP
      dsimp only
      exact fallback_dist_ok _ _ (hE _).1 (hE _).2

theorem distance_factor_range (r : FullTargetingResult)
    (hr : r.distance_3d = nan ∨ fin 0 ≤ r.distance_3d) :
    ∃ q, distance_factor r = fin q ∧ 0 ≤ q ∧ q ≤ 1 := by
  unfold distance_factor
  rcases hr with hr | hr
  · rw [hr]
    refine ⟨0, ?_, le_refl _, by norm_num⟩
    show std_max 0.0 (Dbl.sub 1.0 (Dbl.div nan (fin _))) = _
    norm_num [Dbl.div, Dbl.sub, Dbl.add, Dbl.neg, std_max]
  · cases hd : r.distance_3d with
    | fin d =>
      rw [hd, Dbl.fin_le] at hr
      have h8 : (OfScientific.ofScientific 80 true 1 : ℚ) ≠ 0 := by norm_num
      simp only [Dbl.ofScientific_eq, Dbl.fin_div_of_ne _ _ h8, Dbl.fin_sub, std_max, Dbl.fin_lt]
      split
      · rename_i h
        refine ⟨_, rfl, by norm_num at h ⊢; linarith, ?_⟩
        norm_num
        positivity
      · exact ⟨_, rfl, by norm_num, by norm_num⟩
    | pinf =>
      refine ⟨0, ?_, le_refl _, by norm_num⟩
      show std_max 0.0 (Dbl.sub 1.0 (Dbl.div pinf (fin _))) = _
      norm_num [Dbl.div, Dbl.sub, Dbl.add, Dbl.neg, std_max, Dbl.ofSign, Dbl.sgn]
    | ninf =>
      rw [hd] at hr
      exact absurd hr (Dbl.not_fin_le_ninf 0)
    | nan =>
      rw [hd] at hr
      exact absurd hr (Dbl.not_le_nan _)

theorem velocity_factor_range (E : Extern) (r : FullTargetingResult) :
    ∃ q, velocity_factor E r = fin q ∧ 0 ≤ q ∧ q ≤ 1 := by
  unfold velocity_factor
  split
  · exact ⟨1, by norm_num, by norm_num, le_refl _⟩
  · exact ⟨1 / 2, by norm_num, by norm_num, by norm_num⟩

theorem confidence_factor_range (r : FullTargetingResult) (c : ℚ)
    (hr : r.confidence = fin c) (h0 : 0 ≤ c) (h1 : c ≤ 100) :
    ∃ q, confidence_factor r = fin q ∧ 0 ≤ q ∧ q ≤ 1 := by
  unfold confidence_factor
  have h100 : (OfScientific.ofScientific 1000 true 1 : ℚ) ≠ 0 := by norm_num
  rw [hr, Dbl.ofScientific_eq, Dbl.fin_div_of_ne _ _ h100]
  refine ⟨_, rfl, by positivity, ?_⟩
  norm_num
  linarith

theorem firing_hit_range (E : Extern) (x : FullTargetingResult) (c : ℚ)
    (hsol : x.position_solved = true) (hc : x.confidence = fin c) (h0 : 0 ≤ c) (h1 : c ≤ 100)
    (hd : x.distance_3d = nan ∨ fin 0 ≤ x.distance_3d) :
    ∃ q, (calculateFiringSolution E x).hit_probability = fin q ∧ 0 ≤ q ∧ q ≤ 1 := by
  unfold calculateFiringSolution
  simp only [hsol, Bool.not_true, Bool.false_eq_true, if_false]
  have hdist : (firingAngles E (flightAndDrop E x)).distance_3d = x.distance_3d := by
    rw [(firingAngles_fields E _).2.2.1, (flightAndDrop_fields E _).2.2.1]
  have hconf : (firingAngles E (flightAndDrop E x)).confidence = x.confidence := by
    rw [(firingAngles_fields E _).2.1, (flightAndDrop_fields E _).2.1]
  obtain ⟨a, ha, ha0, ha1⟩ := distance_factor_range (firingAngles E (flightAndDrop E x))
    (by rw [hdist]; exact hd)
  obtain ⟨b, hb, hb0, hb1⟩ := confidence_factor_range (firingAngles E (flightAndDrop E x)) c
    (by rw [hconf]; exact hc) h0 h1
  obtain ⟨v, hv, hv0, hv1⟩ := velocity_factor_range E (firingAngles E (flightAndDrop E x))
  unfold fireDecision
  dsimp only
  rw [ha, hb, hv, Dbl.fin_mul, Dbl.fin_mul]
  have hab0 : 0 ≤ a * b := mul_nonneg ha0 hb0
  have hab1 : a * b ≤ 1 := by nlinarith
  exact ⟨_, rfl, mul_nonneg hab0 hv0, by nlinarith⟩

/-- C4: for every result of `runCompleteAutoAim` (any contour list, any outcome of
the pose solver, any history), `0 <= hit_probability <= 1`.  The sides of the
rectangle that `cv::minAreaRect` puts around the corner points are not
negative. -/
theorem hit_probability_in_unit_interval (E : Extern) (params : DetectionParams)
    (enemy_color : ArmorColor) (target_history : List FullTargetingResult)
    (robot_type : Int) (contours : List Contour)
    (hE : ∀ pts, 0 ≤ (E.minAreaRect pts).width ∧ 0 ≤ (E.minAreaRect pts).height) :
    (0 : Dbl) ≤ (runCompleteAutoAim E params enemy_color target_history robot_type
        contours).hit_probability ∧
      (runCompleteAutoAim E params enemy_color target_history robot_type
        contours).hit_probability ≤ 1 := by
  have hd := pvd_defaults params enemy_color contours
  have key : ∃ q, (runCompleteAutoAim E params enemy_color target_history robot_type
      contours).hit_probability = fin q ∧ 0 ≤ q ∧ q ≤ 1 := by
    rcases run_cases E params enemy_color target_history robot_type contours with
      h | h | ⟨hsol, h⟩
    · rw [h, hd.2.2.1]
      exact ⟨0, by simp, le_refl _, by norm_num⟩
    · rw [h, (c3d_fields E _).2.1, hd.2.2.1]
      exact ⟨0, by simp, le_refl _, by norm_num⟩
    · rw [h, (validate_fields E _ _).2.2.2.2.1]
      obtain ⟨c, hc, h0, h1⟩ := pvd_conf_range params enemy_color contours
      obtain ⟨c', hc', h0', h1'⟩ := c3d_conf_range E _ c hc h0 h1
      apply firing_hit_range E _ c'
      · rw [(predict_fields _ _).2.2.2.2.2.2]; exact hsol
      · rw [(predict_fields _ _).2.2.2.1]; exact hc'
      · exact h0'
      · exact h1'
      · rw [(predict_fields _ _).2.2.2.2.1]
        apply c3d_dist_ok E _ hE
        right
        rw [hd.2.2.2.1]
        simp
  obtain ⟨q, hq, h0, h1⟩ := key
  rw [hq]
  exact ⟨by simpa using h0, by simpa using h1⟩

/-- Witness for C4: the wide armor with the pose solver failing; the hit
probability is 0.6. -/
theorem hit_probability_in_unit_interval_witness :
    (0 : Dbl) ≤ (runCompleteAutoAim (evalExtern pnpFailed ⟨5000, 1250⟩ true) {}
        ArmorColor.ARMOR_COLOR_RED [] 1 [wideContour]).hit_probability ∧
      (runCompleteAutoAim (evalExtern pnpFailed ⟨5000, 1250⟩ true) {}
        ArmorColor.ARMOR_COLOR_RED [] 1 [wideContour]).hit_probability ≤ 1 :=
  hit_probability_in_unit_interval (evalExtern pnpFailed ⟨5000, 1250⟩ true) {}
    ArmorColor.ARMOR_COLOR_RED [] 1 [wideContour]
    (fun _ => ⟨by norm_num [evalExtern], by norm_num [evalExtern]⟩)

/-! ## The pose stage: acceptance, fallback, penalties -/

theorem c3d_eq (E : Extern) (r : FullTargetingResult) (hdet : r.armor_detected = true)
    (hlen : r.armor_corners.length = 4) :
    calculate3DPosition E r =
      if (E.solvePnP (armorModel r) r.armor_corners).success = true then
        anglesGuarded E (penalize
          (needsFallback (takePnP E r (E.solvePnP (armorModel r) r.armor_corners)).2
            (takePnP E r (E.solvePnP (armorModel r) r.armor_corners)).1)
          (if needsFallback (takePnP E r (E.solvePnP (armorModel r) r.armor_corners)).2
              (takePnP E r (E.solvePnP (armorModel r) r.armor_corners)).1 = true then
            fallbackAfterPnP E (takePnP E r (E.solvePnP (armorModel r) r.armor_corners)).1
          else (takePnP E r (E.solvePnP (armorModel r) r.armor_corners)).1))
      else fallbackNoPnP E r := by
  unfold calculate3DPosition armorModel
  simp [hdet, hlen]

theorem div10_ne_nan {x : Dbl} (h : x ≠ nan) : x / (10.0 : Dbl) ≠ nan := by
  cases x with
  | fin q =>
    have h10 : (OfScientific.ofScientific 100 true 1 : ℚ) ≠ 0 := by norm_num
    rw [Dbl.ofScientific_eq, Dbl.fin_div_of_ne _ _ h10]
    simp
  | pinf =>
    show Dbl.div pinf (fin _) ≠ nan
    norm_num [Dbl.div, Dbl.ofSign, Dbl.sgn]
    exact h
  | ninf =>
    show Dbl.div ninf (fin _) ≠ nan
    norm_num [Dbl.div, Dbl.ofSign, Dbl.sgn]
    exact h
  | nan => exact absurd rfl h

theorem not_lt_iff_le_fin {x : Dbl} (h : x ≠ nan) (a : ℚ) : ¬ (x < fin a) ↔ fin a ≤ x := by
  cases x with
  | fin q => simp
  | pinf => simp
  | ninf => simp
  | nan => exact absurd rfl h

theorem not_fin_lt_iff_le {x : Dbl} (h : x ≠ nan) (a : ℚ) : ¬ (fin a < x) ↔ x ≤ fin a := by
  cases x with
  | fin q => simp
  | pinf => simp
  | ninf => simp [Dbl.le_def, Dbl.le, Dbl.lt, Dbl.eq]
  | nan => exact absurd rfl h

theorem norm_ne_nan (E : Extern) (hsqrt : ∀ q : ℚ, 0 ≤ q → E.sqrt (fin q) ≠ nan) (v : Vec3d)
    (h0 : isfinite v.v0 = true) (h1 : isfinite v.v1 = true) (h2 : isfinite v.v2 = true) :
    norm E v ≠ nan := by
  obtain ⟨a, b, c⟩ := v
  cases a <;> cases b <;> cases c <;> simp [isfinite] at h0 h1 h2
  unfold norm
  simp only [Dbl.fin_mul, Dbl.fin_add]
  exact hsqrt _
    (add_nonneg (add_nonneg (mul_self_nonneg _) (mul_self_nonneg _)) (mul_self_nonneg _))

/-- The code's test after a successful solve is the acceptance of the
specification, as soon as the square root of a finite value is not NaN. -/
theorem needsFallback_iff (E : Extern) (hsqrt : ∀ q : ℚ, 0 ≤ q → E.sqrt (fin q) ≠ nan)
    (r : FullTargetingResult) (pnp : PnPResult) (hs : pnp.success = true) :
    needsFallback (takePnP E r pnp).2 (takePnP E r pnp).1 = false ↔ pnpAcceptedSpec E pnp := by
  unfold pnpAcceptedSpec
  by_cases hfin : (isfinite pnp.tvec.v0 && isfinite pnp.tvec.v1 && isfinite pnp.tvec.v2) = true
  · have hf := hfin
    simp only [Bool.and_eq_true] at hf
    have hn : norm E pnp.tvec / (10.0 : Dbl) ≠ nan :=
      div10_ne_nan (norm_ne_nan E hsqrt pnp.tvec hf.1.1 hf.1.2 hf.2)
    have ht : takePnP E r pnp =
        ({ r with position_3d := pnp.tvec, rotation_3d := pnp.rvec, position_solved := true,
                  distance_3d := norm E pnp.tvec / 10.0 }, true) := by
      unfold takePnP
      simp only [hfin, if_true]
    rw [ht]
    unfold needsFallback
    simp only [Bool.not_true, Bool.false_or, Bool.or_eq_false_iff, decide_eq_false_iff_not,
      Dbl.ofScientific_eq] at hn ⊢
    rw [not_lt_iff_le_fin hn, not_fin_lt_iff_le hn]
    simp [hs, hf.1.1, hf.1.2, hf.2]
  · have ht : takePnP E r pnp =
        ({ r with position_3d := pnp.tvec, rotation_3d := pnp.rvec }, false) := by
      unfold takePnP
      simp only [hfin, if_false, Bool.false_eq_true]
    rw [ht]
    unfold needsFallback
    simp only [Bool.and_eq_true, not_and] at hfin
    simp only [Bool.not_false, Bool.true_or, Bool.true_eq_false, false_iff, not_and]
    intro _ hf
    exact absurd hf.2.2 (hfin ⟨hf.1, hf.2.1⟩)

theorem anglesGuarded_pose (E : Extern) (r : FullTargetingResult) :
    (anglesGuarded E r).position_3d = r.position_3d ∧
    (anglesGuarded E r).rotation_3d = r.rotation_3d ∧
    (anglesGuarded E r).velocity_3d = r.velocity_3d := by
  unfold anglesGuarded
  split
  · split <;> simp
  · simp

theorem penalize_pose (b : Bool) (r : FullTargetingResult) :
    (penalize b r).position_3d = r.position_3d ∧
    (penalize b r).rotation_3d = r.rotation_3d ∧
    (penalize b r).velocity_3d = r.velocity_3d ∧
    (penalize b r).confidence =
      if b = true then std_max 0.0 (r.confidence - 10) else r.confidence := by
  simp [penalize]

theorem c3d_failed (E : Extern) (r : FullTargetingResult) (hdet : r.armor_detected = true)
    (hlen : r.armor_corners.length = 4)
    (hs : (E.solvePnP (armorModel r) r.armor_corners).success = false) :
    calculate3DPosition E r = fallbackNoPnP E r := by
  rw [c3d_eq E r hdet hlen, hs]
  simp

theorem c3d_rejected (E : Extern) (r : FullTargetingResult) (hdet : r.armor_detected = true)
    (hlen : r.armor_corners.length = 4)
    (hs : (E.solvePnP (armorModel r) r.armor_corners).success = true)
    (hfb : needsFallback (takePnP E r (E.solvePnP (armorModel r) r.armor_corners)).2
      (takePnP E r (E.solvePnP (armorModel r) r.armor_corners)).1 = true) :
    calculate3DPosition E r = anglesGuarded E (penalize true
      (fallbackAfterPnP E (takePnP E r (E.solvePnP (armorModel r) r.armor_corners)).1)) := by
  rw [c3d_eq E r hdet hlen, hs, hfb]
  simp

theorem c3d_accepted (E : Extern) (r : FullTargetingResult) (hdet : r.armor_detected = true)
    (hlen : r.armor_corners.length = 4)
    (hs : (E.solvePnP (armorModel r) r.armor_corners).success = true)
    (hfb : needsFallback (takePnP E r (E.solvePnP (armorModel r) r.armor_corners)).2
      (takePnP E r (E.solvePnP (armorModel r) r.armor_corners)).1 = false) :
    calculate3DPosition E r = anglesGuarded E (penalize false
      (takePnP E r (E.solvePnP (armorModel r) r.armor_corners)).1) := by
  rw [c3d_eq E r hdet hlen, hs, hfb]
  simp

theorem takePnP_corners (E : Extern) (r : FullTargetingResult) (pnp : PnPResult) :
    (takePnP E r pnp).1.armor_corners = r.armor_corners := by
  unfold takePnP
  dsimp only
  split <;> rfl

theorem takePnP_accepted (E : Extern) (r : FullTargetingResult) (pnp : PnPResult)
    (hfin : isfinite pnp.tvec.v0 = true ∧ isfinite pnp.tvec.v1 = true ∧
      isfinite pnp.tvec.v2 = true) :
    (takePnP E r pnp).1.position_3d = pnp.tvec ∧
    (takePnP E r pnp).1.rotation_3d = pnp.rvec ∧
    (takePnP E r pnp).1.distance_3d = norm E pnp.tvec / 10.0 ∧
    (takePnP E r pnp).1.position_solved = true := by
  unfold takePnP
  simp [hfin.1, hfin.2.1, hfin.2.2]

theorem fallbackNoPnP_spec (E : Extern) (r : FullTargetingResult) :
    (fallbackNoPnP E r).distance_3d = fallbackDistanceSpec (armorWidthPx E r.armor_corners) ∧
    (fallbackNoPnP E r).position_3d =
      fallbackPositionSpec (cornerAt r 0) (cornerAt r 2)
        (fallbackDistanceSpec (armorWidthPx E r.armor_corners)) ∧
    (fallbackNoPnP E r).position_solved = true := by
  unfold fallbackNoPnP fallbackDistanceSpec fallbackPositionSpec armorWidthPx
  simp only [std_max_fin, Dbl.ofScientific_eq, Dbl.ofNat_eq, Dbl.fin_mul, Dbl.fin_add]
  have h2 : (OfScientific.ofScientific 20 true 1 : ℚ) ≠ 0 := by norm_num
  simp only [Dbl.fin_div_of_ne _ _ h2, Dbl.fin_sub]
  norm_num

theorem fallbackAfterPnP_spec (E : Extern) (r : FullTargetingResult) :
    (fallbackAfterPnP E r).distance_3d = fallbackDistanceSpec (armorWidthPx E r.armor_corners) ∧
    (fallbackAfterPnP E r).position_3d =
      fallbackPositionSpec (cornerAt r 0) (cornerAt r 2)
        (fallbackDistanceSpec (armorWidthPx E r.armor_corners)) ∧
    (fallbackAfterPnP E r).position_solved = true := by
  unfold fallbackAfterPnP fallbackDistanceSpec fallbackPositionSpec armorWidthPx
  simp only [std_max_fin, Dbl.ofScientific_eq, Dbl.ofNat_eq, Dbl.fin_mul, Dbl.fin_add]
  have h2 : (OfScientific.ofScientific 20 true 1 : ℚ) ≠ 0 := by norm_num
  simp only [Dbl.fin_div_of_ne _ _ h2, Dbl.fin_sub]
  norm_num

theorem sqrtExact_ne_nan (q : ℚ) (h : 0 ≤ q) : sqrtExact (fin q) ≠ nan := by
  unfold sqrtExact
  simp [not_lt.mpr h]

theorem norm_pnpNear (size : Size2f) (valid : Bool) :
    norm (evalExtern pnpNear size valid) pnpNear.tvec = fin 60 := by
  have h := sqrtExact_sq 60 (by norm_num)
  simp only [norm, evalExtern, pnpNear, Dbl.ofNat_eq, Dbl.zero_eq, Dbl.fin_mul, Dbl.fin_add]
  norm_num at h ⊢
  exact h

theorem pnpNear_accepted (size : Size2f) (valid : Bool) :
    pnpAcceptedSpec (evalExtern pnpNear size valid) pnpNear := by
  refine ⟨rfl, ⟨rfl, rfl, rfl⟩, ?_, ?_⟩ <;> rw [norm_pnpNear] <;>
    norm_num [Dbl.fin_div_of_ne]

theorem norm_pnpNear_cm (size : Size2f) (valid : Bool) :
    norm (evalExtern pnpNear size valid) pnpNear.tvec / (10.0 : Dbl) = fin 6 := by
  rw [norm_pnpNear]
  norm_num [Dbl.fin_div_of_ne]

theorem rejected_pose (E : Extern) (r : FullTargetingResult) (hdet : r.armor_detected = true)
    (hlen : r.armor_corners.length = 4)
    (hs : (E.solvePnP (armorModel r) r.armor_corners).success = true)
    (hfb : needsFallback (takePnP E r (E.solvePnP (armorModel r) r.armor_corners)).2
      (takePnP E r (E.solvePnP (armorModel r) r.armor_corners)).1 = true) :
    (calculate3DPosition E r).distance_3d
        = fallbackDistanceSpec (armorWidthPx E r.armor_corners) ∧
    (calculate3DPosition E r).position_3d
        = fallbackPositionSpec (cornerAt r 0) (cornerAt r 2)
            (fallbackDistanceSpec (armorWidthPx E r.armor_corners)) ∧
    (calculate3DPosition E r).position_solved = true := by
  rw [c3d_rejected E r hdet hlen hs hfb]
  have h := fallbackAfterPnP_spec E (takePnP E r (E.solvePnP (armorModel r) r.armor_corners)).1
  have hc := takePnP_corners E r (E.solvePnP (armorModel r) r.armor_corners)
  have hc0 : ∀ i, cornerAt (takePnP E r (E.solvePnP (armorModel r) r.armor_corners)).1 i
      = cornerAt r i := fun i => by unfold cornerAt; rw [hc]
  rw [hc, hc0, hc0] at h
  rw [(anglesGuarded_fields E _).2.2.2.2.1, (anglesGuarded_pose E _).1,
    (anglesGuarded_fields E _).2.2.2.2.2.2, (penalize_fields _ _).2.2.2.1,
    (penalize_pose _ _).1, (penalize_fields _ _).2.2.2.2.2]
  exact h

/-- C11: for a detected armor with 4 corners, `calculate3DPosition` accepts the
solver's outcome (position, rotation and `distance_3d = ||tvec|| / 10` taken
over, confidence unchanged) when the solver reported success, `tvec` is finite
and `5.0 <= ||tvec|| / 10 <= 1000.0`; in every other case distance and position
are those of the 2D fallback.  A successful solve with `tvec = (0, 0, 0)` is
not accepted.  The square root of a finite value is taken not to be NaN. -/
theorem pnp_accepted_iff_in_range (E : Extern)
    (hsqrt : ∀ q : ℚ, 0 ≤ q → E.sqrt (fin q) ≠ nan)
    (r : FullTargetingResult) (hdet : r.armor_detected = true)
    (hlen : r.armor_corners.length = 4) :
    (pnpAcceptedSpec E (E.solvePnP (armorModel r) r.armor_corners) →
      (calculate3DPosition E r).position_3d = (E.solvePnP (armorModel r) r.armor_corners).tvec ∧
      (calculate3DPosition E r).rotation_3d = (E.solvePnP (armorModel r) r.armor_corners).rvec ∧
      (calculate3DPosition E r).distance_3d
        = norm E (E.solvePnP (armorModel r) r.armor_corners).tvec / 10.0 ∧
      (calculate3DPosition E r).confidence = r.confidence ∧
      (calculate3DPosition E r).position_solved = true) ∧
    (¬ pnpAcceptedSpec E (E.solvePnP (armorModel r) r.armor_corners) →
      (calculate3DPosition E r).distance_3d
        = fallbackDistanceSpec (armorWidthPx E r.armor_corners) ∧
      (calculate3DPosition E r).position_3d
        = fallbackPositionSpec (cornerAt r 0) (cornerAt r 2)
            (fallbackDistanceSpec (armorWidthPx E r.armor_corners)) ∧
      (calculate3DPosition E r).position_solved = true) ∧
    ((E.solvePnP (armorModel r) r.armor_corners).success = true →
      (E.solvePnP (armorModel r) r.armor_corners).tvec = ⟨0, 0, 0⟩ →
      E.sqrt 0 = 0 →
      ¬ pnpAcceptedSpec E (E.solvePnP (armorModel r) r.armor_corners)) := by
  refine ⟨?_, ?_, ?_⟩
  · intro hacc
    have hs := hacc.1
    have hfb := (needsFallback_iff E hsqrt r _ hs).mpr hacc
    rw [c3d_accepted E r hdet hlen hs hfb]
    obtain ⟨h1, h2, h3, h4⟩ := takePnP_accepted E r _ hacc.2.1
    rw [(anglesGuarded_pose E _).1, (anglesGuarded_pose E _).2.1,
      (anglesGuarded_fields E _).2.2.2.2.1, (anglesGuarded_fields E _).2.2.2.1,
      (anglesGuarded_fields E _).2.2.2.2.2.2, (penalize_pose _ _).1, (penalize_pose _ _).2.1,
      (penalize_fields _ _).2.2.2.1, (penalize_pose _ _).2.2.2,
      (penalize_fields _ _).2.2.2.2.2, (takePnP_fields E r _).2.2.2.1]
    exact ⟨h1, h2, h3, by simp, h4⟩
  · intro hrej
    by_cases hs : (E.solvePnP (armorModel r) r.armor_corners).success = true
    · have hfb : needsFallback (takePnP E r (E.solvePnP (armorModel r) r.armor_corners)).2
          (takePnP E r (E.solvePnP (armorModel r) r.armor_corners)).1 = true := by
        by_contra h
        exact hrej ((needsFallback_iff E hsqrt r _ hs).mp (by simpa using h))
      exact rejected_pose E r hdet hlen hs hfb
    · rw [c3d_failed E r hdet hlen (by simpa using hs)]
      exact fallbackNoPnP_spec E r
  · intro _ ht h0 hacc
    have h5 := hacc.2.2.1
    rw [ht] at h5
    unfold norm at h5
    dsimp only at h5
    rw [Dbl.zero_eq] at h5 h0
    simp only [Dbl.fin_mul, Dbl.fin_add] at h5
    simp only [mul_zero, add_zero] at h5
    rw [h0] at h5
    have h10 : (OfScientific.ofScientific 100 true 1 : ℚ) ≠ 0 := by norm_num
    simp only [Dbl.ofScientific_eq, Dbl.fin_div_of_ne _ _ h10, Dbl.fin_le] at h5
    norm_num at h5

theorem fallbackDistanceSpec_pos (w : ℚ) (hw : 0 < w) :
    fallbackDistanceSpec w = fin (10000 / w) := by
  unfold fallbackDistanceSpec
  rw [Dbl.ofNat_eq, Dbl.coe_eq, Dbl.fin_div_of_ne _ _ (ne_of_gt hw)]

theorem fallbackPositionSpec_fin (c0 c2 : Point2f) (d : ℚ) :
    fallbackPositionSpec c0 c2 (fin d) =
      ⟨fin (((c0.x + c2.x) / 2 - 320) * d * 10 / 800),
        fin (-((c0.y + c2.y) / 2 - 240) * d * 10 / 800), fin (d * 10)⟩ := by
  unfold fallbackPositionSpec
  have h800 : (800 : ℚ) ≠ 0 := by norm_num
  simp only [Dbl.ofNat_eq, Dbl.coe_eq, Dbl.fin_sub, Dbl.fin_mul, Dbl.fin_div_of_ne _ _ h800,
    Dbl.fin_neg]
  congr 2
  ring

/-- C12: whenever the 2D fallback runs, in the branch where the solver reported
failure or in the branch where its outcome was rejected, with a positive armor
width `w`, it sets `distance_3d = 10000 / w` and
`position_3d = (X, Y, Z)` with `(cx, cy)` the midpoint of corners 0 and 2,
`X = (cx − 320) × distance_3d × 10 / 800`,
`Y = −(cy − 240) × distance_3d × 10 / 800`, `Z = distance_3d × 10`; the two
copies of the fallback compute the same distance and position. -/
theorem fallback_pose_formulas (E : Extern) (r : FullTargetingResult)
    (hdet : r.armor_detected = true) (hlen : r.armor_corners.length = 4)
    (hw : 0 < armorWidthPx E r.armor_corners)
    (hfb : (E.solvePnP (armorModel r) r.armor_corners).success = false ∨
      needsFallback (takePnP E r (E.solvePnP (armorModel r) r.armor_corners)).2
        (takePnP E r (E.solvePnP (armorModel r) r.armor_corners)).1 = true) :
    (calculate3DPosition E r).distance_3d = fin (10000 / armorWidthPx E r.armor_corners) ∧
    (calculate3DPosition E r).position_3d =
      ⟨fin ((((cornerAt r 0).x + (cornerAt r 2).x) / 2 - 320)
          * (10000 / armorWidthPx E r.armor_corners) * 10 / 800),
        fin (-(((cornerAt r 0).y + (cornerAt r 2).y) / 2 - 240)
          * (10000 / armorWidthPx E r.armor_corners) * 10 / 800),
        fin (10000 / armorWidthPx E r.armor_corners * 10)⟩ ∧
    (fallbackAfterPnP E (takePnP E r (E.solvePnP (armorModel r) r.armor_corners)).1).distance_3d
      = (fallbackNoPnP E r).distance_3d ∧
    (fallbackAfterPnP E (takePnP E r (E.solvePnP (armorModel r) r.armor_corners)).1).position_3d
      = (fallbackNoPnP E r).position_3d := by
  have hno := fallbackNoPnP_spec E r
  have haf := fallbackAfterPnP_spec E (takePnP E r (E.solvePnP (armorModel r) r.armor_corners)).1
  have hc := takePnP_corners E r (E.solvePnP (armorModel r) r.armor_corners)
  have hc0 : ∀ i, cornerAt (takePnP E r (E.solvePnP (armorModel r) r.armor_corners)).1 i
      = cornerAt r i := fun i => by unfold cornerAt; rw [hc]
  rw [hc, hc0, hc0] at haf
  have key : (calculate3DPosition E r).distance_3d
        = fallbackDistanceSpec (armorWidthPx E r.armor_corners) ∧
      (calculate3DPosition E r).position_3d
        = fallbackPositionSpec (cornerAt r 0) (cornerAt r 2)
            (fallbackDistanceSpec (armorWidthPx E r.armor_corners)) := by
    by_cases hs : (E.solvePnP (armorModel r) r.armor_corners).success = true
    · rcases hfb with hfb | hfb
      · rw [hs] at hfb
        exact absurd hfb (by decide)
      · exact ⟨(rejected_pose E r hdet hlen hs hfb).1, (rejected_pose E r hdet hlen hs hfb).2.1⟩
    · rw [c3d_failed E r hdet hlen (by simpa using hs)]
      exact ⟨hno.1, hno.2.1⟩
  refine ⟨?_, ?_, ?_, ?_⟩
  · rw [key.1, fallbackDistanceSpec_pos _ hw]
  · rw [key.2, fallbackDistanceSpec_pos _ hw, fallbackPositionSpec_fin]
  · rw [haf.1, hno.1]
  · rw [haf.2.1, hno.2.1]

/-- C13: `calculate3DPosition` leaves `confidence` unchanged when the solver's
outcome is accepted, makes it `max(0, confidence − 10)` when the solver reported
success but the outcome was rejected (not finite, or distance outside
`[5, 1000]`), and `max(0, confidence − 20)` when the solver reported failure.
The square root of a finite value is taken not to be NaN. -/
theorem confidence_penalties (E : Extern)
    (hsqrt : ∀ q : ℚ, 0 ≤ q → E.sqrt (fin q) ≠ nan)
    (r : FullTargetingResult) (hdet : r.armor_detected = true)
    (hlen : r.armor_corners.length = 4) :
    (pnpAcceptedSpec E (E.solvePnP (armorModel r) r.armor_corners) →
      (calculate3DPosition E r).confidence = r.confidence) ∧
    ((E.solvePnP (armorModel r) r.armor_corners).success = true →
      ¬ pnpAcceptedSpec E (E.solvePnP (armorModel r) r.armor_corners) →
      (calculate3DPosition E r).confidence = std_max 0 (r.confidence - 10)) ∧
    ((E.solvePnP (armorModel r) r.armor_corners).success = false →
      (calculate3DPosition E r).confidence = std_max 0 (r.confidence - 20)) := by
  refine ⟨?_, ?_, ?_⟩
  · intro hacc
    have hfb := (needsFallback_iff E hsqrt r _ hacc.1).mpr hacc
    rw [c3d_accepted E r hdet hlen hacc.1 hfb, (anglesGuarded_fields E _).2.2.2.1,
      (penalize_pose _ _).2.2.2, (takePnP_fields E r _).2.2.2.1]
    simp
  · intro hs hrej
    have hfb : needsFallback (takePnP E r (E.solvePnP (armorModel r) r.armor_corners)).2
        (takePnP E r (E.solvePnP (armorModel r) r.armor_corners)).1 = true := by
      by_contra h
      exact hrej ((needsFallback_iff E hsqrt r _ hs).mp (by simpa using h))
    rw [c3d_rejected E r hdet hlen hs hfb, (anglesGuarded_fields E _).2.2.2.1,
      (penalize_pose _ _).2.2.2, (fallbackAfterPnP_fields E _).2.2.2.1,
      (takePnP_fields E r _).2.2.2.1]
    norm_num
    rw [Dbl.zero_eq]
  · intro hs
    rw [c3d_failed E r hdet hlen hs]
    unfold fallbackNoPnP
    norm_num
    rw [Dbl.zero_eq]


/-- Witness for C11: on the armor of Scenario 1 a successful solve with
`tvec = (0, 0, 0)` is rejected and the fallback distance 125 cm is used, where
a successful solve with `tvec = (0, 0, 60)` is accepted with distance 6 cm. -/
theorem pnp_accepted_iff_in_range_witness :
    (calculate3DPosition (evalExtern pnpZero ⟨80, 40⟩ true) scenarioDetection).distance_3d
      = fin 125 ∧
    (calculate3DPosition (evalExtern pnpNear ⟨80, 40⟩ true) scenarioDetection).distance_3d
      = fin 6 :=
  have h0 := pnp_accepted_iff_in_range (evalExtern pnpZero ⟨80, 40⟩ true)
    sqrtExact_ne_nan scenarioDetection (by decide!) (by decide!)
  have h1 := pnp_accepted_iff_in_range (evalExtern pnpNear ⟨80, 40⟩ true)
    sqrtExact_ne_nan scenarioDetection (by decide!) (by decide!)
  ⟨(h0.2.1 (h0.2.2 rfl rfl (by decide!))).1.trans (by decide!),
    (h1.1 (pnpNear_accepted ⟨80, 40⟩ true)).2.2.1.trans (norm_pnpNear_cm ⟨80, 40⟩ true)⟩

/-- Witness for C12: Scenario 1 with the solver failing; the armor is 80 pixels
wide, the distance is 125 cm and the position is `(-62.5, 0, 1250)` mm. -/
theorem fallback_pose_formulas_witness :
    (calculate3DPosition scenarioExtern scenarioDetection).distance_3d = fin 125 ∧
    (calculate3DPosition scenarioExtern scenarioDetection).position_3d
      = ⟨fin (-125 / 2), fin 0, fin 1250⟩ :=
  have h := fallback_pose_formulas scenarioExtern scenarioDetection (by decide!) (by decide!)
    (by decide!) (Or.inl rfl)
  ⟨h.1.trans (by decide!), h.2.1.trans (by decide!)⟩

/-- Witness for C13: the wide armor is detected with confidence 100; an accepted
solve leaves 100, a rejected solve leaves 90, a failed solve leaves 80. -/
theorem confidence_penalties_witness :
    (calculate3DPosition (evalExtern pnpNear ⟨5000, 1250⟩ true) wideDetection).confidence
      = fin 100 ∧
    (calculate3DPosition (evalExtern pnpZero ⟨5000, 1250⟩ true) wideDetection).confidence
      = fin 90 ∧
    (calculate3DPosition (evalExtern pnpFailed ⟨5000, 1250⟩ true) wideDetection).confidence
      = fin 80 :=
  have ha := confidence_penalties (evalExtern pnpNear ⟨5000, 1250⟩ true)
    sqrtExact_ne_nan wideDetection (by decide!) (by decide!)
  have hr := confidence_penalties (evalExtern pnpZero ⟨5000, 1250⟩ true)
    sqrtExact_ne_nan wideDetection (by decide!) (by decide!)
  have hf := confidence_penalties (evalExtern pnpFailed ⟨5000, 1250⟩ true)
    sqrtExact_ne_nan wideDetection (by decide!) (by decide!)
  ⟨(ha.1 (pnpNear_accepted ⟨5000, 1250⟩ true)).trans (by decide!),
    (hr.2.1 rfl (by decide!)).trans (by decide!), (hf.2.2 rfl).trans (by decide!)⟩

/-! ## Motion prediction -/

theorem predict_usable (hist : List FullTargetingResult) (r : FullTargetingResult)
    (hs : r.position_solved = true) (hlen : 2 ≤ hist.length)
    (hprev : (hist.getLastD {}).position_solved = true) :
    predictTargetMotion hist r =
      { r with
        velocity_3d :=
          ⟨(r.position_3d.v0 - (hist.getLastD {}).position_3d.v0) / 0.033,
           (r.position_3d.v1 - (hist.getLastD {}).position_3d.v1) / 0.033,
           (r.position_3d.v2 - (hist.getLastD {}).position_3d.v2) / 0.033⟩
        flight_time := r.distance_3d / BULLET_SPEED
        predicted_pos :=
          ⟨r.position_3d.v0 + (r.position_3d.v0 - (hist.getLastD {}).position_3d.v0) / 0.033
              * (r.distance_3d / BULLET_SPEED),
           r.position_3d.v1 + (r.position_3d.v1 - (hist.getLastD {}).position_3d.v1) / 0.033
              * (r.distance_3d / BULLET_SPEED),
           r.position_3d.v2 + (r.position_3d.v2 - (hist.getLastD {}).position_3d.v2) / 0.033
              * (r.distance_3d / BULLET_SPEED)⟩ } := by
  unfold predictTargetMotion
  simp only [hs, hlen, hprev, Bool.not_true, Bool.false_eq_true, if_false, if_true]

theorem predict_unusable (hist : List FullTargetingResult) (r : FullTargetingResult)
    (hs : r.position_solved = true)
    (hno : hist.length < 2 ∨ (hist.getLastD {}).position_solved = false) :
    predictTargetMotion hist r = { r with predicted_pos := r.position_3d } := by
  unfold predictTargetMotion
  simp only [hs, Bool.not_true, Bool.false_eq_true, if_false]
  rcases hno with h | h
  · simp only [not_le.mpr h, if_false]
  · split
    · simp only [h, Bool.false_eq_true, if_false]
    · rfl

/-- C14, as the code has it: `predictTargetMotion` computes a finite-difference
velocity when the history holds at least two entries and the last one has
`position_solved`; with fewer than two entries, so also on the second frame,
the velocity is left as it is and `predicted_pos = position_3d`.  When a
velocity is computed for a position X above that of the last entry and a
positive distance, `velocity_3d[0] > 0` and `predicted_pos[0] > position_3d[0]`. -/
theorem velocity_needs_two_entries (target_history : List FullTargetingResult)
    (result : FullTargetingResult) (hs : result.position_solved = true) :
    (target_history.length < 2 →
      (predictTargetMotion target_history result).velocity_3d = result.velocity_3d ∧
      (predictTargetMotion target_history result).predicted_pos = result.position_3d) ∧
    (∀ x x0 d : ℚ, 2 ≤ target_history.length →
      (target_history.getLastD {}).position_solved = true →
      result.position_3d.v0 = fin x → (target_history.getLastD {}).position_3d.v0 = fin x0 →
      result.distance_3d = fin d → x0 < x → 0 < d →
      ∃ v p, (predictTargetMotion target_history result).velocity_3d.v0 = fin v ∧ 0 < v ∧
        (predictTargetMotion target_history result).predicted_pos.v0 = fin p ∧ x < p) := by
  refine ⟨fun hlt => ?_, ?_⟩
  · rw [predict_unusable target_history result hs (Or.inl hlt)]
    exact ⟨rfl, rfl⟩
  · intro x x0 d hlen hprev hx hx0 hd hlt hdpos
    rw [predict_usable target_history result hs hlen hprev]
    have hdt : (OfScientific.ofScientific 33 true 3 : ℚ) ≠ 0 := by norm_num
    have h30 : (OfScientific.ofScientific 300 true 1 : ℚ) ≠ 0 := by norm_num
    simp only [hx, hx0, hd, BULLET_SPEED, Dbl.ofScientific_eq, Dbl.fin_sub,
      Dbl.fin_div_of_ne _ _ hdt, Dbl.fin_div_of_ne _ _ h30, Dbl.fin_mul, Dbl.fin_add]
    have hv : 0 < (x - x0) / (OfScientific.ofScientific 33 true 3 : ℚ) := by
      apply div_pos (by linarith) (by norm_num)
    have hf : 0 < d / (OfScientific.ofScientific 300 true 1 : ℚ) := by
      apply div_pos hdpos (by norm_num)
    exact ⟨_, _, rfl, hv, rfl, by nlinarith [mul_pos hv hf]⟩

/-- Witness for C14: a third frame with the armor at `(320, 240)` after two frames
with the armor at `(270, 240)`. -/
theorem velocity_needs_two_entries_witness :
    ∃ v p, (predictTargetMotion historyAfterTwo (scenarioPose 320)).velocity_3d.v0 = fin v ∧
      0 < v ∧
      (predictTargetMotion historyAfterTwo (scenarioPose 320)).predicted_pos.v0 = fin p ∧
      -125 / 2 < p :=
  (velocity_needs_two_entries historyAfterTwo (scenarioPose 320) (by decide!)).2
    (-125 / 2) (-1125 / 8) 125 (by decide!) (by decide!) (by decide!) (by decide!) (by decide!)
    (by norm_num) (by norm_num)

/-- Counterexample to C14 as stated: Scenario 3.  The first frame (armor at
`(270, 240)`) is solved and is the one entry of the history; in the second
frame (armor at `(320, 240)`) the position X is larger, and yet the velocity is
zero and `predicted_pos` is `position_3d`. -/
theorem no_velocity_on_second_frame :
    historyAfterOne.length = 1 ∧
    (historyAfterOne.getLastD {}).position_solved = true ∧
    (historyAfterOne.getLastD {}).position_3d.v0
      < (scenarioFrame historyAfterOne 320).position_3d.v0 ∧
    (scenarioFrame historyAfterOne 320).velocity_3d = ⟨fin 0, fin 0, fin 0⟩ ∧
    (scenarioFrame historyAfterOne 320).predicted_pos
      = (scenarioFrame historyAfterOne 320).position_3d := by
  decide!

/-- C15, as the code has it: whenever `predictTargetMotion` computes a velocity,
each component is `(position_3d − prev.position_3d) / Δt` with `Δt = 0.033` s,
which is `1000 / 33` times the position difference, and
`predicted_pos = position_3d + velocity_3d × (distance_3d / bullet_speed)` with
`bullet_speed = 30`. -/
theorem velocity_formula (target_history : List FullTargetingResult)
    (result : FullTargetingResult) (hs : result.position_solved = true)
    (hlen : 2 ≤ target_history.length)
    (hprev : (target_history.getLastD {}).position_solved = true) :
    (predictTargetMotion target_history result).velocity_3d =
      ⟨(result.position_3d.v0 - (target_history.getLastD {}).position_3d.v0) / 0.033,
       (result.position_3d.v1 - (target_history.getLastD {}).position_3d.v1) / 0.033,
       (result.position_3d.v2 - (target_history.getLastD {}).position_3d.v2) / 0.033⟩ ∧
    (predictTargetMotion target_history result).predicted_pos =
      ⟨result.position_3d.v0
          + (predictTargetMotion target_history result).velocity_3d.v0
            * (result.distance_3d / 30),
       result.position_3d.v1
          + (predictTargetMotion target_history result).velocity_3d.v1
            * (result.distance_3d / 30),
       result.position_3d.v2
          + (predictTargetMotion target_history result).velocity_3d.v2
            * (result.distance_3d / 30)⟩ ∧
    (∀ x y z x0 y0 z0 : ℚ, result.position_3d = ⟨fin x, fin y, fin z⟩ →
      (target_history.getLastD {}).position_3d = ⟨fin x0, fin y0, fin z0⟩ →
      (predictTargetMotion target_history result).velocity_3d =
        ⟨fin (1000 / 33 * (x - x0)), fin (1000 / 33 * (y - y0)),
          fin (1000 / 33 * (z - z0))⟩) := by
  rw [predict_usable target_history result hs hlen hprev]
  refine ⟨rfl, ?_, ?_⟩
  · simp only [BULLET_SPEED, Dbl.ofScientific_eq, Dbl.ofNat_eq]
    norm_num
  · intro x y z x0 y0 z0 hp hq
    have hdt : (OfScientific.ofScientific 33 true 3 : ℚ) ≠ 0 := by norm_num
    simp only [hp, hq, Dbl.ofScientific_eq, Dbl.fin_sub, Dbl.fin_div_of_ne _ _ hdt]
    norm_num
    refine ⟨?_, ?_, ?_⟩ <;> ring

/-- Witness for C15: the third frame of the scenario; the armor moved by
78.125 mm in X, the velocity is `1000 / 33` times that. -/
theorem velocity_formula_witness :
    (predictTargetMotion historyAfterTwo (scenarioPose 320)).velocity_3d =
      ⟨fin (1000 / 33 * (-125 / 2 - -1125 / 8)), fin (1000 / 33 * (0 - 0)),
        fin (1000 / 33 * (1250 - 1250))⟩ :=
  (velocity_formula historyAfterTwo (scenarioPose 320) (by decide!) (by decide!)
    (by decide!)).2.2 (-125 / 2) 0 1250 (-1125 / 8) 0 1250 (by decide!) (by decide!)

/-- Counterexample to C15 as stated: a position 33 mm to the right of the last
entry gives the velocity 1000 mm/s, not 30 times 33 mm. -/
theorem velocity_is_not_thirty_times :
    (predictTargetMotion [resultCentred1m, resultCentred1m] resultShifted33mm).velocity_3d.v0
      = fin 1000 ∧
    (predictTargetMotion [resultCentred1m, resultCentred1m] resultShifted33mm).velocity_3d.v0
      ≠ fin (30 * (33 - 0)) := by
  decide!

/-! ## The firing solution -/

theorem fireDecision_angles (E : Extern) (r : FullTargetingResult) :
    (fireDecision E r).flight_time = r.flight_time ∧
    (fireDecision E r).bullet_drop = r.bullet_drop ∧
    (fireDecision E r).firing_yaw = r.firing_yaw ∧
    (fireDecision E r).firing_pitch = r.firing_pitch := by
  simp [fireDecision]

theorem firingAngles_flight (E : Extern) (r : FullTargetingResult) :
    (firingAngles E r).flight_time = r.flight_time ∧
    (firingAngles E r).bullet_drop = r.bullet_drop := by
  unfold firingAngles
  split
  · split <;> simp
  · simp

theorem flightAndDrop_eq (E : Extern) (r : FullTargetingResult) :
    (flightAndDrop E r).flight_time = norm E r.predicted_pos / BULLET_SPEED ∧
    (flightAndDrop E r).bullet_drop
      = 0.5 * GRAVITY * (norm E r.predicted_pos / BULLET_SPEED)
          * (norm E r.predicted_pos / BULLET_SPEED) ∧
    (flightAndDrop E r).predicted_pos = r.predicted_pos := by
  simp [flightAndDrop]

theorem firingAngles_yaw (E : Extern) (r : FullTargetingResult) :
    (firingAngles E r).firing_yaw =
      if (isfinite r.predicted_pos.v0 && isfinite r.predicted_pos.v1 &&
          isfinite r.predicted_pos.v2) = true then
        if (Dbl.ne r.predicted_pos.v0 0.0 || Dbl.ne r.predicted_pos.v2 0.0) = true then
          yawOf E r.predicted_pos
        else 0.0
      else 0.0 := by
  unfold firingAngles
  split
  · split <;> rfl
  · rfl

theorem firingAngles_pitch (E : Extern) (r : FullTargetingResult) :
    (firingAngles E r).firing_pitch =
      if (isfinite r.predicted_pos.v0 && isfinite r.predicted_pos.v1 &&
          isfinite r.predicted_pos.v2) = true then
        if (Dbl.ne r.predicted_pos.v0 0.0 || Dbl.ne r.predicted_pos.v2 0.0) = true then
          if (0.001 : Dbl) < horizontalDist E r.predicted_pos then
            E.atan2 (-(r.predicted_pos.v1 - r.bullet_drop))
              (horizontalDist E r.predicted_pos) * 180.0 / M_PI
          else 0.0
        else 0.0
      else 0.0 := by
  unfold firingAngles
  split
  · split <;> rfl
  · rfl

theorem zero_times_180_over_pi : (fin 0 : Dbl) * 180 / M_PI = 0 := by
  unfold M_PI
  have hpi : (OfScientific.ofScientific 314159265358979323846 true 20 : ℚ) ≠ 0 := by norm_num
  simp only [Dbl.ofNat_eq, Dbl.ofScientific_eq, Dbl.fin_mul, Dbl.fin_div_of_ne _ _ hpi,
    Dbl.zero_eq]
  norm_num

/-- C17: for every solved result with a finite predicted position `(Px, Py, Pz)`,
`calculateFiringSolution` leaves `flight_time = ||predicted_pos|| / bullet_speed`,
`bullet_drop = 0.5 × gravity × flight_time²`,
`firing_yaw = atan2(Px, Pz) × 180/π`, and
`firing_pitch = atan2(−(Py − bullet_drop), horiz) × 180/π` when
`horiz = sqrt(Px² + Pz²) > 0.001`, else 0.  The library values `atan2(0, 0) = 0`
and `sqrt(0) = 0` are hypotheses. -/
theorem firing_solution_formulas (E : Extern) (hatan : E.atan2 0 0 = 0) (hsqrt : E.sqrt 0 = 0)
    (result : FullTargetingResult) (hs : result.position_solved = true) (px py pz : ℚ)
    (hp : result.predicted_pos = ⟨fin px, fin py, fin pz⟩) :
    (calculateFiringSolution E result).flight_time = norm E result.predicted_pos / 30 ∧
    (calculateFiringSolution E result).bullet_drop
      = 0.5 * 9.81 * (calculateFiringSolution E result).flight_time
          * (calculateFiringSolution E result).flight_time ∧
    (calculateFiringSolution E result).firing_yaw = E.atan2 (fin px) (fin pz) * 180 / M_PI ∧
    (calculateFiringSolution E result).firing_pitch
      = if (0.001 : Dbl) < E.sqrt (fin (px * px + pz * pz)) then
          E.atan2 (-(fin py - (calculateFiringSolution E result).bullet_drop))
            (E.sqrt (fin (px * px + pz * pz))) * 180 / M_PI
        else 0 := by
  have hcalc : calculateFiringSolution E result
      = fireDecision E (firingAngles E (flightAndDrop E result)) := by
    unfold calculateFiringSolution
    simp only [hs, Bool.not_true, Bool.false_eq_true, if_false]
  obtain ⟨hft, hbd, hpp⟩ := flightAndDrop_eq E result
  have hft' : (calculateFiringSolution E result).flight_time
      = norm E result.predicted_pos / BULLET_SPEED := by
    rw [hcalc, (fireDecision_angles E _).1, (firingAngles_flight E _).1, hft]
  have hbd' : (calculateFiringSolution E result).bullet_drop
      = 0.5 * GRAVITY * (norm E result.predicted_pos / BULLET_SPEED)
          * (norm E result.predicted_pos / BULLET_SPEED) := by
    rw [hcalc, (fireDecision_angles E _).2.1, (firingAngles_flight E _).2, hbd]
  have h30 : BULLET_SPEED = 30 := by
    unfold BULLET_SPEED
    simp only [Dbl.ofScientific_eq, Dbl.ofNat_eq]
    norm_num
  have hg : GRAVITY = 9.81 := rfl
  refine ⟨by rw [hft', h30], by rw [hbd', hft', hg], ?_, ?_⟩
  · rw [hcalc, (fireDecision_angles E _).2.2.1, firingAngles_yaw, hpp, hp]
    simp only [Dbl.isfinite_fin, Bool.and_self, if_true]
    by_cases h0 : px = 0 ∧ pz = 0
    · obtain ⟨hx, hz⟩ := h0
      subst hx hz
      have hz0 : E.atan2 (fin 0) (fin 0) = fin 0 := by simpa using hatan
      rw [hz0, zero_times_180_over_pi]
      norm_num [Dbl.ne, Dbl.eq]
      exact Dbl.zero_eq.symm
    · have hne : (Dbl.ne (fin px) 0.0 || Dbl.ne (fin pz) 0.0) = true := by
        simp only [Dbl.ofScientific_eq, Dbl.ne, Dbl.eq, Bool.or_eq_true, Bool.not_eq_true',
          decide_eq_false_iff_not]
        norm_num
        tauto
      rw [if_pos hne]
      unfold yawOf
      simp only [Dbl.ofScientific_eq, Dbl.ofNat_eq]
      norm_num
  · rw [hcalc, (fireDecision_angles E _).2.2.2, (fireDecision_angles E _).2.1,
      firingAngles_pitch, (firingAngles_flight E _).2, hpp, hp]
    simp only [Dbl.isfinite_fin, Bool.and_self, if_true]
    have hh : horizontalDist E ⟨fin px, fin py, fin pz⟩ = E.sqrt (fin (px * px + pz * pz)) := by
      unfold horizontalDist
      simp only [Dbl.fin_mul, Dbl.fin_add]
    rw [hh]
    by_cases h0 : px = 0 ∧ pz = 0
    · obtain ⟨hx, hz⟩ := h0
      subst hx hz
      have hs0 : E.sqrt (fin (0 * 0 + 0 * 0)) = fin 0 := by
        simp only [mul_zero, add_zero]
        simpa using hsqrt
      rw [hs0]
      norm_num [Dbl.ne, Dbl.eq]
      exact Dbl.zero_eq.symm
    · have hne : (Dbl.ne (fin px) 0.0 || Dbl.ne (fin pz) 0.0) = true := by
        simp only [Dbl.ofScientific_eq, Dbl.ne, Dbl.eq, Bool.or_eq_true, Bool.not_eq_true',
          decide_eq_false_iff_not]
        norm_num
        tauto
      rw [if_pos hne]
      simp only [Dbl.ofScientific_eq, Dbl.ofNat_eq, Dbl.zero_eq]
      norm_num

/-- Witness for C17: the result at 2 m in the evaluation environment, whose
`atan2` and square root are 0 at 0. -/
theorem firing_solution_formulas_witness :
    (calculateFiringSolution scenarioExtern resultAt2m).flight_time
      = norm scenarioExtern resultAt2m.predicted_pos / 30 ∧
    (calculateFiringSolution scenarioExtern resultAt2m).firing_yaw
      = scenarioExtern.atan2 (fin 0) (fin 2000) * 180 / M_PI :=
  have h := firing_solution_formulas scenarioExtern rfl (by decide!) resultAt2m rfl 0 0 2000
    (by decide!)
  ⟨h.1, h.2.2.1⟩

theorem anglesGuarded_yaw (E : Extern) (r : FullTargetingResult) :
    (anglesGuarded E r).yaw_angle =
      if (isfinite r.position_3d.v0 && isfinite r.position_3d.v1 &&
          isfinite r.position_3d.v2) = true then
        if (Dbl.ne r.position_3d.v0 0.0 || Dbl.ne r.position_3d.v2 0.0) = true then
          yawOf E r.position_3d
        else 0.0
      else 0.0 := by
  unfold anglesGuarded
  split
  · split <;> rfl
  · rfl

theorem firing_yaw_eq (E : Extern) (r : FullTargetingResult) (hs : r.position_solved = true) :
    (calculateFiringSolution E r).firing_yaw =
      if (isfinite r.predicted_pos.v0 && isfinite r.predicted_pos.v1 &&
          isfinite r.predicted_pos.v2) = true then
        if (Dbl.ne r.predicted_pos.v0 0.0 || Dbl.ne r.predicted_pos.v2 0.0) = true then
          yawOf E r.predicted_pos
        else 0.0
      else 0.0 := by
  unfold calculateFiringSolution
  simp only [hs, Bool.not_true, Bool.false_eq_true, if_false]
  rw [(fireDecision_angles E _).2.2.1, firingAngles_yaw, (flightAndDrop_eq E _).2.2]

/-- The yaw that `calculate3DPosition` computes is the guarded yaw of the position,
whenever that position is finite. -/
theorem c3d_yaw (E : Extern) (r : FullTargetingResult) (hdet : r.armor_detected = true)
    (hlen : r.armor_corners.length = 4)
    (hfin : (isfinite (calculate3DPosition E r).position_3d.v0 &&
      isfinite (calculate3DPosition E r).position_3d.v1 &&
      isfinite (calculate3DPosition E r).position_3d.v2) = true) :
    (calculate3DPosition E r).yaw_angle =
      if (Dbl.ne (calculate3DPosition E r).position_3d.v0 0.0 ||
          Dbl.ne (calculate3DPosition E r).position_3d.v2 0.0) = true then
        yawOf E (calculate3DPosition E r).position_3d
      else 0.0 := by
  by_cases hs : (E.solvePnP (armorModel r) r.armor_corners).success = true
  · have hform : ∃ X, calculate3DPosition E r = anglesGuarded E X := by
      rw [c3d_eq E r hdet hlen, if_pos hs]
      exact ⟨_, rfl⟩
    obtain ⟨X, hX⟩ := hform
    rw [hX] at hfin ⊢
    rw [(anglesGuarded_pose E X).1] at hfin ⊢
    rw [anglesGuarded_yaw, if_pos hfin]
  · have hf := c3d_failed E r hdet hlen (by simpa using hs)
    rw [hf] at hfin ⊢
    have hspec := fallbackNoPnP_spec E r
    have hyaw : (fallbackNoPnP E r).yaw_angle = yawOf E (fallbackNoPnP E r).position_3d := by
      simp [fallbackNoPnP]
    rw [hyaw]
    have hz : Dbl.ne (fallbackNoPnP E r).position_3d.v2 0.0 = true := by
      rw [hspec.2.1] at hfin ⊢
      unfold fallbackPositionSpec fallbackDistanceSpec at hfin ⊢
      simp only [Bool.and_eq_true, Dbl.ofNat_eq, Dbl.coe_eq] at hfin
      have h3 := hfin.2
      simp only [Dbl.ofNat_eq, Dbl.coe_eq, Dbl.ofScientific_eq]
      by_cases hw : armorWidthPx E r.armor_corners = 0
      · rw [hw, Dbl.fin_div, if_pos rfl] at h3
        norm_num [Dbl.ofSign] at h3
        have hm : pinf * fin 10 = pinf := by
          show Dbl.mul pinf (fin 10) = pinf
          norm_num [Dbl.mul, Dbl.ofSign, Dbl.sgn]
        rw [hm] at h3
        exact absurd h3 (by simp [isfinite])
      · rw [Dbl.fin_div_of_ne _ _ hw, Dbl.fin_mul]
        simp only [Dbl.ne, Dbl.eq, Bool.not_eq_true', decide_eq_false_iff_not]
        norm_num
        exact hw
    rw [hz, Bool.or_true, if_pos rfl]

theorem takePnP_solved_of_no_fallback (E : Extern) (r : FullTargetingResult) (pnp : PnPResult)
    (h : needsFallback (takePnP E r pnp).2 (takePnP E r pnp).1 = false) :
    (takePnP E r pnp).1.position_solved = true := by
  revert h
  unfold takePnP
  dsimp only
  split
  · intro _; rfl
  · intro h
    simp [needsFallback] at h

theorem c3d_solved (E : Extern) (r : FullTargetingResult) (hdet : r.armor_detected = true)
    (hlen : r.armor_corners.length = 4) :
    (calculate3DPosition E r).position_solved = true := by
  rw [c3d_eq E r hdet hlen]
  split
  · rw [(anglesGuarded_fields E _).2.2.2.2.2.2, (penalize_fields _ _).2.2.2.2.2]
    split
    · exact (fallbackAfterPnP_fields E _).2.2.2.2.2
    · rename_i h
      exact takePnP_solved_of_no_fallback E r _ (by simpa using h)
  · exact (fallbackNoPnP_fields E r).2.2.2.2

theorem fin_of_isfinite {x : Dbl} (h : isfinite x = true) : ∃ q, x = fin q := by
  cases x with
  | fin q => exact ⟨q, rfl⟩
  | pinf => exact absurd h (by simp [isfinite])
  | ninf => exact absurd h (by simp [isfinite])
  | nan => exact absurd h (by simp [isfinite])

theorem add_zero_velocity {p v f : Dbl} (hp : isfinite p = true) (hf : isfinite f = true)
    (hv : v = 0) : p + v * f = p := by
  obtain ⟨a, rfl⟩ := fin_of_isfinite hp
  obtain ⟨b, rfl⟩ := fin_of_isfinite hf
  rw [hv, Dbl.zero_eq, Dbl.fin_mul, Dbl.fin_add]
  norm_num

theorem flight_finite {d : Dbl} (h : isfinite d = true) :
    isfinite (d / BULLET_SPEED) = true := by
  obtain ⟨a, rfl⟩ := fin_of_isfinite h
  unfold BULLET_SPEED
  have h30 : (OfScientific.ofScientific 300 true 1 : ℚ) ≠ 0 := by norm_num
  rw [Dbl.ofScientific_eq, Dbl.fin_div_of_ne _ _ h30]
  rfl

/-- C16: for every solved result (finite position and distance) whose
`velocity_3d` is zero after `predictTargetMotion`, be it that no previous entry
was usable or that the previous position equals the current one,
`predicted_pos = position_3d`, and `calculateFiringSolution` then gives a
`firing_yaw` equal to the `yaw_angle` that `calculate3DPosition` computed. -/
theorem zero_velocity_keeps_position_and_yaw (E : Extern) (r : FullTargetingResult)
    (target_history : List FullTargetingResult)
    (hdet : r.armor_detected = true) (hlen : r.armor_corners.length = 4)
    (hfin : (isfinite (calculate3DPosition E r).position_3d.v0 &&
      isfinite (calculate3DPosition E r).position_3d.v1 &&
      isfinite (calculate3DPosition E r).position_3d.v2) = true)
    (hdist : isfinite (calculate3DPosition E r).distance_3d = true)
    (hv : (predictTargetMotion target_history (calculate3DPosition E r)).velocity_3d
      = ⟨0, 0, 0⟩) :
    (predictTargetMotion target_history (calculate3DPosition E r)).predicted_pos
      = (calculate3DPosition E r).position_3d ∧
    (calculateFiringSolution E
        (predictTargetMotion target_history (calculate3DPosition E r))).firing_yaw
      = (calculate3DPosition E r).yaw_angle := by
  have hs := c3d_solved E r hdet hlen
  have hpred : (predictTargetMotion target_history (calculate3DPosition E r)).predicted_pos
      = (calculate3DPosition E r).position_3d := by
    by_cases huse : 2 ≤ target_history.length ∧
        (target_history.getLastD {}).position_solved = true
    · have heq := predict_usable target_history _ hs huse.1 huse.2
      rw [heq] at hv ⊢
      dsimp only at hv ⊢
      have hf := flight_finite hdist
      simp only [Bool.and_eq_true] at hfin
      have h0 := congrArg Vec3d.v0 hv
      have h1 := congrArg Vec3d.v1 hv
      have h2 := congrArg Vec3d.v2 hv
      dsimp only at h0 h1 h2
      rw [add_zero_velocity hfin.1.1 hf h0, add_zero_velocity hfin.1.2 hf h1,
        add_zero_velocity hfin.2 hf h2]
    · have hno : target_history.length < 2 ∨
          (target_history.getLastD {}).position_solved = false := by
        by_cases hl : 2 ≤ target_history.length
        · right
          have := fun h => huse ⟨hl, h⟩
          simpa using this
        · exact Or.inl (not_le.mp hl)
      rw [predict_unusable target_history _ hs hno]
  refine ⟨hpred, ?_⟩
  rw [firing_yaw_eq E _ (by rw [(predict_fields _ _).2.2.2.2.2.2]; exact hs), hpred,
    if_pos hfin, c3d_yaw E r hdet hlen hfin]

/-- Witness for C16: a third frame with the armor where the two frames before had
it, at `(270, 240)`; the velocity computed is zero. -/
theorem zero_velocity_keeps_position_and_yaw_witness :
    (predictTargetMotion historyAfterTwo (calculate3DPosition scenarioExtern
        (performVisionDetection {} ArmorColor.ARMOR_COLOR_RED
          [armorContourAt 270]))).predicted_pos
      = (calculate3DPosition scenarioExtern
          (performVisionDetection {} ArmorColor.ARMOR_COLOR_RED
            [armorContourAt 270])).position_3d ∧
    (calculateFiringSolution scenarioExtern
        (predictTargetMotion historyAfterTwo (calculate3DPosition scenarioExtern
          (performVisionDetection {} ArmorColor.ARMOR_COLOR_RED
            [armorContourAt 270])))).firing_yaw
      = (calculate3DPosition scenarioExtern
          (performVisionDetection {} ArmorColor.ARMOR_COLOR_RED
            [armorContourAt 270])).yaw_angle :=
  zero_velocity_keeps_position_and_yaw scenarioExtern
    (performVisionDetection {} ArmorColor.ARMOR_COLOR_RED [armorContourAt 270])
    historyAfterTwo (by decide!) (by decide!) (by decide!) (by decide!) (by decide!)

/-! ## Corner order -/

/-- C18: for the armor of Scenario 1, an axis-aligned rectangle of 80 by 40 pixels,
`armor_corners` holds the four corners of the rectangle, in the order top-left,
top-right, bottom-left, bottom-right: the bottom-left corner is third, where
the order of the armor models (top-left, top-right, bottom-right, bottom-left)
has the bottom-right corner. -/
theorem corners_come_out_row_by_row :
    scenarioDetection.armor_detected = true ∧
    scenarioDetection.armor_corners = [⟨280, 220⟩, ⟨360, 220⟩, ⟨280, 260⟩, ⟨360, 260⟩] ∧
    scenarioDetection.armor_corners ≠ [⟨280, 220⟩, ⟨360, 220⟩, ⟨360, 260⟩, ⟨280, 260⟩] := by
  decide!

/-! ## Turret commands -/

theorem simulateFiring_emits (stats : MatchStats) (hit_draw : Dbl) (r : FullTargetingResult) :
    ((simulateFiring stats hit_draw r).2.isSome = true ↔ r.can_fire = true) ∧
    (r.can_fire = true →
      (simulateFiring stats hit_draw r).2 = some ⟨r.firing_yaw, r.firing_pitch⟩ ∧
      (simulateFiring stats hit_draw r).1.shots_fired = stats.shots_fired + 1) ∧
    (r.can_fire = false → simulateFiring stats hit_draw r = (stats, none)) := by
  unfold simulateFiring
  cases h : r.can_fire
  · simp
  · simp only [Bool.not_true, Bool.false_eq_true, if_false, Option.isSome_some, true_iff,
      forall_const, false_implies, and_true, true_and]
    split <;> simp

/-- C19, as the code has it: `simulateFiring` counts a shot and prints a turret
command exactly when the result has `can_fire`.  The per-frame loop calls it
only when in addition `hit_probability > 0.7`, so there a command is emitted
exactly when `can_fire` and `hit_probability > 0.7`, and never for a result
with `can_fire = false`.  A forced fire emits the command of the last history
entry when that entry has `can_fire`, and nothing when it has not. -/
theorem turret_command_emitted_iff (stats : MatchStats) (hit_draw : Dbl)
    (result : FullTargetingResult) (target_history : List FullTargetingResult) :
    ((simulateFiring stats hit_draw result).2.isSome = true ↔ result.can_fire = true) ∧
    ((autoFire stats hit_draw result).2.isSome = true ↔
      (result.can_fire = true ∧ (0.7 : Dbl) < result.hit_probability)) ∧
    (result.can_fire = false → autoFire stats hit_draw result = (stats, none)) ∧
    (result.can_fire = true → (0.7 : Dbl) < result.hit_probability →
      (autoFire stats hit_draw result).2 = some ⟨result.firing_yaw, result.firing_pitch⟩ ∧
      (autoFire stats hit_draw result).1.shots_fired = stats.shots_fired + 1) ∧
    (result.can_fire = false →
      forcedFire stats hit_draw (target_history ++ [result]) = (stats, none)) ∧
    (result.can_fire = true →
      (forcedFire stats hit_draw (target_history ++ [result])).2
        = some ⟨result.firing_yaw, result.firing_pitch⟩) ∧
    forcedFire stats hit_draw [] = (stats, none) := by
  obtain ⟨h1, h2, h3⟩ := simulateFiring_emits stats hit_draw result
  have hlast : (target_history ++ [result]).getLastD {} = result := by simp
  have hne : (target_history ++ [result]).isEmpty = false := by simp
  refine ⟨h1, ?_, ?_, ?_, ?_, ?_, rfl⟩
  · unfold autoFire
    by_cases hc : result.can_fire = true ∧ (0.7 : Dbl) < result.hit_probability
    · have hg : (result.can_fire && decide ((0.7 : Dbl) < result.hit_probability)) = true := by
        simp only [hc.1, Bool.true_and, decide_eq_true_eq]
        exact hc.2
      rw [if_pos hg]
      exact ⟨fun _ => hc, fun _ => h1.mpr hc.1⟩
    · have hg : ¬ (result.can_fire && decide ((0.7 : Dbl) < result.hit_probability)) = true := by
        simp only [Bool.and_eq_true, decide_eq_true_eq]
        exact hc
      rw [if_neg hg]
      exact ⟨fun h => absurd h (by simp), fun h => absurd h hc⟩
  · intro hc
    unfold autoFire
    simp [hc]
  · intro hc hp
    unfold autoFire
    have hg : (result.can_fire && decide ((0.7 : Dbl) < result.hit_probability)) = true := by
      simp only [hc, Bool.true_and, decide_eq_true_eq]
      exact hp
    rw [if_pos hg]
    exact h2 hc
  · intro hc
    unfold forcedFire
    simp only [hne, hlast, Bool.not_false, if_true]
    exact h3 hc
  · intro hc
    unfold forcedFire
    simp only [hne, hlast, Bool.not_false, if_true]
    exact (h2 hc).1

/-- Witness for C19: the result for the wide armor has `can_fire`; a forced fire on
a history that ends with it emits its firing angles. -/
theorem turret_command_emitted_iff_witness :
    (forcedFire {} 0 ([] ++ [runCompleteAutoAim (evalExtern pnpFailed ⟨5000, 1250⟩ true) {}
        ArmorColor.ARMOR_COLOR_RED [] 1 [wideContour]])).2
      = some ⟨(runCompleteAutoAim (evalExtern pnpFailed ⟨5000, 1250⟩ true) {}
          ArmorColor.ARMOR_COLOR_RED [] 1 [wideContour]).firing_yaw,
        (runCompleteAutoAim (evalExtern pnpFailed ⟨5000, 1250⟩ true) {}
          ArmorColor.ARMOR_COLOR_RED [] 1 [wideContour]).firing_pitch⟩ :=
  (turret_command_emitted_iff {} 0 (runCompleteAutoAim (evalExtern pnpFailed ⟨5000, 1250⟩ true)
    {} ArmorColor.ARMOR_COLOR_RED [] 1 [wideContour]) []).2.2.2.2.2.1 (by decide!)

/-- Counterexample to C19 as stated: the result for the wide armor has `can_fire`
with hit probability 0.6, and the per-frame loop emits no command for it. -/
theorem can_fire_without_command :
    (runCompleteAutoAim (evalExtern pnpFailed ⟨5000, 1250⟩ true) {} ArmorColor.ARMOR_COLOR_RED
        [] 1 [wideContour]).can_fire = true ∧
    (runCompleteAutoAim (evalExtern pnpFailed ⟨5000, 1250⟩ true) {} ArmorColor.ARMOR_COLOR_RED
        [] 1 [wideContour]).hit_probability = fin (3 / 5) ∧
    autoFire {} 0 (runCompleteAutoAim (evalExtern pnpFailed ⟨5000, 1250⟩ true) {}
        ArmorColor.ARMOR_COLOR_RED [] 1 [wideContour]) = ({}, none) := by
  decide!

/-! ## Scenario 1: the yaw of a centred armor -/

theorem pi_div_1800_lt_arctan : Real.pi / 1800 < Real.arctan (1 / 20) := by
  have hpi3 := Real.pi_gt_three
  have hpi4 := Real.pi_lt_four
  have hy0 : 0 < Real.pi / 1800 := by positivity
  have hy1 : Real.pi / 1800 < 1 / 450 := by linarith
  have hy2 : Real.pi / 1800 < Real.pi / 2 := by linarith
  have hsin : Real.sin (Real.pi / 1800) ≤ Real.pi / 1800 := Real.sin_le hy0.le
  have hcos : 1 - (Real.pi / 1800) ^ 2 / 2 ≤ Real.cos (Real.pi / 1800) :=
    Real.one_sub_sq_div_two_le_cos
  have hcos' : (99 : ℝ) / 100 ≤ Real.cos (Real.pi / 1800) := by nlinarith
  have htan : Real.tan (Real.pi / 1800) < 1 / 20 := by
    rw [Real.tan_eq_sin_div_cos, div_lt_iff₀ (by linarith)]
    nlinarith
  have h := Real.arctan_strictMono htan
  rwa [Real.arctan_tan (by linarith) hy2] at h

theorem scenario_armor_width (atan2 : Dbl → Dbl → Dbl) (corners : List Point2f) :
    armorWidthPx (scenarioExternWith atan2) corners = 80 := by
  show max (80 : ℚ) 40 = 80
  norm_num

/-- C20: Scenario 1, the axis-aligned armor of 80 by 40 pixels centred at the
principal point `(320, 240)`, with the 2D fallback.  Corners 0 and 2 of the
sorted corners are the two left corners, their midpoint is `(280, 240)`, the
position is `(-62.5, 0, 1250)` mm and the yaw is `atan2(-62.5, 1250) × 180/π`,
whatever `atan2` is; the angle of that tangent is below `-0.1` degrees (it is
about `-2.86`). -/
theorem scenario_one_yaw_off_centre (atan2 : Dbl → Dbl → Dbl) :
    cornerAt scenarioDetection 0 = ⟨280, 220⟩ ∧
    cornerAt scenarioDetection 2 = ⟨280, 260⟩ ∧
    (calculate3DPosition (scenarioExternWith atan2) scenarioDetection).position_3d
      = ⟨fin (-125 / 2), fin 0, fin 1250⟩ ∧
    (calculate3DPosition (scenarioExternWith atan2) scenarioDetection).yaw_angle
      = atan2 (fin (-125 / 2)) (fin 1250) * 180 / M_PI ∧
    Real.arctan ((-125 / 2 : ℝ) / 1250) * 180 / Real.pi < -(1 / 10) := by
  have hc0 : cornerAt scenarioDetection 0 = ⟨280, 220⟩ := by decide!
  have hc2 : cornerAt scenarioDetection 2 = ⟨280, 260⟩ := by decide!
  have hdet : scenarioDetection.armor_detected = true := by decide!
  have hlen : scenarioDetection.armor_corners.length = 4 := by decide!
  have hf := c3d_failed (scenarioExternWith atan2) scenarioDetection hdet hlen rfl
  have hspec := fallbackNoPnP_spec (scenarioExternWith atan2) scenarioDetection
  have hpos : (fallbackNoPnP (scenarioExternWith atan2) scenarioDetection).position_3d
      = ⟨fin (-125 / 2), fin 0, fin 1250⟩ := by
    rw [hspec.2.1, scenario_armor_width, fallbackDistanceSpec_pos _ (by norm_num),
      fallbackPositionSpec_fin, hc0, hc2]
    norm_num
  have hyaw : (fallbackNoPnP (scenarioExternWith atan2) scenarioDetection).yaw_angle
      = yawOf (scenarioExternWith atan2)
          (fallbackNoPnP (scenarioExternWith atan2) scenarioDetection).position_3d := by
    simp [fallbackNoPnP]
  refine ⟨hc0, hc2, by rw [hf, hpos], ?_, ?_⟩
  · rw [hf, hyaw, hpos]
    show atan2 (fin (-125 / 2)) (fin 1250) * 180.0 / M_PI = _
    simp only [Dbl.ofScientific_eq, Dbl.ofNat_eq]
    norm_num
  · have h := pi_div_1800_lt_arctan
    have hpi : 0 < Real.pi := Real.pi_pos
    have hneg : ((-125 / 2 : ℝ) / 1250) = -(1 / 20) := by norm_num
    rw [hneg, Real.arctan_neg, neg_mul, neg_div, neg_lt_neg_iff, lt_div_iff₀ hpi]
    linarith

/-! ## Sorting the corners of an axis-aligned rectangle -/

theorem unguardedLinearInsert_map {α β : Type} (f : α → β) (comp : α → α → Bool)
    (comp' : β → β → Bool) (h : ∀ a b, comp' (f a) (f b) = comp a b) (val : α)
    (sorted : List α) :
    unguardedLinearInsert comp' (f val) (sorted.map f)
      = (unguardedLinearInsert comp val sorted).map f := by
  have hc : comp' (f val) ∘ f = comp val := funext (fun b => h val b)
  unfold unguardedLinearInsert
  rw [← List.map_reverse, List.dropWhile_map, List.takeWhile_map, hc]
  simp only [List.map_append, List.map_cons, List.map_reverse]

theorem insertionStep_map {α β : Type} (f : α → β) (comp : α → α → Bool)
    (comp' : β → β → Bool) (h : ∀ a b, comp' (f a) (f b) = comp a b) (sorted : List α)
    (val : α) :
    insertionStep comp' (sorted.map f) (f val) = (insertionStep comp sorted val).map f := by
  cases sorted with
  | nil => rfl
  | cons first rest =>
    simp only [insertionStep, List.map_cons, h]
    split
    · rfl
    · exact unguardedLinearInsert_map f comp comp' h val (first :: rest)

theorem std_sort_map {α β : Type} (f : α → β) (comp : α → α → Bool)
    (comp' : β → β → Bool) (h : ∀ a b, comp' (f a) (f b) = comp a b) (l : List α) :
    std_sort comp' (l.map f) = (std_sort comp l).map f := by
  have key : ∀ (l acc : List α), List.foldl (insertionStep comp') (acc.map f) (l.map f)
      = (List.foldl (insertionStep comp) acc l).map f := by
    intro l
    induction l with
    | nil => intro acc; rfl
    | cons a l ih =>
      intro acc
      simp only [List.map_cons, List.foldl_cons]
      rw [insertionStep_map f comp comp' h, ih]
  exact key l []

theorem cornerLess_axisCorner (x0 x1 y0 y1 : ℚ) (hw : x0 < x1) (hh : y0 + 5 ≤ y1)
    (i j : Fin 4) :
    cornerLess (axisCorner x0 x1 y0 y1 i) (axisCorner x0 x1 y0 y1 j) = decide (i < j) := by
  have h1 : |y0 - y1| = y1 - y0 := by
    rw [abs_sub_comm]
    exact abs_of_nonneg (by linarith)
  have h2 : |y1 - y0| = y1 - y0 := abs_of_nonneg (by linarith)
  have h3 : ¬ (y1 - y0 < 5) := by linarith
  have h4 : ¬ (x1 < x0) := by linarith
  have h5 : ¬ (y1 < y0) := by linarith
  have h6 : y0 < y1 := by linarith
  fin_cases i <;> fin_cases j <;>
    simp [cornerLess, axisCorner, h1, h2, h3, h4, h5, h6, hw]

theorem sort_indices :
    ∀ idx ∈ List.permutations' [(0 : Fin 4), 1, 2, 3],
      std_sort (fun a b => decide (a < b)) idx = [0, 1, 2, 3] := by
  decide

/-- C21: for every axis-aligned rectangle of height at least 5 px and positive
width, in whatever order its 4 corners are supplied, sorting them with the
comparator of the corner extractor yields the order top-left, top-right,
bottom-left, bottom-right. -/
theorem axis_aligned_corners_sorted (x0 x1 y0 y1 : ℚ) (hw : x0 < x1) (hh : y0 + 5 ≤ y1)
    (corners : List Point2f)
    (hperm : corners.Perm [⟨x0, y0⟩, ⟨x1, y0⟩, ⟨x1, y1⟩, ⟨x0, y1⟩]) :
    std_sort cornerLess corners = [⟨x0, y0⟩, ⟨x1, y0⟩, ⟨x0, y1⟩, ⟨x1, y1⟩] := by
  have hp : corners.Perm (List.map (axisCorner x0 x1 y0 y1) [0, 1, 2, 3]) := by
    refine hperm.trans ?_
    show List.Perm [(⟨x0, y0⟩ : Point2f), ⟨x1, y0⟩, ⟨x1, y1⟩, ⟨x0, y1⟩]
      [⟨x0, y0⟩, ⟨x1, y0⟩, ⟨x0, y1⟩, ⟨x1, y1⟩]
    exact List.Perm.cons _ (List.Perm.cons _ (List.Perm.swap _ _ _))
  rw [← List.mem_permutations', ← List.map_permutations', List.mem_map] at hp
  obtain ⟨idx, hidx, rfl⟩ := hp
  rw [std_sort_map (axisCorner x0 x1 y0 y1) (fun a b => decide (a < b)) cornerLess
    (cornerLess_axisCorner x0 x1 y0 y1 hw hh), sort_indices idx hidx]
  rfl

/-- Witness for C21: the armor of Scenario 1 with its corners in the order of
`RotatedRect::points` (bottom-left, top-left, top-right, bottom-right). -/
theorem axis_aligned_corners_sorted_witness :
    std_sort cornerLess [⟨280, 260⟩, ⟨280, 220⟩, ⟨360, 220⟩, ⟨360, 260⟩]
      = [⟨280, 220⟩, ⟨360, 220⟩, ⟨280, 260⟩, ⟨360, 260⟩] :=
  axis_aligned_corners_sorted 280 360 220 260 (by norm_num) (by norm_num) _ (by decide!)

/-! ## An accepted pose solution never fires -/

theorem distance_factor_fin (x : FullTargetingResult) (q : ℚ) (hd : x.distance_3d = fin q) :
    distance_factor x = fin (max 0 (1 - q / 8)) := by
  unfold distance_factor
  have h8 : (OfScientific.ofScientific 80 true 1 : ℚ) ≠ 0 := by norm_num
  simp only [hd, Dbl.ofScientific_eq, Dbl.fin_div_of_ne _ _ h8, Dbl.fin_sub, std_max, Dbl.fin_lt]
  split
  · rename_i h
    norm_num at h ⊢
    exact le_of_lt h
  · rename_i h
    norm_num at h ⊢
    exact h

theorem distance_factor_nan (x : FullTargetingResult) (hd : x.distance_3d = nan) :
    distance_factor x = fin 0 := by
  unfold distance_factor
  rw [hd]
  show std_max 0.0 (Dbl.sub 1.0 (Dbl.div nan (fin _))) = _
  norm_num [Dbl.div, Dbl.sub, Dbl.add, Dbl.neg, std_max]

theorem hit_le_distance_factor (E : Extern) (x : FullTargetingResult) (c a : ℚ)
    (hc : x.confidence = fin c) (h0 : 0 ≤ c) (h1 : c ≤ 100)
    (ha : distance_factor x = fin a) (ha0 : 0 ≤ a) :
    ∃ p, (fireDecision E x).hit_probability = fin p ∧ 0 ≤ p ∧ p ≤ a := by
  obtain ⟨b, hb, hb0, hb1⟩ := confidence_factor_range x c hc h0 h1
  obtain ⟨v, hv, hv0, hv1⟩ := velocity_factor_range E x
  unfold fireDecision
  dsimp only
  rw [ha, hb, hv, Dbl.fin_mul, Dbl.fin_mul]
  have hab0 : 0 ≤ a * b := mul_nonneg ha0 hb0
  have hab1 : a * b ≤ a := by nlinarith
  exact ⟨_, rfl, mul_nonneg hab0 hv0, by nlinarith⟩

theorem fireDecision_can_fire (E : Extern) (x : FullTargetingResult) :
    (fireDecision E x).can_fire =
      (decide ((0.5 : Dbl) < (fireDecision E x).hit_probability) &&
        decide ((1.0 : Dbl) < x.distance_3d) && decide (x.distance_3d < (8.0 : Dbl))) := by
  unfold fireDecision
  rfl

theorem firing_solved_eq (E : Extern) (x : FullTargetingResult)
    (hs : x.position_solved = true) :
    calculateFiringSolution E x = fireDecision E (firingAngles E (flightAndDrop E x)) := by
  unfold calculateFiringSolution
  simp only [hs, Bool.not_true, Bool.false_eq_true, if_false]

theorem no_fallback_distance {success : Bool} {x : FullTargetingResult}
    (h : needsFallback success x = false) :
    x.distance_3d = nan ∨
      ∃ q, x.distance_3d = fin q ∧ 5 ≤ q ∧ q ≤ 1000 := by
  unfold needsFallback at h
  simp only [Bool.or_eq_false_iff, decide_eq_false_iff_not] at h
  obtain ⟨⟨_, h5⟩, h1000⟩ := h
  cases hd : x.distance_3d with
  | fin q =>
    right
    rw [hd] at h5 h1000
    simp only [Dbl.ofScientific_eq, Dbl.fin_lt, not_lt] at h5 h1000
    norm_num at h5 h1000
    exact ⟨q, rfl, h5, h1000⟩
  | pinf =>
    rw [hd] at h1000
    exact absurd (by simp : (1000.0 : Dbl) < pinf) h1000
  | ninf =>
    rw [hd] at h5
    exact absurd (by simp : ninf < (5.0 : Dbl)) h5
  | nan => exact Or.inl rfl

/-- C22: for a detected armor with 4 corners and a confidence in `[0, 100]`: when
`calculate3DPosition` accepts the solver's outcome (success and no fallback, so
that `distance_3d` is in `[5, 1000]`, or NaN if the square root was), then after
`predictTargetMotion` and `calculateFiringSolution` the hit probability is at
most 0.375 and `can_fire = false`.  So `can_fire = true` is reached only through
the 2D fallback, and it implies `distance_3d < 4`. -/
theorem accepted_pose_never_fires (E : Extern) (target_history : List FullTargetingResult)
    (r : FullTargetingResult) (c : ℚ) (hc : r.confidence = fin c) (h0 : 0 ≤ c) (h100 : c ≤ 100)
    (hdet : r.armor_detected = true) (hlen : r.armor_corners.length = 4) :
    (((E.solvePnP (armorModel r) r.armor_corners).success = true ∧
        needsFallback (takePnP E r (E.solvePnP (armorModel r) r.armor_corners)).2
          (takePnP E r (E.solvePnP (armorModel r) r.armor_corners)).1 = false) →
      ((calculate3DPosition E r).distance_3d = nan ∨
        ((5.0 : Dbl) ≤ (calculate3DPosition E r).distance_3d ∧
          (calculate3DPosition E r).distance_3d ≤ (1000.0 : Dbl))) ∧
      (calculateFiringSolution E
        (predictTargetMotion target_history (calculate3DPosition E r))).hit_probability
          ≤ (0.375 : Dbl) ∧
      (calculateFiringSolution E
        (predictTargetMotion target_history (calculate3DPosition E r))).can_fire = false) ∧
    ((calculateFiringSolution E
        (predictTargetMotion target_history (calculate3DPosition E r))).can_fire = true →
      ((E.solvePnP (armorModel r) r.armor_corners).success = false ∨
        needsFallback (takePnP E r (E.solvePnP (armorModel r) r.armor_corners)).2
          (takePnP E r (E.solvePnP (armorModel r) r.armor_corners)).1 = true) ∧
      (calculateFiringSolution E
        (predictTargetMotion target_history (calculate3DPosition E r))).distance_3d
          < (4.0 : Dbl)) := by
  have hsol := c3d_solved E r hdet hlen
  have hpsol : (predictTargetMotion target_history (calculate3DPosition E r)).position_solved
      = true := by
    rw [(predict_fields _ _).2.2.2.2.2.2]; exact hsol
  have hout := firing_solved_eq E _ hpsol
  obtain ⟨c', hc', h0', h100'⟩ := c3d_conf_range E r c hc h0 h100
  have hxd : (firingAngles E (flightAndDrop E
      (predictTargetMotion target_history (calculate3DPosition E r)))).distance_3d
        = (calculate3DPosition E r).distance_3d := by
    rw [(firingAngles_fields E _).2.2.1, (flightAndDrop_fields E _).2.2.1,
      (predict_fields _ _).2.2.2.2.1]
  have hxc : (firingAngles E (flightAndDrop E
      (predictTargetMotion target_history (calculate3DPosition E r)))).confidence = fin c' := by
    rw [(firingAngles_fields E _).2.1, (flightAndDrop_fields E _).2.1,
      (predict_fields _ _).2.2.2.1, hc']
  have hod : (calculateFiringSolution E
      (predictTargetMotion target_history (calculate3DPosition E r))).distance_3d
        = (calculate3DPosition E r).distance_3d := by
    rw [(firing_fields E _).2.2.1, (predict_fields _ _).2.2.2.2.1]
  have part1 : ((E.solvePnP (armorModel r) r.armor_corners).success = true ∧
        needsFallback (takePnP E r (E.solvePnP (armorModel r) r.armor_corners)).2
          (takePnP E r (E.solvePnP (armorModel r) r.armor_corners)).1 = false) →
      ((calculate3DPosition E r).distance_3d = nan ∨
        ((5.0 : Dbl) ≤ (calculate3DPosition E r).distance_3d ∧
          (calculate3DPosition E r).distance_3d ≤ (1000.0 : Dbl))) ∧
      (calculateFiringSolution E
        (predictTargetMotion target_history (calculate3DPosition E r))).hit_probability
          ≤ (0.375 : Dbl) ∧
      (calculateFiringSolution E
        (predictTargetMotion target_history (calculate3DPosition E r))).can_fire = false := by
    rintro ⟨hs, hfb⟩
    have hd : (calculate3DPosition E r).distance_3d
        = (takePnP E r (E.solvePnP (armorModel r) r.armor_corners)).1.distance_3d := by
      rw [c3d_accepted E r hdet hlen hs hfb, (anglesGuarded_fields E _).2.2.2.2.1,
        (penalize_fields _ _).2.2.2.1]
    have hrange := no_fallback_distance hfb
    rw [← hd] at hrange
    have hfac : ∃ a, distance_factor (firingAngles E (flightAndDrop E
        (predictTargetMotion target_history (calculate3DPosition E r)))) = fin a ∧
        0 ≤ a ∧ a ≤ 3 / 8 := by
      rcases hrange with hn | ⟨q, hq, h5, _⟩
      · exact ⟨0, distance_factor_nan _ (by rw [hxd, hn]), le_refl _, by norm_num⟩
      · refine ⟨_, distance_factor_fin _ q (by rw [hxd, hq]), le_max_left _ _, ?_⟩
        apply max_le (by norm_num)
        linarith
    obtain ⟨a, ha, ha0, ha1⟩ := hfac
    obtain ⟨p, hp, hp0, hpa⟩ := hit_le_distance_factor E _ c' a hxc h0' h100' ha ha0
    have hp38 : p ≤ 3 / 8 := le_trans hpa ha1
    refine ⟨?_, ?_, ?_⟩
    · rcases hrange with hn | ⟨q, hq, h5, h1000⟩
      · exact Or.inl hn
      · right
        rw [hq]
        simp only [Dbl.ofScientific_eq, Dbl.fin_le]
        norm_num
        exact ⟨h5, h1000⟩
    · rw [hout, hp]
      simp only [Dbl.ofScientific_eq, Dbl.fin_le]
      norm_num
      linarith
    · rw [hout, fireDecision_can_fire, hp]
      have : ¬ ((0.5 : Dbl) < fin p) := by
        simp only [Dbl.ofScientific_eq, Dbl.fin_lt, not_lt]
        norm_num
        linarith
      rw [decide_eq_false this]
      rfl
  refine ⟨part1, ?_⟩
  intro hfire
  have hused : (E.solvePnP (armorModel r) r.armor_corners).success = false ∨
      needsFallback (takePnP E r (E.solvePnP (armorModel r) r.armor_corners)).2
        (takePnP E r (E.solvePnP (armorModel r) r.armor_corners)).1 = true := by
    by_contra hcon
    simp only [not_or, Bool.not_eq_false, Bool.not_eq_true] at hcon
    have := (part1 hcon).2.2
    rw [hfire] at this
    exact absurd this (by decide)
  refine ⟨hused, ?_⟩
  rw [hout, fireDecision_can_fire, hxd] at hfire
  simp only [Bool.and_eq_true, decide_eq_true_eq] at hfire
  obtain ⟨⟨hhit, hd1⟩, hd8⟩ := hfire
  rw [hod]
  cases hd : (calculate3DPosition E r).distance_3d with
  | fin q =>
    rw [hd] at hd1 hd8
    have ha := distance_factor_fin (firingAngles E (flightAndDrop E
      (predictTargetMotion target_history (calculate3DPosition E r)))) q (by rw [hxd, hd])
    obtain ⟨p, hp, hp0, hpa⟩ := hit_le_distance_factor E _ c' _ hxc h0' h100' ha
      (le_max_left _ _)
    rw [hp] at hhit
    simp only [Dbl.ofScientific_eq, Dbl.fin_lt] at hhit hd1 hd8 ⊢
    norm_num at hhit hd1 hd8 ⊢
    have hmax : (1 : ℚ) / 2 < max 0 (1 - q / 8) := lt_of_lt_of_le hhit hpa
    rcases lt_max_iff.mp hmax with h | h
    · norm_num at h
    · linarith
  | pinf =>
    rw [hd] at hd8
    exact absurd hd8 (by simp)
  | ninf =>
    rw [hd] at hd1
    exact absurd hd1 (by simp)
  | nan =>
    rw [hd] at hd1
    exact absurd hd1 (by simp)

/-- Witness for C22: the wide armor (confidence 100) with an accepted solve 6 cm in
front of the camera: the hit probability is at most 0.375 and nothing fires. -/
theorem accepted_pose_never_fires_witness :
    (calculateFiringSolution (evalExtern pnpNear ⟨5000, 1250⟩ true)
      (predictTargetMotion [] (calculate3DPosition (evalExtern pnpNear ⟨5000, 1250⟩ true)
        wideDetection))).hit_probability ≤ (0.375 : Dbl) ∧
    (calculateFiringSolution (evalExtern pnpNear ⟨5000, 1250⟩ true)
      (predictTargetMotion [] (calculate3DPosition (evalExtern pnpNear ⟨5000, 1250⟩ true)
        wideDetection))).can_fire = false :=
  ((accepted_pose_never_fires (evalExtern pnpNear ⟨5000, 1250⟩ true) [] wideDetection 100
    (by decide!) (by norm_num) (by norm_num) (by decide!) (by decide!)).1
    ⟨rfl, (needsFallback_iff (evalExtern pnpNear ⟨5000, 1250⟩ true) sqrtExact_ne_nan
      wideDetection pnpNear rfl).mpr (pnpNear_accepted ⟨5000, 1250⟩ true)⟩).2

/-! ## The position of a detected armor is always solved -/

theorem unguardedLinearInsert_length {α : Type} (comp : α → α → Bool) (val : α)
    (sorted : List α) :
    (unguardedLinearInsert comp val sorted).length = sorted.length + 1 := by
  unfold unguardedLinearInsert
  have h := congrArg List.length (List.takeWhile_append_dropWhile (comp val) sorted.reverse)
  simp only [List.length_append, List.length_reverse] at h
  simp only [List.length_append, List.length_cons, List.length_reverse]
  omega

theorem insertionStep_length {α : Type} (comp : α → α → Bool) (sorted : List α) (val : α) :
    (insertionStep comp sorted val).length = sorted.length + 1 := by
  cases sorted with
  | nil => rfl
  | cons first rest =>
    simp only [insertionStep]
    split
    · rfl
    · exact unguardedLinearInsert_length comp val (first :: rest)

theorem std_sort_length {α : Type} (comp : α → α → Bool) (l : List α) :
    (std_sort comp l).length = l.length := by
  have key : ∀ (l acc : List α),
      (List.foldl (insertionStep comp) acc l).length = acc.length + l.length := by
    intro l
    induction l with
    | nil => intro acc; rfl
    | cons a l ih =>
      intro acc
      rw [List.foldl_cons, ih, insertionStep_length, List.length_cons]
      omega
  have h := key l []
  simpa [std_sort] using h

theorem pvd_corners_length (params : DetectionParams) (color : ArmorColor) (cs : List Contour)
    (hdet : (performVisionDetection params color cs).armor_detected = true) :
    (performVisionDetection params color cs).armor_corners.length = 4 := by
  rcases analyze_cases params cs with ⟨h0, _⟩ | ⟨k, c, hk, _, hres, _, _, _⟩
  · rw [pvd_of_none params color cs h0] at hdet
    exact absurd hdet (by decide)
  · rw [pvd_of_selected params color cs k c hk hres]
    exact std_sort_length cornerLess _

/-- C23: for every input result with `armor_detected` and exactly 4
`armor_corners`, whatever the pose solver returns (success or failure, finite or
not), `calculate3DPosition` returns `position_solved = true`.  A detected armor
has 4 corners, so in `runCompleteAutoAim` the early return on `position_solved`
is never taken for a detected armor: the result is the one that went through
motion prediction, firing solution and validation. -/
theorem position_solved_for_detected_armor (E : Extern) :
    (∀ r : FullTargetingResult, r.armor_detected = true → r.armor_corners.length = 4 →
      (calculate3DPosition E r).position_solved = true) ∧
    (∀ (params : DetectionParams) (enemy_color : ArmorColor)
      (target_history : List FullTargetingResult) (robot_type : Int) (contours : List Contour),
      (performVisionDetection params enemy_color contours).armor_detected = true →
      (performVisionDetection params enemy_color contours).armor_corners.length = 4 ∧
      (calculate3DPosition E
        (performVisionDetection params enemy_color contours)).position_solved = true ∧
      runCompleteAutoAim E params enemy_color target_history robot_type contours
        = validateTarget E robot_type (calculateFiringSolution E
            (predictTargetMotion target_history
              (calculate3DPosition E (performVisionDetection params enemy_color contours)))) ∧
      (runCompleteAutoAim E params enemy_color target_history robot_type
        contours).position_solved = true) := by
  refine ⟨fun r hdet hlen => c3d_solved E r hdet hlen, ?_⟩
  intro params enemy_color target_history robot_type contours hdet
  have hlen := pvd_corners_length params enemy_color contours hdet
  have hsol := c3d_solved E _ hdet hlen
  have hrun : runCompleteAutoAim E params enemy_color target_history robot_type contours
      = validateTarget E robot_type (calculateFiringSolution E
          (predictTargetMotion target_history
            (calculate3DPosition E (performVisionDetection params enemy_color contours)))) := by
    unfold runCompleteAutoAim
    dsimp only
    rw [if_neg (by rw [hdet]; decide), if_neg (by rw [hsol]; decide)]
  refine ⟨hlen, hsol, hrun, ?_⟩
  rw [hrun, (validate_fields E _ _).2.2.2.2.2, (firing_fields E _).2.2.2.2,
    (predict_fields _ _).2.2.2.2.2.2]
  exact hsol

/-- Witness for C23: the armor of Scenario 1 with a pose solver that reports success
with a NaN in `tvec`. -/
theorem position_solved_for_detected_armor_witness :
    (calculate3DPosition (evalExtern ⟨true, {}, ⟨nan, 0, 0⟩⟩ ⟨80, 40⟩ true)
      scenarioDetection).position_solved = true :=
  (position_solved_for_detected_armor (evalExtern ⟨true, {}, ⟨nan, 0, 0⟩⟩ ⟨80, 40⟩ true)).1
    scenarioDetection (by decide!) (by decide!)

/-! ## The corner comparator is not a strict weak ordering -/

/-- C24: the comparator of the corner sort is not a strict weak ordering.  For
`a = (0, 6)`, `b = (1, 3)`, `c = (2, 0)` it orders `a` before `b` and `b` before
`c`, but not `a` before `c`; it orders `c` before `a`.  The corner order of a
rotated rectangle can depend on the order in which its corners are supplied:
the square with corners `(1, 0)`, `(2, 1)`, `(1, 2)`, `(0, 1)` is sorted to
`(0, 1)`, `(1, 0)`, `(1, 2)`, `(2, 1)` when the walk around it starts at
`(1, 0)` and to `(0, 1)`, `(1, 2)`, `(1, 0)`, `(2, 1)` when it starts at
`(1, 2)`. -/
theorem cornerLess_not_strict_weak_ordering :
    (cornerLess ⟨0, 6⟩ ⟨1, 3⟩ = true ∧ cornerLess ⟨1, 3⟩ ⟨2, 0⟩ = true ∧
      cornerLess ⟨0, 6⟩ ⟨2, 0⟩ = false ∧ cornerLess ⟨2, 0⟩ ⟨0, 6⟩ = true) ∧
    ¬ strictWeakOrdering cornerLess ∧
    (isRectangle ⟨1, 0⟩ ⟨2, 1⟩ ⟨1, 2⟩ ⟨0, 1⟩ ∧
      List.Perm [(⟨1, 2⟩ : Point2f), ⟨0, 1⟩, ⟨1, 0⟩, ⟨2, 1⟩] [⟨1, 0⟩, ⟨2, 1⟩, ⟨1, 2⟩, ⟨0, 1⟩] ∧
      std_sort cornerLess [⟨1, 0⟩, ⟨2, 1⟩, ⟨1, 2⟩, ⟨0, 1⟩]
        = [⟨0, 1⟩, ⟨1, 0⟩, ⟨1, 2⟩, ⟨2, 1⟩] ∧
      std_sort cornerLess [⟨1, 2⟩, ⟨0, 1⟩, ⟨1, 0⟩, ⟨2, 1⟩]
        = [⟨0, 1⟩, ⟨1, 2⟩, ⟨1, 0⟩, ⟨2, 1⟩] ∧
      std_sort cornerLess [⟨1, 0⟩, ⟨2, 1⟩, ⟨1, 2⟩, ⟨0, 1⟩]
        ≠ std_sort cornerLess [⟨1, 2⟩, ⟨0, 1⟩, ⟨1, 0⟩, ⟨2, 1⟩]) := by
  have h : cornerLess ⟨0, 6⟩ ⟨1, 3⟩ = true ∧ cornerLess ⟨1, 3⟩ ⟨2, 0⟩ = true ∧
      cornerLess ⟨0, 6⟩ ⟨2, 0⟩ = false ∧ cornerLess ⟨2, 0⟩ ⟨0, 6⟩ = true := by decide!
  refine ⟨h, ?_, by decide!⟩
  intro hswo
  have hac := hswo.2.1 ⟨0, 6⟩ ⟨1, 3⟩ ⟨2, 0⟩ h.1 h.2.1
  rw [h.2.2.1] at hac
  exact absurd hac (by decide)

/-! ## The sign of the pitch in the 2D fallback -/

theorem anglesGuarded_pitch (E : Extern) (r : FullTargetingResult) :
    (anglesGuarded E r).pitch_angle =
      if (isfinite r.position_3d.v0 && isfinite r.position_3d.v1 &&
          isfinite r.position_3d.v2) = true then
        if (Dbl.ne r.position_3d.v0 0.0 || Dbl.ne r.position_3d.v2 0.0) = true then
          pitchOf E r.position_3d
        else 0.0
      else 0.0 := by
  unfold anglesGuarded
  split
  · split <;> rfl
  · rfl

theorem pitchOf_fin (E : Extern)
    (hsqrt : ∀ q t : ℚ, 0 ≤ t → t * t ≤ q → ∃ s, E.sqrt (fin q) = fin s ∧ t ≤ s)
    (hatan : ∀ y x : ℚ, 0 < x → ∃ a, E.atan2 (fin y) (fin x) = fin a ∧
      (0 < y → 0 < a) ∧ (y < 0 → a < 0) ∧ (y = 0 → a = 0) ∧ (fin (2 * |a|) : Dbl) < M_PI)
    (x y z : ℚ) (hz : 1 / 1000 < z) :
    ∃ p, pitchOf E ⟨fin x, fin y, fin z⟩ = fin p ∧
      (0 < -y → 0 < p) ∧ (-y < 0 → p < 0) ∧ (-y = 0 → p = 0) ∧ |p| < 90 := by
  obtain ⟨s, hs, hzs⟩ := hsqrt (x * x + z * z) z (by linarith) (by nlinarith [mul_self_nonneg x])
  have hs0 : 0 < s := by linarith
  obtain ⟨a, ha, hpos, hneg, hzero, hrange⟩ := hatan (-y) s hs0
  have hh : horizontalDist E ⟨fin x, fin y, fin z⟩ = fin s := by
    unfold horizontalDist
    simp only [Dbl.fin_mul, Dbl.fin_add]
    exact hs
  have hguard : (0.001 : Dbl) < fin s := by
    simp only [Dbl.ofScientific_eq, Dbl.fin_lt]
    norm_num
    linarith
  have hpi : (OfScientific.ofScientific 314159265358979323846 true 20 : ℚ) ≠ 0 := by norm_num
  have hpi0 : (0 : ℚ) < OfScientific.ofScientific 314159265358979323846 true 20 := by norm_num
  unfold M_PI at hrange
  simp only [Dbl.ofScientific_eq, Dbl.fin_lt] at hrange
  refine ⟨a * 180 / OfScientific.ofScientific 314159265358979323846 true 20, ?_, ?_, ?_, ?_, ?_⟩
  · unfold pitchOf
    rw [hh, if_pos hguard]
    show E.atan2 (-(fin y)) (fin s) * 180.0 / M_PI = _
    rw [Dbl.fin_neg, ha]
    unfold M_PI
    simp only [Dbl.ofScientific_eq, Dbl.fin_mul, Dbl.fin_div_of_ne _ _ hpi]
    norm_num
  · intro h
    have := hpos h
    positivity
  · intro h
    have := hneg h
    apply div_neg_of_neg_of_pos _ hpi0
    linarith
  · intro h
    rw [hzero h]
    norm_num
  · rw [abs_div, abs_mul, abs_of_pos hpi0, div_lt_iff₀ hpi0]
    have h180 : |(180 : ℚ)| = 180 := abs_of_pos (by norm_num)
    rw [h180]
    linarith

theorem fallback_pitch_eq (E : Extern) (r : FullTargetingResult)
    (hdet : r.armor_detected = true) (hlen : r.armor_corners.length = 4)
    (hw : 0 < armorWidthPx E r.armor_corners)
    (hfb : (E.solvePnP (armorModel r) r.armor_corners).success = false ∨
      needsFallback (takePnP E r (E.solvePnP (armorModel r) r.armor_corners)).2
        (takePnP E r (E.solvePnP (armorModel r) r.armor_corners)).1 = true) :
    (calculate3DPosition E r).pitch_angle =
      pitchOf E ⟨fin ((((cornerAt r 0).x + (cornerAt r 2).x) / 2 - 320)
          * (10000 / armorWidthPx E r.armor_corners) * 10 / 800),
        fin (-(((cornerAt r 0).y + (cornerAt r 2).y) / 2 - 240)
          * (10000 / armorWidthPx E r.armor_corners) * 10 / 800),
        fin (10000 / armorWidthPx E r.armor_corners * 10)⟩ := by
  have hzne : Dbl.ne (fin (10000 / armorWidthPx E r.armor_corners * 10)) 0.0 = true := by
    simp only [Dbl.ofScientific_eq, Dbl.ne, Dbl.eq, Bool.not_eq_true', decide_eq_false_iff_not]
    norm_num
    exact ne_of_gt hw
  by_cases hs : (E.solvePnP (armorModel r) r.armor_corners).success = true
  · have hfb' : needsFallback (takePnP E r (E.solvePnP (armorModel r) r.armor_corners)).2
        (takePnP E r (E.solvePnP (armorModel r) r.armor_corners)).1 = true := by
      rcases hfb with h | h
      · rw [hs] at h
        exact absurd h (by decide)
      · exact h
    have hpos := (rejected_pose E r hdet hlen hs hfb').2.1
    rw [fallbackDistanceSpec_pos _ hw, fallbackPositionSpec_fin] at hpos
    rw [c3d_rejected E r hdet hlen hs hfb'] at hpos ⊢
    rw [(anglesGuarded_pose E _).1] at hpos
    rw [anglesGuarded_pitch, hpos]
    rw [if_pos (by rfl), hzne, Bool.or_true, if_pos rfl]
  · have hs' : (E.solvePnP (armorModel r) r.armor_corners).success = false := by
      simpa using hs
    rw [c3d_failed E r hdet hlen hs']
    have hpos := (fallbackNoPnP_spec E r).2.1
    rw [fallbackDistanceSpec_pos _ hw, fallbackPositionSpec_fin] at hpos
    have hpitch : (fallbackNoPnP E r).pitch_angle = pitchOf E (fallbackNoPnP E r).position_3d := by
      simp [fallbackNoPnP]
    rw [hpitch, hpos]

/-- C25: whenever the 2D fallback is used with a positive armor width (below
`10^8` px, so that the target is more than 0.001 mm away), the sign of
`pitch_angle` is the sign of `cy − 240`, where `cy` is the y of the midpoint of
corners 0 and 2: a centre pixel above the principal point (`cy < 240`) gets a
strictly negative pitch, one below it a strictly positive pitch, and
`|pitch_angle| < 90`.  The library functions are taken to behave as the real
ones: the square root of `q` is not below `t` when `t² <= q`, and `atan2(y, x)`
for a positive `x` has the sign of `y` and lies inside `(-π/2, π/2)`. -/
theorem fallback_pitch_sign (E : Extern)
    (hsqrt : ∀ q t : ℚ, 0 ≤ t → t * t ≤ q → ∃ s, E.sqrt (fin q) = fin s ∧ t ≤ s)
    (hatan : ∀ y x : ℚ, 0 < x → ∃ a, E.atan2 (fin y) (fin x) = fin a ∧
      (0 < y → 0 < a) ∧ (y < 0 → a < 0) ∧ (y = 0 → a = 0) ∧ (fin (2 * |a|) : Dbl) < M_PI)
    (r : FullTargetingResult)
    (hdet : r.armor_detected = true) (hlen : r.armor_corners.length = 4)
    (hw : 0 < armorWidthPx E r.armor_corners)
    (hw8 : armorWidthPx E r.armor_corners < 100000000)
    (hfb : (E.solvePnP (armorModel r) r.armor_corners).success = false ∨
      needsFallback (takePnP E r (E.solvePnP (armorModel r) r.armor_corners)).2
        (takePnP E r (E.solvePnP (armorModel r) r.armor_corners)).1 = true) :
    ∃ p, (calculate3DPosition E r).pitch_angle = fin p ∧
      (((cornerAt r 0).y + (cornerAt r 2).y) / 2 < 240 → p < 0) ∧
      (240 < ((cornerAt r 0).y + (cornerAt r 2).y) / 2 → 0 < p) ∧
      (((cornerAt r 0).y + (cornerAt r 2).y) / 2 = 240 → p = 0) ∧
      |p| < 90 := by
  rw [fallback_pitch_eq E r hdet hlen hw hfb]
  generalize armorWidthPx E r.armor_corners = w at hw hw8
  generalize ((cornerAt r 0).y + (cornerAt r 2).y) / 2 = cy
  generalize ((cornerAt r 0).x + (cornerAt r 2).x) / 2 = cx
  have hd : 0 < 10000 / w := by positivity
  have hz : 1 / 1000 < 10000 / w * 10 := by
    rw [div_mul_eq_mul_div, lt_div_iff₀ hw]
    linarith
  obtain ⟨p, hp, hpos, hneg, hzero, habs⟩ := pitchOf_fin E hsqrt hatan
    ((cx - 320) * (10000 / w) * 10 / 800) (-(cy - 240) * (10000 / w) * 10 / 800)
    (10000 / w * 10) hz
  have hy : -(-(cy - 240) * (10000 / w) * 10 / 800) = (cy - 240) * ((10000 / w) / 80) := by
    ring
  have hd80 : 0 < 10000 / w / 80 := by positivity
  rw [hy] at hpos hneg hzero
  refine ⟨p, hp, ?_, ?_, ?_, habs⟩
  · intro h
    exact hneg (mul_neg_of_neg_of_pos (by linarith) hd80)
  · intro h
    exact hpos (mul_pos (by linarith) hd80)
  · intro h
    apply hzero
    rw [h]
    ring

theorem sqrtUpper_bound (q t : ℚ) (_ht : 0 ≤ t) (h : t * t ≤ q) :
    ∃ s, sqrtUpper (fin q) = fin s ∧ t ≤ s := by
  refine ⟨(q + 1) / 2, rfl, ?_⟩
  nlinarith [mul_self_nonneg (t - 1)]

theorem atan2Approx_sign (y x : ℚ) (hx : 0 < x) :
    ∃ a, atan2Approx (fin y) (fin x) = fin a ∧
      (0 < y → 0 < a) ∧ (y < 0 → a < 0) ∧ (y = 0 → a = 0) ∧ (fin (2 * |a|) : Dbl) < M_PI := by
  have hden : 0 < x + |y| := by
    have := abs_nonneg y
    linarith
  refine ⟨3 / 2 * y / (x + |y|), rfl, ?_, ?_, ?_, ?_⟩
  · intro h
    positivity
  · intro h
    apply div_neg_of_neg_of_pos _ hden
    linarith
  · intro h
    rw [h]
    norm_num
  · unfold M_PI
    simp only [Dbl.ofScientific_eq, Dbl.fin_lt]
    have h1 : |3 / 2 * y / (x + |y|)| = 3 / 2 * |y| / (x + |y|) := by
      rw [abs_div, abs_mul, abs_of_pos hden, abs_of_pos (by norm_num : (0 : ℚ) < 3 / 2)]
    have h2 : 3 / 2 * |y| / (x + |y|) < 3 / 2 := by
      rw [div_lt_iff₀ hden]
      nlinarith [abs_nonneg y]
    rw [h1]
    norm_num
    linarith

/-- Witness for C25: the armor of 80 by 40 pixels centred at `(320, 140)`, one
hundred pixels above the principal point, with the solver failing: the pitch
is negative. -/
theorem fallback_pitch_sign_witness :
    ∃ p, (calculate3DPosition angleExtern (detectionAtHeight 140)).pitch_angle = fin p ∧
      p < 0 ∧ |p| < 90 :=
  have h := fallback_pitch_sign angleExtern sqrtUpper_bound atan2Approx_sign
    (detectionAtHeight 140) (by decide!) (by decide!) (by decide!) (by decide!) (Or.inl rfl)
  h.elim (fun p hp => ⟨p, hp.1, hp.2.1 (by decide!), hp.2.2.2.2⟩)

end AutoAim
